import Mathlib

/-!
# NMEA decoder of the serial GPS HAL (`gps.c`)

A shallow embedding of the sentence tokenizer, the scalar converters and the
fix aggregator of `gps.c`, followed by theorems about them.

Conventions of the embedding.

* Memory is a function from addresses to bytes (`Nat → Nat`); a `char*` is an
  address.  The sentence buffer `r->in` occupies addresses `0 .. 255`.
* C `int` values are `Int`; where the source computes in `int` and the value can
  leave the 32-bit range the result is reduced with `wrap32`.
* `double` and `float` values are exact rationals; `strtod`, the narrowing to
  `float` and the clock are inputs of the model (`Env`).
-/

namespace GpsNmea

/-! ## Tokenizer -/

/-- `#define MAX_NMEA_TOKENS 32`. -/
def MAX_NMEA_TOKENS : Nat := 32

/-- `Token`: a field view, the address of its first byte and the address just
after its last byte. -/
structure Token where
  p : Nat
  end_ : Nat
  deriving DecidableEq, Repr

/-- `NmeaTokenizer`: `count` and the entries `tokens[0 .. count)` that have been
written (the rest of the C array is never initialised and never read). -/
structure NmeaTokenizer where
  count : Nat
  tokens : List Token
  deriving DecidableEq, Repr

/-- `memchr(p, c, n)`: address of the first byte equal to `c` among the `n`
bytes starting at `p`, or `none` for `NULL`. -/
def memchr (mem : Nat → Nat) (c : Nat) : Nat → Nat → Option Nat
  | _, 0 => none
  | p, n + 1 => if mem p = c then some p else memchr mem c (p + 1) n

/-- Lines 80-94 of `nmea_tokenizer_init`: skip one leading `$`, drop a trailing
`\n` (and a `\r` before it), then drop three bytes when the third from the end
is `*`.  Returns the adjusted `(p, end)`. -/
def nmea_strip (mem : Nat → Nat) (p e : Nat) : Nat × Nat :=
  let p1 := if p < e ∧ mem p = 36 then p + 1 else p
  let e1 :=
    if e > p1 ∧ mem (e - 1) = 10 then
      (if e - 1 > p1 ∧ mem (e - 1 - 1) = 13 then e - 1 - 1 else e - 1)
    else e
  let e2 := if e1 ≥ p1 + 3 ∧ mem (e1 - 3) = 42 then e1 - 3 else e1
  (p1, e2)

/-- The `while (p < end)` loop of `nmea_tokenizer_init` (lines 96-112).  The
first argument bounds the number of iterations; `end - p` is always enough
(`tokenize_loop_fuel`). -/
def tokenize_loop (mem : Nat → Nat) (e : Nat) : Nat → Nat → NmeaTokenizer → NmeaTokenizer
  | 0, _, t => t
  | fuel + 1, p, t =>
    if p < e then
      let q := match memchr mem 44 p (e - p) with
        | some q => q
        | none => e
      let t1 : NmeaTokenizer :=
        if t.count < MAX_NMEA_TOKENS then
          { count := t.count + 1, tokens := t.tokens ++ [{ p := p, end_ := q }] }
        else t
      let q1 := if q < e then q + 1 else q
      tokenize_loop mem e fuel q1 t1
    else t

/-- `nmea_tokenizer_init(t, p, end)`; the returned tokenizer carries the
returned `count`. -/
def nmea_tokenizer_init (mem : Nat → Nat) (p e : Nat) : NmeaTokenizer :=
  let pe := nmea_strip mem p e
  tokenize_loop mem pe.2 (pe.2 - pe.1) pe.1 { count := 0, tokens := [] }

/-- Address of the string literal `""` that `nmea_tokenizer_get` hands out for
an out-of-range index: one past the 256-byte sentence buffer.  Every address
outside the buffer reads as NUL (`buf_mem`). -/
def STR_EMPTY : Nat := 256

/-- `nmea_tokenizer_get(t, index)`. -/
def nmea_tokenizer_get (t : NmeaTokenizer) (index : Int) : Token :=
  if index < 0 ∨ index ≥ (t.count : Int) ∨ index ≥ (MAX_NMEA_TOKENS : Int) then
    { p := STR_EMPTY, end_ := STR_EMPTY }
  else
    t.tokens.getD index.toNat { p := STR_EMPTY, end_ := STR_EMPTY }

/-! ## Scalar converters -/

/-- Reduction of an integer to the range of a 32-bit `int`. -/
def wrap32 (x : Int) : Int := (x + 2147483648) % 4294967296 - 2147483648

/-- The `for ( ; len > 0; len--, p++ )` loop of `str2int`, by recursion on
`len`. -/
def str2int_loop (mem : Nat → Nat) (e : Nat) : Nat → Nat → Int → Int
  | 0, _, result => result
  | len + 1, p, result =>
    if p ≥ e then -1
    else
      let c : Int := (mem p : Int) - 48
      if c % 4294967296 ≥ 10 then -1
      else str2int_loop mem e len (p + 1) (wrap32 (result * 10 + c))

/-- `str2int(p, end)`. -/
def str2int (mem : Nat → Nat) (p e : Nat) : Int :=
  str2int_loop mem e (e - p) p 0

/-- The bytes of memory in `[p, e)`. -/
def slice (mem : Nat → Nat) (p e : Nat) : List Nat :=
  (List.range (e - p)).map (fun i => mem (p + i))

/-- Memory holding the bytes of a list from address 0, NUL elsewhere. -/
def list_mem (l : List Nat) : Nat → Nat := fun a => l.getD a 0

/-! ## Reader state -/

/-- `#define NMEA_MAX_SIZE 255`; the sentence buffer has `NMEA_MAX_SIZE + 1` bytes. -/
def NMEA_MAX_SIZE : Nat := 255

/-- Modelled from the spec: the validity bit `HAS_LAT_LONG` of the fix record's
bitmask; the value is the one of the HAL header `hardware/gps.h`, which is not
part of the repository. -/
def GPS_LOCATION_HAS_LAT_LONG : Nat := 1

/-- Modelled from the spec: the validity bit `HAS_ALTITUDE` (header `hardware/gps.h`). -/
def GPS_LOCATION_HAS_ALTITUDE : Nat := 2

/-- Modelled from the spec: the validity bit `HAS_SPEED` (header `hardware/gps.h`). -/
def GPS_LOCATION_HAS_SPEED : Nat := 4

/-- Modelled from the spec: the validity bit `HAS_BEARING` (header `hardware/gps.h`). -/
def GPS_LOCATION_HAS_BEARING : Nat := 8

/-- Modelled from the spec: the validity bit `HAS_ACCURACY` (header `hardware/gps.h`). -/
def GPS_LOCATION_HAS_ACCURACY : Nat := 16

/-- `GpsLocation` (the fix record).  `flags` is the 16-bit validity bitmask;
the constant `size` member is left out. -/
structure GpsLocation where
  flags : Nat
  latitude : ℚ
  longitude : ℚ
  altitude : ℚ
  speed : ℚ
  bearing : ℚ
  accuracy : ℚ
  timestamp : Int
  deriving DecidableEq

/-- `GpsSvInfo`: one satellite of the visibility snapshot. -/
structure GpsSvInfo where
  prn : Int
  snr : ℚ
  elevation : ℚ
  azimuth : ℚ
  deriving DecidableEq

/-- `GpsSvStatus`: the visibility snapshot.  The capacity of `sv_list`
(`GPS_MAX_SVS` of the HAL header) is the length of the list. -/
structure GpsSvStatus where
  num_svs : Int
  sv_list : List GpsSvInfo
  used_in_fix_mask : Nat
  deriving DecidableEq

/-- `NmeaReader`.  The member `callback` is set to `NULL` by
`nmea_reader_init` and never read, so it is left out. -/
structure NmeaReader where
  pos : Nat
  overflow : Bool
  utc_year : Int
  utc_mon : Int
  utc_day : Int
  gsa : Bool
  fix : GpsLocation
  sv_status : GpsSvStatus
  in_ : List Nat
  deriving DecidableEq

/-- `struct tm`, the members the decoder sets. -/
structure Tm where
  tm_sec : Int
  tm_min : Int
  tm_hour : Int
  tm_mday : Int
  tm_mon : Int
  tm_year : Int
  tm_isdst : Int
  deriving DecidableEq

/-- A notification delivered to the sink (or an effect on the host). -/
inductive Event where
  /-- `nmea_cb(timestamp, r->in, r->pos)`: the raw-sentence echo. -/
  | nmea (timestamp : Int) (text : List Nat) (len : Nat)
  /-- `location_cb(&r->fix)`. -/
  | location (fix : GpsLocation)
  /-- `sv_status_cb(&r->sv_status)`. -/
  | sv_status (sv : GpsSvStatus)
  /-- `settimeofday` with the decoded instant. -/
  | settimeofday (gmt : Int)
  /-- A store to `sv_list[i]` with `i` outside the array (its effect on memory
  is not modelled). -/
  | sv_out_of_bounds (i : Int)
  deriving DecidableEq

/-- What the decoder reads from outside itself: the C library, the clock, and
the parts of `_gps_state` and of the file-scope statics that it only reads. -/
structure Env where
  /-- `strtod` on the bytes of the scratch buffer. -/
  strtod : List Nat → ℚ
  /-- Conversion of a `double` to `float`. -/
  to_float : ℚ → ℚ
  /-- `time(NULL)`. -/
  time : Int
  /-- `gmtime_r`. -/
  gmtime : Int → Tm
  /-- `timegm` (or `mktime` plus `get_utc_diff`). -/
  timegm : Tm → Int
  /-- `tv.tv_sec*1000 + tv.tv_usec/1000` after `gettimeofday`. -/
  tv_ms : Int
  /-- Content of the local `gmt` of `nmea_reader_update_date` before it is assigned. -/
  gmt_uninit : Int
  /-- `1ul << s` for a shift count outside `0 .. 31`. -/
  shl_other : Int → Nat
  /-- `_gps_state->init`. -/
  init : Bool
  /-- `_gps_state->callbacks->location_cb != NULL`: a location sink is attached. -/
  location_cb : Bool
  /-- `_gps_state->callbacks->sv_status_cb != NULL`. -/
  sv_status_cb : Bool
  /-- The static `time_sync`. -/
  time_sync : Int

/-- The mutable state of a decoding session: the reader, the static
`id_in_fixed[12]` (Used-Satellite Cache) and the notifications delivered so
far, oldest first. -/
structure State where
  r : NmeaReader
  id_in_fixed : List Int
  out : List Event
  deriving DecidableEq

/-- Memory as seen through pointers into `r->in`: the buffer at addresses
`0 .. NMEA_MAX_SIZE`, NUL at every other address (the literal `""`). -/
def buf_mem (buf : List Nat) : Nat → Nat :=
  fun a => if a < NMEA_MAX_SIZE + 1 then buf.getD a 0 else 0

/-- `str2float(p, end)`: 0 when the field does not fit the 16-byte scratch
buffer (`len` is a `size_t`, so `end < p` is rejected too). -/
def str2float (env : Env) (mem : Nat → Nat) (p e : Nat) : ℚ :=
  if e < p ∨ e - p ≥ 16 then 0
  else env.strtod (slice mem p e)

/-- Conversion `(int) x` of a `double`: truncation toward zero, reduced to 32 bits. -/
def c_int (x : ℚ) : Int :=
  wrap32 (if 0 ≤ x then Int.floor x else Int.ceil x)

/-- `nmea_reader_init`, with the capacity of `sv_list` as argument. -/
def nmea_reader_init (max_svs : Nat) : NmeaReader :=
  { pos := 0, overflow := false, utc_year := -1, utc_mon := -1, utc_day := -1,
    gsa := false,
    fix := { flags := 0, latitude := 0, longitude := 0, altitude := 0, speed := 0,
             bearing := 0, accuracy := 0, timestamp := 0 },
    sv_status := { num_svs := 0,
                   sv_list := List.replicate max_svs { prn := 0, snr := 0, elevation := 0, azimuth := 0 },
                   used_in_fix_mask := 0 },
    in_ := List.replicate (NMEA_MAX_SIZE + 1) 0 }

/-- `nmea_reader_update_time(r, tok, &gmt)`: the return value, the reader and
the content of `gmt` afterwards. -/
def nmea_reader_update_time (env : Env) (mem : Nat → Nat) (r : NmeaReader) (tok : Token)
    (gmt : Int) : Int × NmeaReader × Int :=
  if tok.p + 6 > tok.end_ then (-1, r, gmt)
  else
    let r1 : NmeaReader :=
      if r.utc_year < 0 then
        let tm := env.gmtime env.time
        { r with utc_year := tm.tm_year + 1900, utc_mon := tm.tm_mon + 1, utc_day := tm.tm_mday }
      else r
    let tm : Tm :=
      { tm_hour := str2int mem tok.p (tok.p + 2),
        tm_min := str2int mem (tok.p + 2) (tok.p + 4),
        tm_sec := c_int (str2float env mem (tok.p + 4) tok.end_),
        tm_year := r1.utc_year - 1900,
        tm_mon := r1.utc_mon - 1,
        tm_mday := r1.utc_day,
        tm_isdst := -1 }
    let gmt1 := env.timegm tm
    (0, { r1 with fix := { r1.fix with timestamp := gmt1 * 1000 } }, gmt1)

/-- `(day|mon|year) < 0`: the sign bit of a bitwise OR is the OR of the sign bits. -/
def or3_negative (day mon year : Int) : Bool :=
  decide (day < 0 ∨ mon < 0 ∨ year < 0)

/-- `nmea_reader_update_date(r, date_tok, time_tok)`: the return value and the state. -/
def nmea_reader_update_date (env : Env) (mem : Nat → Nat) (s : State) (date_tok time_tok : Token) :
    Int × State :=
  let tok := date_tok
  if tok.p + 6 ≠ tok.end_ then (-1, s)
  else
    let day := str2int mem tok.p (tok.p + 2)
    let mon := str2int mem (tok.p + 2) (tok.p + 4)
    let year := wrap32 (str2int mem (tok.p + 4) (tok.p + 6) + 2000)
    if or3_negative day mon year then (-1, s)
    else
      let r1 : NmeaReader := { s.r with utc_year := year, utc_mon := mon, utc_day := day }
      let res := nmea_reader_update_time env mem r1 time_tok env.gmt_uninit
      let gmt := res.2.2
      let out1 :=
        if 0 < env.time_sync then
          let dif := env.time - gmt
          if dif < -env.time_sync ∨ env.time_sync < dif then s.out ++ [Event.settimeofday gmt]
          else s.out
        else s.out
      (res.1, { s with r := res.2.1, out := out1 })

/-- `convert_from_hhmm(tok)`. -/
def convert_from_hhmm (env : Env) (mem : Nat → Nat) (tok : Token) : ℚ :=
  let val := str2float env mem tok.p tok.end_
  let degrees : Int := c_int (((Int.floor val : Int) : ℚ) / 100)
  let minutes : ℚ := val - (degrees : ℚ) * 100
  (degrees : ℚ) + minutes / 60

/-- `nmea_reader_update_latlong`. -/
def nmea_reader_update_latlong (env : Env) (mem : Nat → Nat) (r : NmeaReader)
    (latitude : Token) (latitudeHemi : Nat) (longitude : Token) (longitudeHemi : Nat) :
    Int × NmeaReader :=
  if latitude.p + 6 > latitude.end_ then (-1, r)
  else
    let lat0 := convert_from_hhmm env mem latitude
    let lat := if latitudeHemi = 83 then -lat0 else lat0
    if longitude.p + 6 > longitude.end_ then (-1, r)
    else
      let lon0 := convert_from_hhmm env mem longitude
      let lon := if longitudeHemi = 87 then -lon0 else lon0
      (0, { r with fix := { r.fix with flags := r.fix.flags ||| GPS_LOCATION_HAS_LAT_LONG,
                                         latitude := lat, longitude := lon } })

/-- `nmea_reader_update_altitude` (the `units` token is not used by the source). -/
def nmea_reader_update_altitude (env : Env) (mem : Nat → Nat) (r : NmeaReader)
    (altitude : Token) (_units : Token) : Int × NmeaReader :=
  if altitude.p ≥ altitude.end_ then (-1, r)
  else
    (0, { r with fix := { r.fix with flags := r.fix.flags ||| GPS_LOCATION_HAS_ALTITUDE,
                                       altitude := str2float env mem altitude.p altitude.end_ } })

/-- `nmea_reader_update_accuracy(r, accuracy, is_fix)`. -/
def nmea_reader_update_accuracy (env : Env) (mem : Nat → Nat) (r : NmeaReader)
    (accuracy : Token) (is_fix : Bool) : Int × NmeaReader :=
  if accuracy.p ≥ accuracy.end_ then (-1, r)
  else
    let r1 : NmeaReader :=
      { r with fix := { r.fix with
          accuracy := env.to_float (str2float env mem accuracy.p accuracy.end_) } }
    if 99 < r1.fix.accuracy then (0, r1)
    else if is_fix then
      (0, { r1 with fix := { r1.fix with flags := r1.fix.flags ||| GPS_LOCATION_HAS_ACCURACY } })
    else (0, r1)

/-- `nmea_reader_update_bearing`. -/
def nmea_reader_update_bearing (env : Env) (mem : Nat → Nat) (r : NmeaReader)
    (bearing : Token) : Int × NmeaReader :=
  if bearing.p ≥ bearing.end_ then (-1, r)
  else
    (0, { r with fix := { r.fix with flags := r.fix.flags ||| GPS_LOCATION_HAS_BEARING,
                                       bearing := env.to_float (str2float env mem bearing.p bearing.end_) } })

/-- `nmea_reader_update_speed`. -/
def nmea_reader_update_speed (env : Env) (mem : Nat → Nat) (r : NmeaReader)
    (speed : Token) : Int × NmeaReader :=
  if speed.p ≥ speed.end_ then (-1, r)
  else
    (0, { r with fix := { r.fix with flags := r.fix.flags ||| GPS_LOCATION_HAS_SPEED,
                                       speed := env.to_float
                                         (str2float env mem speed.p speed.end_ * (1852 / 1000 / (36 / 10))) } })

/-- Value of `1ul << s` as stored into the 32-bit `used_in_fix_mask`: `2^s` for a
count in `0 .. 31`, otherwise whatever the platform yields. -/
def shl1 (env : Env) (s : Int) : Nat :=
  if 0 ≤ s ∧ s < 32 then 2 ^ s.toNat else env.shl_other s

/-- Index computed by `nmea_reader_update_svs`: `(num - 1)*4 + i` in `int`. -/
def sv_index (num i : Int) : Int := wrap32 (wrap32 (wrap32 (num - 1) * 4) + i)

/-- `nmea_reader_update_svs(r, inview, num, i, prn, elevation, azimuth, snr)`,
reading the static `id_in_fixed`.  The source guards the store only with
`i < inview`.  For an index inside the array the store is modelled exactly.  For
an index outside the array the C store is undefined behaviour: it overwrites
whatever the reader keeps next to `sv_list`.  The model records such a store as
`Event.sv_out_of_bounds` and does not model what it overwrites, so after such a
store the model's reader no longer stands for the program's. -/
def nmea_reader_update_svs (env : Env) (mem : Nat → Nat) (s : State) (inview num i : Int)
    (prn elevation azimuth snr : Token) : State :=
  let i := sv_index num i
  if i < inview then
    let info : GpsSvInfo :=
      { prn := str2int mem prn.p prn.end_,
        elevation := env.to_float (str2int mem elevation.p elevation.end_ : ℚ),
        azimuth := env.to_float (str2int mem azimuth.p azimuth.end_ : ℚ),
        snr := env.to_float (str2int mem snr.p snr.end_ : ℚ) }
    let s1 : State :=
      if 0 ≤ i ∧ i < (s.r.sv_status.sv_list.length : Int) then
        { s with r := { s.r with sv_status := { s.r.sv_status with
            sv_list := s.r.sv_status.sv_list.set i.toNat info } } }
      else { s with out := s.out ++ [Event.sv_out_of_bounds i] }
    let mask := (List.range 12).foldl
      (fun (m : Nat) (o : Nat) =>
        if s1.id_in_fixed.getD o 0 = str2int mem prn.p prn.end_ then
          (m ||| shl1 env (wrap32 (str2int mem prn.p prn.end_ - 1))) % 4294967296
        else m)
      s1.r.sv_status.used_in_fix_mask
    { s1 with r := { s1.r with sv_status := { s1.r.sv_status with used_in_fix_mask := mask } } }
  else s

/-- `memcmp(p, tag, 3) == 0` for a three-byte tag. -/
def tag_is (mem : Nat → Nat) (p : Nat) (a b c : Nat) : Bool :=
  mem p = a ∧ mem (p + 1) = b ∧ mem (p + 2) = c

/-- The `GGA` branch of `nmea_reader_parse` (lines 511-536): the state and `send_msg`. -/
def parse_gga (env : Env) (mem : Nat → Nat) (tzer : NmeaTokenizer) (s : State) : State × Bool :=
  let tok_time := nmea_tokenizer_get tzer 1
  let tok_latitude := nmea_tokenizer_get tzer 2
  let tok_latitudeHemi := nmea_tokenizer_get tzer 3
  let tok_longitude := nmea_tokenizer_get tzer 4
  let tok_longitudeHemi := nmea_tokenizer_get tzer 5
  let tok_fix := nmea_tokenizer_get tzer 6
  let tok_accuracy := nmea_tokenizer_get tzer 8
  let tok_altitude := nmea_tokenizer_get tzer 9
  let tok_altitudeUnits := nmea_tokenizer_get tzer 10
  let fix := str2int mem tok_fix.p tok_fix.end_
  let r1 : NmeaReader :=
    if 0 < fix then
      let ra := (nmea_reader_update_time env mem s.r tok_time env.gmt_uninit).2.1
      let rb := (nmea_reader_update_latlong env mem ra tok_latitude (mem tok_latitudeHemi.p)
                  tok_longitude (mem tok_longitudeHemi.p)).2
      (nmea_reader_update_altitude env mem rb tok_altitude tok_altitudeUnits).2
    else s.r
  if !r1.gsa then
    ({ s with r := (nmea_reader_update_accuracy env mem r1 tok_accuracy (decide (0 < fix))).2 }, true)
  else ({ s with r := r1 }, false)

/-- The loop over the satellite-ID fields 3..14 inside the `GSA` branch
(lines 567-574), for `i = 0 .. n-1`. -/
def gsa_ids (mem : Nat → Nat) (tzer : NmeaTokenizer) (n : Nat) (ids : List Int) : List Int :=
  (List.range n).foldl
    (fun (ids : List Int) (i : Nat) =>
      let tok_id := nmea_tokenizer_get tzer (3 + (i : Int))
      if tok_id.end_ > tok_id.p then ids.set i (str2int mem tok_id.p tok_id.end_) else ids)
    ids

/-- The `GSA` branch of `nmea_reader_parse` (lines 537-577). -/
def parse_gsa (env : Env) (mem : Nat → Nat) (tzer : NmeaTokenizer) (s : State) : State × Bool :=
  if s.r.gsa then
    let tok_fix := nmea_tokenizer_get tzer 2
    let tok_hdop := nmea_tokenizer_get tzer 16
    let fix := str2int mem tok_fix.p tok_fix.end_
    let r1 : NmeaReader :=
      if fix = 2 then
        { s.r with fix := { s.r.fix with flags := s.r.fix.flags &&& (65535 - GPS_LOCATION_HAS_ALTITUDE) } }
      else s.r
    let r2 := (nmea_reader_update_accuracy env mem r1 tok_hdop (decide (1 < fix))).2
    ({ s with r := { r2 with gsa := true }, id_in_fixed := gsa_ids mem tzer 12 s.id_in_fixed }, true)
  else
    ({ s with r := { s.r with gsa := true } }, false)

/-- The `GSV` branch of `nmea_reader_parse` (lines 578-628). -/
def parse_gsv (env : Env) (mem : Nat → Nat) (tzer : NmeaTokenizer) (s : State) : State × Bool :=
  let tok_num_messages := nmea_tokenizer_get tzer 1
  let tok_msg_number := nmea_tokenizer_get tzer 2
  let tok_svs_inview := nmea_tokenizer_get tzer 3
  let num_messages := str2int mem tok_num_messages.p tok_num_messages.end_
  let msg_number := str2int mem tok_msg_number.p tok_msg_number.end_
  let svs_inview := str2int mem tok_svs_inview.p tok_svs_inview.end_
  let s0 : State :=
    if msg_number = 1 then
      { s with r := { s.r with sv_status := { s.r.sv_status with used_in_fix_mask := 0 } } }
    else s
  let s1 := nmea_reader_update_svs env mem s0 svs_inview msg_number 0
    (nmea_tokenizer_get tzer 4) (nmea_tokenizer_get tzer 5) (nmea_tokenizer_get tzer 6)
    (nmea_tokenizer_get tzer 7)
  let s2 := nmea_reader_update_svs env mem s1 svs_inview msg_number 1
    (nmea_tokenizer_get tzer 8) (nmea_tokenizer_get tzer 9) (nmea_tokenizer_get tzer 10)
    (nmea_tokenizer_get tzer 11)
  let s3 := nmea_reader_update_svs env mem s2 svs_inview msg_number 2
    (nmea_tokenizer_get tzer 12) (nmea_tokenizer_get tzer 13) (nmea_tokenizer_get tzer 14)
    (nmea_tokenizer_get tzer 15)
  let s4 := nmea_reader_update_svs env mem s3 svs_inview msg_number 3
    (nmea_tokenizer_get tzer 16) (nmea_tokenizer_get tzer 17) (nmea_tokenizer_get tzer 18)
    (nmea_tokenizer_get tzer 19)
  let s5 : State :=
    { s4 with r := { s4.r with sv_status := { s4.r.sv_status with num_svs := svs_inview } } }
  if num_messages = msg_number then
    (if env.sv_status_cb then { s5 with out := s5.out ++ [Event.sv_status s5.r.sv_status] } else s5,
     false)
  else (s5, false)

/-- The `RMC` branch of `nmea_reader_parse` (lines 629-651). -/
def parse_rmc (env : Env) (mem : Nat → Nat) (tzer : NmeaTokenizer) (s : State) : State × Bool :=
  let tok_time := nmea_tokenizer_get tzer 1
  let tok_fixStatus := nmea_tokenizer_get tzer 2
  let tok_latitude := nmea_tokenizer_get tzer 3
  let tok_latitudeHemi := nmea_tokenizer_get tzer 4
  let tok_longitude := nmea_tokenizer_get tzer 5
  let tok_longitudeHemi := nmea_tokenizer_get tzer 6
  let tok_speed := nmea_tokenizer_get tzer 7
  let tok_bearing := nmea_tokenizer_get tzer 8
  let tok_date := nmea_tokenizer_get tzer 9
  if mem tok_fixStatus.p = 65 then
    let s1 := (nmea_reader_update_date env mem s tok_date tok_time).2
    let ra := (nmea_reader_update_latlong env mem s1.r tok_latitude (mem tok_latitudeHemi.p)
                tok_longitude (mem tok_longitudeHemi.p)).2
    let rb := (nmea_reader_update_bearing env mem ra tok_bearing).2
    let rc := (nmea_reader_update_speed env mem rb tok_speed).2
    ({ s1 with r := rc }, false)
  else (s, false)

/-- The `VTG` branch of `nmea_reader_parse` (lines 652-661). -/
def parse_vtg (env : Env) (mem : Nat → Nat) (tzer : NmeaTokenizer) (s : State) : State × Bool :=
  let tok_fixStatus := nmea_tokenizer_get tzer 9
  if mem tok_fixStatus.p ≠ 0 ∧ mem tok_fixStatus.p ≠ 78 then
    let tok_bearing := nmea_tokenizer_get tzer 1
    let tok_speed := nmea_tokenizer_get tzer 5
    let ra := (nmea_reader_update_bearing env mem s.r tok_bearing).2
    let rb := (nmea_reader_update_speed env mem ra tok_speed).2
    ({ s with r := rb }, false)
  else (s, false)

/-- The dispatch on the sentence tag (lines 510-665): `p` is `tok.p` after the
two talker-ID bytes have been skipped.  Returns the state and `send_msg`. -/
def nmea_dispatch (env : Env) (mem : Nat → Nat) (tzer : NmeaTokenizer) (p : Nat) (s : State) :
    State × Bool :=
  if tag_is mem p 71 71 65 then parse_gga env mem tzer s
  else if tag_is mem p 71 83 65 then parse_gsa env mem tzer s
  else if tag_is mem p 71 83 86 then parse_gsv env mem tzer s
  else if tag_is mem p 82 77 67 then parse_rmc env mem tzer s
  else if tag_is mem p 86 84 71 then parse_vtg env mem tzer s
  else (s, false)

/-- The emission step at the end of `nmea_reader_parse` (lines 696-707). -/
def nmea_emit (env : Env) (s : State) (send_msg : Bool) : State :=
  if send_msg then
    if env.location_cb then
      { s with out := s.out ++ [Event.location s.r.fix],
               r := { s.r with fix := { s.r.fix with flags := 0 } } }
    else s
  else s

/-- The part of `nmea_reader_parse` before the dispatch (lines 477-508): the
state after the NUL store and the raw-sentence echo, the tokenizer, and
`tok.p + 2`; `none` when the sentence is discarded (the state is still the one
returned). -/
def nmea_prepare (env : Env) (s : State) : State × Option (NmeaTokenizer × Nat) :=
  if s.r.pos < 9 then (s, none)
  else
    let r0 : NmeaReader := { s.r with in_ := s.r.in_.set s.r.pos 0 }
    let s0 : State :=
      { s with r := r0,
               out := if env.init then s.out ++ [Event.nmea env.tv_ms (r0.in_.take r0.pos) r0.pos]
                      else s.out }
    let tzer := nmea_tokenizer_init (buf_mem r0.in_) 0 r0.pos
    let tok := nmea_tokenizer_get tzer 0
    if tok.p + 5 > tok.end_ then (s0, none)
    else (s0, some (tzer, tok.p + 2))

/-- The body of `nmea_reader_parse` up to the emission step (lines 468-665):
the state and the local `send_msg`.  An early `return` skips the emission
step, which is what `send_msg = false` does as well. -/
def nmea_decode (env : Env) (s : State) : State × Bool :=
  match (nmea_prepare env s).2 with
  | none => ((nmea_prepare env s).1, false)
  | some tp => nmea_dispatch env (buf_mem (nmea_prepare env s).1.r.in_) tp.1 tp.2 (nmea_prepare env s).1

/-- `nmea_reader_parse(r)`. -/
def nmea_reader_parse (env : Env) (s : State) : State :=
  nmea_emit env (nmea_decode env s).1 (nmea_decode env s).2

/-- `nmea_reader_addc(r, c)`. -/
def nmea_reader_addc (env : Env) (s : State) (c : Nat) : State :=
  if s.r.overflow then
    { s with r := { s.r with overflow := decide (c ≠ 10) } }
  else if s.r.pos ≥ NMEA_MAX_SIZE + 1 - 1 then
    { s with r := { s.r with overflow := true, pos := 0 } }
  else
    let s1 : State := { s with r := { s.r with in_ := s.r.in_.set s.r.pos c, pos := s.r.pos + 1 } }
    if c = 10 then
      let s2 := nmea_reader_parse env s1
      { s2 with r := { s2.r with pos := 0 } }
    else s1

/-- Feeding a sequence of bytes to `nmea_reader_addc`, as the read loop of
`gps_state_thread` does. -/
def feed (env : Env) (s : State) (bytes : List Nat) : State :=
  bytes.foldl (nmea_reader_addc env) s

/-! ## Concrete inputs for the examples -/

/-- Value of a run of ASCII digits. -/
def digits_value (l : List Nat) : Nat :=
  l.foldl (fun acc b => acc * 10 + (b - 48)) 0

/-- A stand-in for `strtod` on unsigned decimal literals `ddd` and `ddd.ddd`. -/
def strtod_decimal (l : List Nat) : ℚ :=
  let ip := l.takeWhile (fun b => decide (48 ≤ b ∧ b ≤ 57))
  match l.dropWhile (fun b => decide (48 ≤ b ∧ b ≤ 57)) with
  | 46 :: fr =>
    let fp := fr.takeWhile (fun b => decide (48 ≤ b ∧ b ≤ 57))
    (digits_value ip : ℚ) + (digits_value fp : ℚ) / (10 ^ fp.length : Nat)
  | _ => (digits_value ip : ℚ)

/-- An environment for the examples: decimal `strtod`, exact `float`, a clock
at the epoch, a location sink attached or not. -/
def env_ex (location_cb : Bool) : Env :=
  { strtod := strtod_decimal,
    to_float := fun x => x,
    time := 0,
    gmtime := fun _ => { tm_sec := 0, tm_min := 0, tm_hour := 0, tm_mday := 1, tm_mon := 0,
                         tm_year := 70, tm_isdst := 0 },
    timegm := fun tm => tm.tm_hour * 3600 + tm.tm_min * 60 + tm.tm_sec,
    tv_ms := 0,
    gmt_uninit := 0,
    shl_other := fun _ => 0,
    init := true,
    location_cb := location_cb,
    sv_status_cb := true,
    time_sync := 0 }

/-- A reader holding the bytes of one line (terminator included), as
`nmea_reader_addc` leaves it when it calls `nmea_reader_parse`. -/
def reader_with (line : List Nat) (gsa : Bool) (flags : Nat) : NmeaReader :=
  { nmea_reader_init 32 with
    pos := line.length,
    in_ := line ++ List.replicate (NMEA_MAX_SIZE + 1 - line.length) 0,
    gsa := gsa,
    fix := { (nmea_reader_init 32).fix with flags := flags } }

/-- A session state around `reader_with`, with an empty Used-Satellite Cache
and nothing delivered yet. -/
def state_with (line : List Nat) (gsa : Bool) (flags : Nat) : State :=
  { r := reader_with line gsa flags, id_in_fixed := List.replicate 12 0, out := [] }

/-! ## Definitions used by the statements -/

/-- Invariant of the tokenizer loop: the count is the number of stored views,
it never exceeds the cap, and every stored view lies inside `[lo, e]`. -/
def TokInv (lo e : Nat) (t : NmeaTokenizer) : Prop :=
  t.count = t.tokens.length ∧ t.count ≤ MAX_NMEA_TOKENS ∧
    ∀ tok ∈ t.tokens, lo ≤ tok.p ∧ tok.p ≤ tok.end_ ∧ tok.end_ ≤ e

/-- The bytes a field view covers. -/
def tok_bytes (mem : Nat → Nat) (tok : Token) : List Nat := slice mem tok.p tok.end_

/-- The spans between the commas of a sentence body, as the specification
describes the fields: one more span than there are commas, the last one being
the span after the last comma. -/
def comma_fields : List Nat → List (List Nat)
  | [] => [[]]
  | b :: bs =>
    if b = 44 then [] :: comma_fields bs
    else
      match comma_fields bs with
      | [] => [[b]]
      | f :: fs => (b :: f) :: fs

/-- The fields the tokenizer loop stores for a body: the comma spans, without
the last one when the body is empty or ends with a comma. -/
def stored_fields (body : List Nat) : List (List Nat) :=
  if body = [] ∨ body.getLast? = some 44 then (comma_fields body).dropLast
  else comma_fields body

/-- Whether the reader holds a sentence that `nmea_reader_parse` dispatches on
the three-byte tag `a b c`: it is long enough, its field 0 has at least five
bytes, and the bytes after the talker ID are the tag. -/
def sentence_is (env : Env) (s : State) (a b c : Nat) : Bool :=
  match (nmea_prepare env s).2 with
  | none => false
  | some tp => tag_is (buf_mem (nmea_prepare env s).1.r.in_) tp.2 a b c

/-- Memory as `nmea_reader_parse` reads it: the sentence buffer after the NUL
store. -/
def parse_mem (env : Env) (s : State) : Nat → Nat :=
  buf_mem (nmea_prepare env s).1.r.in_

/-- The tokenizer `nmea_reader_parse` builds for the sentence held by the
reader (the empty tokenizer when the sentence is discarded). -/
def parse_tzer (env : Env) (s : State) : NmeaTokenizer :=
  match (nmea_prepare env s).2 with
  | none => { count := 0, tokens := [] }
  | some tp => tp.1

/-- Field `i` of the sentence held by the reader, as `nmea_tokenizer_get`
returns it inside `nmea_reader_parse`. -/
def field (env : Env) (s : State) (i : Int) : Token :=
  nmea_tokenizer_get (parse_tzer env s) i

/-- Field `i` of the sentence decoded with `str2int`. -/
def field_int (env : Env) (s : State) (i : Int) : Int :=
  str2int (parse_mem env s) (field env s i).p (field env s i).end_

/-- Field `i` of the sentence decoded with `str2float`. -/
def field_float (env : Env) (s : State) (i : Int) : ℚ :=
  str2float env (parse_mem env s) (field env s i).p (field env s i).end_

/-- Test of a validity bit, as C code does it: `flags & bit` is non-zero. -/
def has_flag (flags bit : Nat) : Bool :=
  decide (flags &&& bit ≠ 0)

/-- The fix records among a list of notifications. -/
def fixes_of (l : List Event) : List GpsLocation :=
  l.filterMap (fun ev => match ev with
    | Event.location fix => some fix
    | _ => none)

/-- The fix records pushed to the sink by one call of `nmea_reader_parse`. -/
def pushed_fixes (env : Env) (s : State) : List GpsLocation :=
  fixes_of ((nmea_reader_parse env s).out.drop s.out.length)

/-- The state `b` extends the notifications of `a` without pushing a fix. -/
def NoFixPushed (a b : State) : Prop :=
  ∃ l, b.out = a.out ++ l ∧ fixes_of l = []

/-- The line `$GPGGA,1,2,N,3,E,0,8,0.9` with its line-feed: a GGA sentence
with fix-quality 0. -/
def line_gga_q0 : List Nat :=
  [36, 71, 80, 71, 71, 65, 44, 49, 44, 50, 44, 78, 44, 51, 44, 69, 44, 48, 44, 56, 44, 48, 46, 57, 10]

/-- The line `$GPGSA,A,2,04,,,,,,,,,,,,2.5,1.3,2.1` with its line-feed: a GSA
sentence with fix-type 2. -/
def line_gsa_2d : List Nat :=
  [36, 71, 80, 71, 83, 65, 44, 65, 44, 50, 44, 48, 52, 44, 44, 44, 44, 44, 44, 44, 44, 44, 44, 44,
   44, 50, 46, 53, 44, 49, 46, 51, 44, 50, 46, 49, 10]

/-! ## Rate-command encoder -/

/-- `gps_dev_calc_ubx_csum(msg, size, ck_a, ck_b)`: the two running 8-bit sums
over `msg[0 .. size)`; the out-parameters `*ck_a`, `*ck_b` are returned as a
pair. -/
def gps_dev_calc_ubx_csum (msg : List Nat) (size : Nat) : Nat × Nat :=
  (List.range size).foldl
    (fun (ck : Nat × Nat) (i : Nat) =>
      let a := (ck.1 + msg.getD i 0) % 256
      (a, (ck.2 + a) % 256))
    (0, 0)

/-- A store `*((unsigned short *)(buff + a)) = v` on a little-endian host. -/
def store16 (buff : List Nat) (a v : Nat) : List Nat :=
  (buff.set a (v % 256)).set (a + 1) (v / 256 % 256)

/-- `gps_dev_set_meas_rate(fd, period_ms)`: the 14 bytes of `buff` handed to
`gps_dev_send`. -/
def gps_dev_set_meas_rate (period_ms : Nat) : List Nat :=
  let buff0 := [181, 98, 6, 8, 6, 0] ++ List.replicate 8 0
  let buff1 := store16 buff0 6 period_ms
  let buff2 := store16 buff1 8 1
  let buff3 := store16 buff2 10 1
  let ck := gps_dev_calc_ubx_csum (buff3.drop 2) 10
  (buff3.set 12 ck.1).set 13 ck.2

/-! ## Definitions used by the statements on the accumulator and on GSV -/

/-- `nmea_reader_addc` with the call of `nmea_reader_parse` replaced by an
arbitrary decoder. -/
def addc_with (decoder : State → State) (s : State) (c : Nat) : State :=
  if s.r.overflow then
    { s with r := { s.r with overflow := decide (c ≠ 10) } }
  else if s.r.pos ≥ NMEA_MAX_SIZE + 1 - 1 then
    { s with r := { s.r with overflow := true, pos := 0 } }
  else
    let s1 : State := { s with r := { s.r with in_ := s.r.in_.set s.r.pos c, pos := s.r.pos + 1 } }
    if c = 10 then
      let s2 := decoder s1
      { s2 with r := { s2.r with pos := 0 } }
    else s1

/-- The state `nmea_reader_addc` hands to `nmea_reader_parse` for the byte `c`,
or `none` when it does not call it. -/
def addc_parse_input (s : State) (c : Nat) : Option State :=
  if s.r.overflow then none
  else if s.r.pos ≥ NMEA_MAX_SIZE + 1 - 1 then none
  else if c = 10 then
    some { s with r := { s.r with in_ := s.r.in_.set s.r.pos c, pos := s.r.pos + 1 } }
  else none

/-- The states handed to `nmea_reader_parse`, in order, while a sequence of
bytes is fed to `nmea_reader_addc`. -/
def parse_inputs (env : Env) : State → List Nat → List State
  | _, [] => []
  | s, c :: cs => (addc_parse_input s c).toList ++ parse_inputs env (nmea_reader_addc env s c) cs

/-- The notifications one call of `nmea_reader_parse` delivers. -/
def new_events (env : Env) (s : State) : List Event :=
  (nmea_reader_parse env s).out.drop s.out.length

/-- The visibility snapshots among a list of notifications. -/
def svs_of (l : List Event) : List GpsSvStatus :=
  l.filterMap (fun ev => match ev with
    | Event.sv_status sv => some sv
    | _ => none)

/-- The satellite record a GSV sentence carries at position `j` (fields
`4+4j .. 7+4j`), as `nmea_reader_update_svs` stores it. -/
def gsv_info (env : Env) (s : State) (j : Nat) : GpsSvInfo :=
  { prn := field_int env s (4 + 4 * (j : Int)),
    elevation := env.to_float (field_int env s (5 + 4 * (j : Int)) : ℚ),
    azimuth := env.to_float (field_int env s (6 + 4 * (j : Int)) : ℚ),
    snr := env.to_float (field_int env s (7 + 4 * (j : Int)) : ℚ) }

/-- Whether the satellite at position `j` of a GSV sentence is written: the
test `i < inview` of `nmea_reader_update_svs`. -/
def gsv_written (env : Env) (s : State) (j : Nat) : Bool :=
  decide (sv_index (field_int env s 2) (j : Int) < field_int env s 3)

/-- Whether an identifier occurs in the twelve entries of the Used-Satellite Cache. -/
def in_cache (ids : List Int) (prn : Int) : Bool :=
  (List.range 12).any (fun o => decide (ids.getD o 0 = prn))

/-- The buffer after the bytes of a list have been stored from `pos` on, one
`r->in[r->pos] = c; r->pos += 1` at a time. -/
def store_bytes : List Nat → Nat → List Nat → List Nat
  | buf, _, [] => buf
  | buf, pos, c :: cs => store_bytes (buf.set pos c) (pos + 1) cs

/-- The line `$GPGGA,12` (nine bytes), without its line-feed. -/
def line_nine : List Nat := [36, 71, 80, 71, 71, 65, 44, 49, 50]

/-- The state in which `nmea_reader_addc` calls `nmea_reader_parse` after a
line and its line-feed have been stored from cursor 0. -/
def with_line (t : State) (line : List Nat) : State :=
  { t with r := { t.r with in_ := store_bytes t.r.in_ 0 (line ++ [10]),
                           pos := line.length + 1 } }

/-- The line `$GPRMC,123519,V,4807.038,N,01131.000,E,022.4,084.4,230394` with
its line-feed: an RMC sentence with fix-status V. -/
def line_rmc_void : List Nat :=
  [36, 71, 80, 82, 77, 67, 44, 49, 50, 51, 53, 49, 57, 44, 86, 44, 52, 56, 48, 55, 46, 48, 51, 56,
   44, 78, 44, 48, 49, 49, 51, 49, 46, 48, 48, 48, 44, 69, 44, 48, 50, 50, 46, 52, 44, 48, 56, 52,
   46, 52, 44, 50, 51, 48, 51, 57, 52, 10]

/-- The line `$GPVTG,1,,,,2,,,,,X` with its line-feed: a VTG sentence whose
field 9 is empty and followed by a further field. -/
def line_vtg_empty_mode : List Nat :=
  [36, 71, 80, 86, 84, 71, 44, 49, 44, 44, 44, 44, 50, 44, 44, 44, 44, 44, 88, 10]

/-- The loop `for (o=0;o<12;o++)` of `nmea_reader_update_svs` applied to a
mask: every cache entry equal to `prn` ORs `1ul << (prn-1)` into it. -/
def cache_mask (env : Env) (ids : List Int) (prn : Int) (m : Nat) : Nat :=
  (List.range 12).foldl
    (fun (m : Nat) (o : Nat) =>
      if ids.getD o 0 = prn then (m ||| shl1 env (wrap32 (prn - 1))) % 4294967296 else m)
    m

/-- The line `$GPGSV,2,1,05,04,77,000,45,05,10,100,20,09,01,002,03,10,05,006,07`
with its line-feed: message 1 of 2, five satellites in view. -/
def line_gsv_1 : List Nat :=
  [36, 71, 80, 71, 83, 86, 44, 50, 44, 49, 44, 48, 53, 44, 48, 52, 44, 55, 55, 44, 48, 48, 48, 44,
   52, 53, 44, 48, 53, 44, 49, 48, 44, 49, 48, 48, 44, 50, 48, 44, 48, 57, 44, 48, 49, 44, 48, 48,
   50, 44, 48, 51, 44, 49, 48, 44, 48, 53, 44, 48, 48, 54, 44, 48, 55, 10]

/-- The line `$GPGSV,2,2,05,12,77,000,45` with its line-feed: message 2 of 2. -/
def line_gsv_2 : List Nat :=
  [36, 71, 80, 71, 83, 86, 44, 50, 44, 50, 44, 48, 53, 44, 49, 50, 44, 55, 55, 44, 48, 48, 48, 44,
   52, 53, 10]

/-- The satellite record `nmea_reader_update_svs` builds from four tokens. -/
def sv_info (env : Env) (mem : Nat → Nat) (prn elevation azimuth snr : Token) : GpsSvInfo :=
  { prn := str2int mem prn.p prn.end_,
    elevation := env.to_float (str2int mem elevation.p elevation.end_ : ℚ),
    azimuth := env.to_float (str2int mem azimuth.p azimuth.end_ : ℚ),
    snr := env.to_float (str2int mem snr.p snr.end_ : ℚ) }

/-- The effect of one call of `nmea_reader_update_svs` on `sv_list`, for a
store that falls inside the array. -/
def gsv_list_step (l : List GpsSvInfo) (inview idx : Int) (info : GpsSvInfo) : List GpsSvInfo :=
  if idx < inview ∧ 0 ≤ idx ∧ idx < (l.length : Int) then l.set idx.toNat info else l

/-- The effect of one call of `nmea_reader_update_svs` on `used_in_fix_mask`. -/
def gsv_mask_step (env : Env) (ids : List Int) (inview idx prn : Int) (m : Nat) : Nat :=
  if idx < inview then cache_mask env ids prn m else m

/-- The reader in the middle of a two-message GSV cycle: `line_gsv_1` has been
decoded from a fresh session and the bytes of `line_gsv_2` have been stored
over it. -/
def gsv_cycle_second : State :=
  { nmea_reader_parse (env_ex true) (state_with line_gsv_1 false 0) with
    r := { (nmea_reader_parse (env_ex true) (state_with line_gsv_1 false 0)).r with
           in_ := store_bytes (nmea_reader_parse (env_ex true) (state_with line_gsv_1 false 0)).r.in_ 0
                    line_gsv_2,
           pos := line_gsv_2.length } }

/-! ## Inputs of the examples on coordinates, dates and short or long lines -/

/-- The fields `4807.03800000000` (16 characters) and `01131.000`, one after
the other from address 0. -/
def coords_long_lat : List Nat :=
  [52, 56, 48, 55, 46, 48, 51, 56, 48, 48, 48, 48, 48, 48, 48, 48,
   48, 49, 49, 51, 49, 46, 48, 48, 48]

/-- The date field `2303XX` (day 23, month 03, a non-numeric year) followed by
the time field `123519`, from address 0. -/
def date_bad_year : List Nat := [50, 51, 48, 51, 88, 88, 49, 50, 51, 53, 49, 57]

/-- The stores of `nmea_reader_update_svs` that fell outside `sv_list`, among
a list of notifications. -/
def oob_of (l : List Event) : List Int :=
  l.filterMap (fun ev => match ev with
    | Event.sv_out_of_bounds i => some i
    | _ => none)

/-- The line `$GPGSV,1,0,1,04,77,000,45` with its line-feed: a GSV sentence
whose message index is 0. -/
def line_gsv_zero : List Nat :=
  [36, 71, 80, 71, 83, 86, 44, 49, 44, 48, 44, 49, 44, 48, 52, 44, 55, 55, 44, 48, 48, 48, 44,
   52, 53, 10]

/-- The line `$GPGSA,A` (eight bytes), without its line-feed. -/
def line_eight : List Nat := [36, 71, 80, 71, 83, 65, 44, 65]

/-- A reader holding `line_gsa_2d` with the GSA-seen flag true, in a session
whose Used-Satellite Cache holds satellite 7 in every slot. -/
def state_gsa_stale : State :=
  { state_with line_gsa_2d true 0 with id_in_fixed := List.replicate 12 7 }

/-- A field view moved by `d` bytes. -/
def shift_token (d : Nat) (tok : Token) : Token :=
  { p := tok.p + d, end_ := tok.end_ + d }

/-- The line the specification describes around a sentence body: `$`, the
body, `*`, the two checksum characters, CR and LF. -/
def framed (body : List Nat) (c1 c2 : Nat) : List Nat :=
  36 :: body ++ [42, c1, c2, 13, 10]

/-! ## Narrowing to `float` in the examples -/

/-- A stand-in for the narrowing `(float) x` of a `double` on an IEEE-754
host: binary32 keeps 24 significant bits, so a value with `2^e ≤ |x| < 2^(e+1)`
goes to the nearest multiple of `2^(e-23)`.  The limits of the range and the
ties-to-even rule are not modelled; the examples meet neither. -/
def float_round (x : ℚ) : ℚ :=
  if x = 0 then 0
  else (round (x / (2 : ℚ) ^ (Int.log 2 |x| - 23)) : ℚ) * (2 : ℚ) ^ (Int.log 2 |x| - 23)

/-- The environment of the examples with the narrowing to binary32. -/
def env_f32 : Env := { env_ex true with to_float := float_round }

/-- The accuracy field `99.000001`. -/
def acc_just_above_99 : List Nat := [57, 57, 46, 48, 48, 48, 48, 48, 49]

/-! ## Inputs of the examples on GSV sentences with unusual indices -/

/-- The line `$GPGSV,1,1073741825,05,04,77,000,45` with its line-feed: a GSV
sentence whose message index is `2^30 + 1`. -/
def line_gsv_huge : List Nat :=
  [36, 71, 80, 71, 83, 86, 44, 49, 44, 49, 48, 55, 51, 55, 52, 49, 56, 50, 53, 44, 48, 53, 44,
   48, 52, 44, 55, 55, 44, 48, 48, 48, 44, 52, 53, 10]

/-- The line `$GPGSV,9,9,33,05,77,000,45` with its line-feed: message 9 of 9
with 33 satellites in view, one more than the 32 slots of the examples. -/
def line_gsv_beyond : List Nat :=
  [36, 71, 80, 71, 83, 86, 44, 57, 44, 57, 44, 51, 51, 44, 48, 53, 44, 55, 55, 44, 48, 48, 48, 44,
   52, 53, 10]

/-- The notifications delivered while a sequence of bytes is fed. -/
def fed_events (env : Env) (s : State) (bytes : List Nat) : List Event :=
  (feed env s bytes).out.drop s.out.length

/-! # Theorems

Everything below is proved about the definitions above. -/

/-! ## Tokenizer lemmas -/

theorem memchr_some {mem : Nat → Nat} {c : Nat} :
    ∀ (n p q : Nat), memchr mem c p n = some q →
      p ≤ q ∧ q < p + n ∧ mem q = c ∧ ∀ j, p ≤ j → j < q → mem j ≠ c := by
  intro n
  induction n with
  | zero => intro p q h; simp [memchr] at h
  | succ n ih =>
    intro p q h
    unfold memchr at h
    by_cases hc : mem p = c
    · simp only [hc, if_true, Option.some.injEq] at h
      subst h
      exact ⟨le_refl _, by omega, hc, fun j h1 h2 => by omega⟩
    · simp only [hc, if_false] at h
      obtain ⟨h1, h2, h3, h4⟩ := ih (p + 1) q h
      refine ⟨by omega, by omega, h3, ?_⟩
      intro j hj1 hj2
      by_cases hjp : j = p
      · subst hjp; exact hc
      · exact h4 j (by omega) hj2

theorem memchr_none {mem : Nat → Nat} {c : Nat} :
    ∀ (n p : Nat), memchr mem c p n = none → ∀ j, p ≤ j → j < p + n → mem j ≠ c := by
  intro n
  induction n with
  | zero => intro p _ j h1 h2; omega
  | succ n ih =>
    intro p h j h1 h2
    unfold memchr at h
    by_cases hc : mem p = c
    · simp [hc] at h
    · simp only [hc, if_false] at h
      by_cases hjp : j = p
      · subst hjp; exact hc
      · exact ih (p + 1) h j (by omega) (by omega)

theorem tokenize_loop_inv (mem : Nat → Nat) (lo e : Nat) :
    ∀ (fuel p : Nat) (t : NmeaTokenizer), lo ≤ p → TokInv lo e t →
      TokInv lo e (tokenize_loop mem e fuel p t) := by
  intro fuel
  induction fuel with
  | zero => intro p t _ h; simpa [tokenize_loop] using h
  | succ fuel ih =>
    intro p t hp hinv
    unfold tokenize_loop
    by_cases hpe : p < e
    · simp only [hpe, if_true]
      have hq : p ≤ (match memchr mem 44 p (e - p) with | some q => q | none => e) ∧
          (match memchr mem 44 p (e - p) with | some q => q | none => e) ≤ e := by
        cases hm : memchr mem 44 p (e - p) with
        | none => simp; omega
        | some q =>
          have := memchr_some _ _ _ hm
          simp; omega
      generalize (match memchr mem 44 p (e - p) with | some q => q | none => e) = q at hq
      apply ih
      · split <;> omega
      · obtain ⟨h1, h2, h3⟩ := hinv
        by_cases hc : t.count < MAX_NMEA_TOKENS
        · simp only [hc, if_true]
          refine ⟨by simp [h1], by simp; omega, ?_⟩
          intro tok htok
          simp only [List.mem_append, List.mem_singleton] at htok
          rcases htok with htok | htok
          · exact h3 tok htok
          · subst htok; simp; omega
        · simp only [hc, if_false]
          exact ⟨h1, h2, h3⟩
    · simp only [hpe, if_false]
      exact hinv

theorem nmea_strip_bounds (mem : Nat → Nat) (p e : Nat) :
    p ≤ (nmea_strip mem p e).1 ∧ (nmea_strip mem p e).2 ≤ e := by
  unfold nmea_strip
  refine ⟨?_, ?_⟩
  · dsimp only; split_ifs <;> omega
  · dsimp only; split_ifs <;> omega

theorem nmea_tokenizer_init_inv (mem : Nat → Nat) (p e : Nat) :
    TokInv p e (nmea_tokenizer_init mem p e) := by
  unfold nmea_tokenizer_init
  have hb := nmea_strip_bounds mem p e
  have h := tokenize_loop_inv mem (nmea_strip mem p e).1 (nmea_strip mem p e).2
    ((nmea_strip mem p e).2 - (nmea_strip mem p e).1) (nmea_strip mem p e).1
    { count := 0, tokens := [] } (le_refl _) ⟨rfl, by simp, by simp⟩
  obtain ⟨h1, h2, h3⟩ := h
  refine ⟨h1, h2, ?_⟩
  intro tok htok
  have := h3 tok htok
  omega

/-- C1: for every input span the count returned by nmea_tokenizer_init is at
most 32 (and is the number of stored views), every stored view satisfies
span_start <= p <= end <= span_end, and nmea_tokenizer_get returns a
zero-length view for every index that is negative or >= count, in particular
for every index >= 32. -/
theorem C1_tokenizer_bounds (mem : Nat → Nat) (p e : Nat) :
    (nmea_tokenizer_init mem p e).count ≤ 32 ∧
    (nmea_tokenizer_init mem p e).count = (nmea_tokenizer_init mem p e).tokens.length ∧
    (∀ tok ∈ (nmea_tokenizer_init mem p e).tokens, p ≤ tok.p ∧ tok.p ≤ tok.end_ ∧ tok.end_ ≤ e) ∧
    (∀ index : Int, index < 0 ∨ index ≥ ((nmea_tokenizer_init mem p e).count : Int) →
      (nmea_tokenizer_get (nmea_tokenizer_init mem p e) index).p =
        (nmea_tokenizer_get (nmea_tokenizer_init mem p e) index).end_) ∧
    (∀ index : Int, index ≥ 32 →
      (nmea_tokenizer_get (nmea_tokenizer_init mem p e) index).p =
        (nmea_tokenizer_get (nmea_tokenizer_init mem p e) index).end_) ∧
    (∀ index : Nat, index < (nmea_tokenizer_init mem p e).count →
      (nmea_tokenizer_init mem p e).tokens.get? index =
        some (nmea_tokenizer_get (nmea_tokenizer_init mem p e) index)) := by
  obtain ⟨h1, h2, h3⟩ := nmea_tokenizer_init_inv mem p e
  refine ⟨h2, h1, h3, ?_, ?_, ?_⟩
  · intro index hidx
    unfold nmea_tokenizer_get
    rw [if_pos]
    rcases hidx with h | h
    · exact Or.inl h
    · exact Or.inr (Or.inl h)
  · intro index hidx
    unfold nmea_tokenizer_get
    rw [if_pos]
    exact Or.inr (Or.inr (by simpa [MAX_NMEA_TOKENS] using hidx))
  · intro index hidx
    unfold nmea_tokenizer_get
    have : ¬ ((index : Int) < 0 ∨ (index : Int) ≥ ((nmea_tokenizer_init mem p e).count : Int) ∨
        (index : Int) ≥ (MAX_NMEA_TOKENS : Int)) := by
      have : (nmea_tokenizer_init mem p e).count ≤ MAX_NMEA_TOKENS := h2
      omega
    rw [if_neg this]
    simp only [Int.toNat_ofNat]
    rw [List.getD_eq_getElem?_getD, List.get?_eq_getElem?]
    have hlt : index < (nmea_tokenizer_init mem p e).tokens.length := by omega
    simp [List.getElem?_eq_getElem hlt]

theorem tokenize_loop_done (mem : Nat → Nat) (e fuel p : Nat) (t : NmeaTokenizer) (h : e ≤ p) :
    tokenize_loop mem e fuel p t = t := by
  cases fuel with
  | zero => rfl
  | succ fuel => unfold tokenize_loop; simp [Nat.not_lt.mpr h]

/-- More iterations than `end - p` are never used by the tokenizer loop. -/
theorem tokenize_loop_fuel (mem : Nat → Nat) (e : Nat) :
    ∀ (fuel p : Nat) (t : NmeaTokenizer), e - p ≤ fuel →
      tokenize_loop mem e (fuel + 1) p t = tokenize_loop mem e fuel p t := by
  intro fuel
  induction fuel with
  | zero =>
    intro p t h
    rw [tokenize_loop_done mem e 1 p t (by omega), tokenize_loop_done mem e 0 p t (by omega)]
  | succ fuel ih =>
    intro p t h
    conv_lhs => rw [tokenize_loop]
    conv_rhs => rw [tokenize_loop]
    by_cases hpe : p < e
    · simp only [hpe, if_true]
      have hq : p ≤ (match memchr mem 44 p (e - p) with | some q => q | none => e) := by
        cases hm : memchr mem 44 p (e - p) with
        | none => simp; omega
        | some q =>
          have := memchr_some _ _ _ hm
          simp; omega
      generalize (match memchr mem 44 p (e - p) with | some q => q | none => e) = q at hq
      apply ih
      split <;> omega
    · simp only [hpe, if_false]

theorem slice_nil (mem : Nat → Nat) (p e : Nat) (h : e ≤ p) : slice mem p e = [] := by
  unfold slice
  have : e - p = 0 := by omega
  simp [this]

theorem slice_cons (mem : Nat → Nat) (p e : Nat) (h : p < e) :
    slice mem p e = mem p :: slice mem (p + 1) e := by
  unfold slice
  have : e - p = (e - (p + 1)) + 1 := by omega
  rw [this, List.range_succ_eq_map]
  simp only [List.map_cons, List.map_map, Nat.add_zero]
  congr 1
  apply List.map_congr_left
  intro i _
  simp only [Function.comp, Nat.succ_eq_add_one]
  congr 1
  omega

theorem slice_length (mem : Nat → Nat) (p e : Nat) : (slice mem p e).length = e - p := by
  simp [slice]

theorem slice_append (mem : Nat → Nat) (e : Nat) :
    ∀ (n p q : Nat), q - p = n → p ≤ q → q ≤ e →
      slice mem p e = slice mem p q ++ slice mem q e := by
  intro n
  induction n with
  | zero =>
    intro p q h1 h2 _
    have : p = q := by omega
    subst this
    simp [slice_nil mem p p (le_refl _)]
  | succ n ih =>
    intro p q h1 h2 h3
    rw [slice_cons mem p e (by omega), slice_cons mem p q (by omega),
      ih (p + 1) q (by omega) (by omega) h3]
    rfl

theorem slice_no_comma (mem : Nat → Nat) (p q : Nat)
    (h : ∀ j, p ≤ j → j < q → mem j ≠ 44) : 44 ∉ slice mem p q := by
  unfold slice
  intro hmem
  simp only [List.mem_map, List.mem_range] at hmem
  obtain ⟨i, hi, heq⟩ := hmem
  exact h (p + i) (by omega) (by omega) heq

theorem comma_fields_ne_nil (body : List Nat) : comma_fields body ≠ [] := by
  cases body with
  | nil => simp [comma_fields]
  | cons b bs =>
    unfold comma_fields
    split
    · simp
    · split <;> simp

theorem comma_fields_length (body : List Nat) :
    (comma_fields body).length = body.count 44 + 1 := by
  induction body with
  | nil => simp [comma_fields]
  | cons b bs ih =>
    unfold comma_fields
    by_cases hb : b = 44
    · subst hb; simp [ih]
    · simp only [hb, if_false]
      have hne := comma_fields_ne_nil bs
      cases hc : comma_fields bs with
      | nil => exact absurd hc hne
      | cons f fs =>
        rw [hc] at ih
        have : List.count 44 (b :: bs) = List.count 44 bs := by
          rw [List.count_cons]; simp [hb]
        simp only [this]
        simpa using ih

theorem comma_fields_no_comma (f : List Nat) (h : 44 ∉ f) : comma_fields f = [f] := by
  induction f with
  | nil => rfl
  | cons b bs ih =>
    have hb : b ≠ 44 := fun hb => h (by simp [hb])
    have hbs : 44 ∉ bs := fun hbs => h (by simp [hbs])
    unfold comma_fields
    simp [hb, ih hbs]

theorem comma_fields_split (f rest : List Nat) (h : 44 ∉ f) :
    comma_fields (f ++ 44 :: rest) = f :: comma_fields rest := by
  induction f with
  | nil => simp [comma_fields]
  | cons b bs ih =>
    have hb : b ≠ 44 := fun hb => h (by simp [hb])
    have hbs : 44 ∉ bs := fun hbs => h (by simp [hbs])
    rw [List.cons_append, comma_fields]
    simp [hb, ih hbs]

theorem stored_fields_nil : stored_fields [] = [] := by
  simp [stored_fields, comma_fields]

theorem stored_fields_no_comma (f : List Nat) (h : 44 ∉ f) (hne : f ≠ []) :
    stored_fields f = [f] := by
  unfold stored_fields
  have : ¬ (f = [] ∨ f.getLast? = some 44) := by
    rintro (h1 | h1)
    · exact hne h1
    · exact h (List.mem_of_getLast?_eq_some h1)
  rw [if_neg this, comma_fields_no_comma f h]

theorem stored_fields_split (f rest : List Nat) (h : 44 ∉ f) :
    stored_fields (f ++ 44 :: rest) = f :: stored_fields rest := by
  unfold stored_fields
  rw [comma_fields_split f rest h]
  cases rest with
  | nil => simp [comma_fields]
  | cons b bs =>
    have h1 : (f ++ 44 :: b :: bs).getLast? = (b :: bs).getLast? := by
      rw [List.getLast?_append, List.getLast?_cons_cons]
      cases hl : (b :: bs).getLast? with
      | none => simp at hl
      | some x => simp
    have hne := comma_fields_ne_nil (b :: bs)
    by_cases hc : (b :: bs).getLast? = some 44
    · have c1 : (f ++ 44 :: b :: bs = [] ∨ (f ++ 44 :: b :: bs).getLast? = some 44) :=
        Or.inr (h1.trans hc)
      have c2 : (b :: bs = [] ∨ (b :: bs).getLast? = some 44) := Or.inr hc
      rw [if_pos c1, if_pos c2]
      cases hcf : comma_fields (b :: bs) with
      | nil => exact absurd hcf hne
      | cons g gs => simp [List.dropLast]
    · have c1 : ¬ (f ++ 44 :: b :: bs = [] ∨ (f ++ 44 :: b :: bs).getLast? = some 44) := by
        rintro (h2 | h2)
        · simp at h2
        · exact hc (h1.symm.trans h2)
      have c2 : ¬ (b :: bs = [] ∨ (b :: bs).getLast? = some 44) := by
        rintro (h2 | h2)
        · simp at h2
        · exact hc h2
      rw [if_neg c1, if_neg c2]

theorem stored_fields_length_le (body : List Nat) :
    (stored_fields body).length ≤ body.count 44 + 1 := by
  unfold stored_fields
  split
  · rw [List.length_dropLast, comma_fields_length]; omega
  · rw [comma_fields_length]

/-- What the tokenizer loop stores, as long as the cap of 32 is not reached. -/
theorem tokenize_loop_fields (mem : Nat → Nat) (e : Nat) :
    ∀ (fuel p : Nat) (t : NmeaTokenizer), e - p ≤ fuel → t.count = t.tokens.length →
      t.count + (stored_fields (slice mem p e)).length ≤ MAX_NMEA_TOKENS →
      (tokenize_loop mem e fuel p t).tokens.map (tok_bytes mem) =
        t.tokens.map (tok_bytes mem) ++ stored_fields (slice mem p e) ∧
      (tokenize_loop mem e fuel p t).count = (tokenize_loop mem e fuel p t).tokens.length := by
  intro fuel
  induction fuel with
  | zero =>
    intro p t h hc _
    rw [tokenize_loop_done mem e 0 p t (by omega), slice_nil mem p e (by omega), stored_fields_nil]
    simp [hc]
  | succ fuel ih =>
    intro p t h hc hcap
    by_cases hpe : p < e
    · rw [tokenize_loop]
      simp only [hpe, if_true]
      cases hm : memchr mem 44 p (e - p) with
      | none =>
        have hno := memchr_none _ _ hm
        have hnc : 44 ∉ slice mem p e :=
          slice_no_comma mem p e (fun j h1 h2 => hno j h1 (by omega))
        have hne : slice mem p e ≠ [] := by
          intro h0
          have := slice_length mem p e
          rw [h0] at this
          simp at this
          omega
        rw [stored_fields_no_comma _ hnc hne] at hcap ⊢
        have hlt : t.count < MAX_NMEA_TOKENS := by simp at hcap; omega
        simp only [hlt, if_true, lt_irrefl, if_false]
        rw [tokenize_loop_done mem e fuel e _ (le_refl _)]
        simp [hc, tok_bytes]
      | some q =>
        obtain ⟨h1, h2, h3, h4⟩ := memchr_some _ _ _ hm
        have hqe : q < e := by omega
        have hnc : 44 ∉ slice mem p q := slice_no_comma mem p q h4
        have hsl : slice mem p e = slice mem p q ++ 44 :: slice mem (q + 1) e := by
          rw [slice_append mem e (q - p) p q rfl h1 (by omega), slice_cons mem q e hqe, h3]
        rw [hsl, stored_fields_split _ _ hnc] at hcap ⊢
        have hlt : t.count < MAX_NMEA_TOKENS := by simp at hcap; omega
        simp only [hlt, hqe, if_true]
        have := ih (q + 1) { count := t.count + 1, tokens := t.tokens ++ [{ p := p, end_ := q }] }
          (by omega) (by simp [hc]) (by simp at hcap ⊢; omega)
        obtain ⟨ha, hb⟩ := this
        refine ⟨?_, hb⟩
        rw [ha]
        simp [tok_bytes]
    · rw [tokenize_loop_done mem e _ p t (by omega), slice_nil mem p e (by omega), stored_fields_nil]
      simp [hc]

theorem comma_fields_snoc_comma (l : List Nat) :
    comma_fields (l ++ [44]) = comma_fields l ++ [[]] := by
  induction l with
  | nil => simp [comma_fields]
  | cons b bs ih =>
    rw [List.cons_append, comma_fields, comma_fields]
    by_cases hb : b = 44
    · simp [hb, ih]
    · simp only [hb, if_false, ih]
      have hne := comma_fields_ne_nil bs
      cases hc : comma_fields bs with
      | nil => exact absurd hc hne
      | cons f fs => simp

theorem comma_fields_trailing (body : List Nat) (h : body = [] ∨ body.getLast? = some 44) :
    comma_fields body = (comma_fields body).dropLast ++ [[]] := by
  rcases h with h | h
  · subst h; simp [comma_fields]
  · obtain ⟨l, hl⟩ := List.getLast?_eq_some_iff.mp h
    subst hl
    rw [comma_fields_snoc_comma, List.dropLast_concat]

/-- C2, as the code has it: for a sentence body (what nmea_strip leaves of the
span) with k commas and k+1 <= 32, nmea_tokenizer_init stores exactly the k+1
spans between the commas when the body is non-empty and does not end with a
comma; when the body is empty or ends with a comma the final, empty span is
not stored: the count is k, the stored fields are the first k spans, and the
lookup of index k still yields a zero-length view. -/
theorem C2_fields (mem : Nat → Nat) (p e : Nat) (body : List Nat)
    (hbody : slice mem (nmea_strip mem p e).1 (nmea_strip mem p e).2 = body)
    (hk : body.count 44 + 1 ≤ 32) :
    (body ≠ [] ∧ body.getLast? ≠ some 44 →
      (nmea_tokenizer_init mem p e).count = body.count 44 + 1 ∧
      (nmea_tokenizer_init mem p e).tokens.map (tok_bytes mem) = comma_fields body) ∧
    (body = [] ∨ body.getLast? = some 44 →
      (nmea_tokenizer_init mem p e).count = body.count 44 ∧
      (nmea_tokenizer_init mem p e).tokens.map (tok_bytes mem) = (comma_fields body).dropLast ∧
      comma_fields body = (nmea_tokenizer_init mem p e).tokens.map (tok_bytes mem) ++ [[]] ∧
      (nmea_tokenizer_get (nmea_tokenizer_init mem p e) (body.count 44 : Nat)).p =
        (nmea_tokenizer_get (nmea_tokenizer_init mem p e) (body.count 44 : Nat)).end_) := by
  have hlen := stored_fields_length_le body
  have hmain := tokenize_loop_fields mem (nmea_strip mem p e).2
    ((nmea_strip mem p e).2 - (nmea_strip mem p e).1) (nmea_strip mem p e).1
    { count := 0, tokens := [] } (le_refl _) rfl
    (by rw [hbody]; simp only [MAX_NMEA_TOKENS]; omega)
  rw [hbody] at hmain
  simp only [List.map_nil, List.nil_append] at hmain
  obtain ⟨hf, hc⟩ := hmain
  have hcount : (nmea_tokenizer_init mem p e).count = (stored_fields body).length := by
    show (tokenize_loop mem _ _ _ _).count = _
    rw [hc, ← hf, List.length_map]
  have hfields : (nmea_tokenizer_init mem p e).tokens.map (tok_bytes mem) = stored_fields body := hf
  refine ⟨?_, ?_⟩
  · rintro ⟨h1, h2⟩
    have hs : stored_fields body = comma_fields body := by
      unfold stored_fields
      rw [if_neg]
      rintro (h | h)
      · exact h1 h
      · exact h2 h
    rw [hcount, hfields, hs, comma_fields_length]
    simp
  · intro h
    have hs : stored_fields body = (comma_fields body).dropLast := by
      unfold stored_fields
      rw [if_pos h]
    have hcnt : (nmea_tokenizer_init mem p e).count = body.count 44 := by
      rw [hcount, hs, List.length_dropLast, comma_fields_length]; rfl
    refine ⟨hcnt, by rw [hfields, hs], ?_, ?_⟩
    · rw [hfields, hs]; exact comma_fields_trailing body h
    · unfold nmea_tokenizer_get
      rw [if_pos]
      right; left
      rw [hcnt]

/-- C2 applied to the line `$a,,b*47\r\n`, whose body `a,,b` has two commas
and three fields. -/
theorem C2_fields_witness :
    (nmea_tokenizer_init (list_mem [36, 97, 44, 44, 98, 42, 52, 55, 13, 10]) 0 10).count = 3 ∧
    (nmea_tokenizer_init (list_mem [36, 97, 44, 44, 98, 42, 52, 55, 13, 10]) 0 10).tokens.map
      (tok_bytes (list_mem [36, 97, 44, 44, 98, 42, 52, 55, 13, 10])) = [[97], [], [98]] :=
  (C2_fields (list_mem [36, 97, 44, 44, 98, 42, 52, 55, 13, 10]) 0 10 [97, 44, 44, 98]
    (by decide) (by decide)).1 ⟨by decide, by decide⟩

/-- C2 as stated fails on the body `a,` (one comma): the tokenizer returns one
field, not two. -/
theorem C2_counterexample :
    nmea_strip (list_mem [97, 44]) 0 2 = (0, 2) ∧
    slice (list_mem [97, 44]) 0 2 = [97, 44] ∧
    List.count 44 [97, 44] + 1 ≤ 32 ∧
    (nmea_tokenizer_init (list_mem [97, 44]) 0 2).count = 1 ∧
    (nmea_tokenizer_init (list_mem [97, 44]) 0 2).count ≠ List.count 44 [97, 44] + 1 := by
  decide

/-- The spans of the specification are the pieces `List.splitOn` cuts at commas. -/
theorem comma_fields_eq_splitOn (body : List Nat) : comma_fields body = body.splitOn 44 := by
  induction body with
  | nil => simp [comma_fields]
  | cons b bs ih =>
    have e : List.splitOn 44 (b :: bs) =
        if b = 44 then [] :: List.splitOn 44 bs
        else (List.splitOn 44 bs).modifyHead (List.cons b) := by
      simp only [List.splitOn, List.splitOnP_cons, beq_iff_eq]
    rw [comma_fields, ih, e]
    by_cases hb : b = 44
    · simp [hb]
    · simp only [hb, if_false]
      have hne : List.splitOn 44 bs ≠ [] := List.splitOnP_ne_nil _ _
      cases hs : List.splitOn 44 bs with
      | nil => exact absurd hs hne
      | cons f fs => simp [List.modifyHead]

/-! ## Integer converter -/

theorem wrap32_id (x : Int) (h1 : -2147483648 ≤ x) (h2 : x < 2147483648) : wrap32 x = x := by
  unfold wrap32; omega

theorem digits_foldl_ge (l : List Nat) :
    ∀ acc : Nat, acc ≤ l.foldl (fun acc b => acc * 10 + (b - 48)) acc := by
  induction l with
  | nil => intro acc; exact le_refl _
  | cons b bs ih =>
    intro acc
    simp only [List.foldl_cons]
    have := ih (acc * 10 + (b - 48))
    omega

theorem str2int_loop_digits (mem : Nat → Nat) (e : Nat) :
    ∀ (len p acc : Nat), p + len = e →
      (∀ a, p ≤ a → a < e → 48 ≤ mem a ∧ mem a ≤ 57) →
      (slice mem p e).foldl (fun acc b => acc * 10 + (b - 48)) acc < 2147483648 →
      str2int_loop mem e len p (acc : Int) =
        (((slice mem p e).foldl (fun acc b => acc * 10 + (b - 48)) acc : Nat) : Int) := by
  intro len
  induction len with
  | zero =>
    intro p acc hp _ _
    rw [slice_nil mem p e (by omega)]
    rfl
  | succ len ih =>
    intro p acc hp hd hlt
    have hpe : p < e := by omega
    rw [slice_cons mem p e hpe] at hlt ⊢
    simp only [List.foldl_cons] at hlt ⊢
    have hdp := hd p (le_refl _) hpe
    have hge := digits_foldl_ge (slice mem (p + 1) e) (acc * 10 + (mem p - 48))
    rw [str2int_loop]
    have h1 : ¬ p ≥ e := by omega
    have h2 : ¬ (((mem p : Int) - 48) % 4294967296 ≥ 10) := by omega
    simp only [h1, h2, if_false]
    have h3 : wrap32 ((acc : Int) * 10 + ((mem p : Int) - 48)) = ((acc * 10 + (mem p - 48) : Nat) : Int) := by
      rw [wrap32_id] <;> omega
    rw [h3]
    exact ih (p + 1) _ (by omega) (fun a ha1 ha2 => hd a (by omega) ha2) hlt

theorem str2int_loop_fail (mem : Nat → Nat) (e : Nat) :
    ∀ (len p : Nat) (result : Int),
      (∃ a, p ≤ a ∧ a < p + len ∧ mem a < 256 ∧ ¬ (48 ≤ mem a ∧ mem a ≤ 57)) →
      str2int_loop mem e len p result = -1 := by
  intro len
  induction len with
  | zero => intro p result ⟨a, h1, h2, _⟩; omega
  | succ len ih =>
    intro p result ⟨a, h1, h2, h3, h4⟩
    rw [str2int_loop]
    by_cases hpe : p ≥ e
    · simp [hpe]
    · simp only [hpe, if_false]
      by_cases hc : ((mem p : Int) - 48) % 4294967296 ≥ 10
      · simp [hc]
      · simp only [hc, if_false]
        apply ih
        refine ⟨a, ?_, by omega, h3, h4⟩
        by_contra hlt
        have : a = p := by omega
        subst this
        omega

/-- C3: for every non-empty field, str2int returns the decimal value of the
field when all its bytes are ASCII digits and the value is below 2^31, and
returns -1 when some byte of the field is not an ASCII digit. -/
theorem C3_str2int (mem : Nat → Nat) (p e : Nat) (hne : p < e)
    (hbyte : ∀ a, p ≤ a → a < e → mem a < 256) :
    ((∀ a, p ≤ a → a < e → 48 ≤ mem a ∧ mem a ≤ 57) →
      digits_value (slice mem p e) < 2 ^ 31 →
      str2int mem p e = (digits_value (slice mem p e) : Int)) ∧
    ((∃ a, p ≤ a ∧ a < e ∧ ¬ (48 ≤ mem a ∧ mem a ≤ 57)) → str2int mem p e = -1) := by
  refine ⟨?_, ?_⟩
  · intro hd hv
    unfold str2int
    have := str2int_loop_digits mem e (e - p) p 0 (by omega) hd (by simpa [digits_value] using hv)
    simpa [digits_value] using this
  · rintro ⟨a, h1, h2, h3⟩
    unfold str2int
    exact str2int_loop_fail mem e (e - p) p 0 ⟨a, h1, by omega, hbyte a h1 h2, h3⟩

/-- C3 on the fields `042` (value 42) and `12A` (rejected). -/
theorem C3_str2int_witness :
    str2int (list_mem [48, 52, 50]) 0 3 = 42 ∧ str2int (list_mem [49, 50, 65]) 0 3 = -1 :=
  ⟨(C3_str2int (list_mem [48, 52, 50]) 0 3 (by decide)
      (fun a _ h => by
        have : a = 0 ∨ a = 1 ∨ a = 2 := by omega
        rcases this with h | h | h <;> subst h <;> decide)).1
      (fun a _ h => by
        have : a = 0 ∨ a = 1 ∨ a = 2 := by omega
        rcases this with h | h | h <;> subst h <;> decide)
      (by decide),
   (C3_str2int (list_mem [49, 50, 65]) 0 3 (by decide)
      (fun a _ h => by
        have : a = 0 ∨ a = 1 ∨ a = 2 := by omega
        rcases this with h | h | h <;> subst h <;> decide)).2
      ⟨2, by decide, by decide, by decide⟩⟩

/-- C4, as the code has it: on an empty field (p == end) the loop of str2int
never runs and the result is 0. -/
theorem C4_str2int_empty (mem : Nat → Nat) (p : Nat) : str2int mem p p = 0 := by
  unfold str2int
  rw [Nat.sub_self]
  rfl

/-- C4 as stated fails: str2int of the empty field is 0, not -1. -/
theorem C4_counterexample :
    str2int (list_mem []) 0 0 = 0 ∧ str2int (list_mem []) 0 0 ≠ -1 := by
  decide


/-! ## Frame lemmas for the field updates -/

theorem update_time_frame (env : Env) (mem : Nat → Nat) (r : NmeaReader) (tok : Token) (gmt : Int) :
    (nmea_reader_update_time env mem r tok gmt).2.1.gsa = r.gsa ∧
    (nmea_reader_update_time env mem r tok gmt).2.1.fix.flags = r.fix.flags ∧
    (nmea_reader_update_time env mem r tok gmt).2.1.fix.accuracy = r.fix.accuracy ∧
    (nmea_reader_update_time env mem r tok gmt).2.1.fix.latitude = r.fix.latitude ∧
    (nmea_reader_update_time env mem r tok gmt).2.1.fix.longitude = r.fix.longitude ∧
    (nmea_reader_update_time env mem r tok gmt).2.1.fix.altitude = r.fix.altitude := by
  unfold nmea_reader_update_time
  dsimp only
  split_ifs <;> simp

theorem update_latlong_frame (env : Env) (mem : Nat → Nat) (r : NmeaReader)
    (lat : Token) (lath : Nat) (lon : Token) (lonh : Nat) :
    (nmea_reader_update_latlong env mem r lat lath lon lonh).2.gsa = r.gsa ∧
    (nmea_reader_update_latlong env mem r lat lath lon lonh).2.fix.accuracy = r.fix.accuracy ∧
    ((nmea_reader_update_latlong env mem r lat lath lon lonh).2.fix.flags = r.fix.flags ∨
     (nmea_reader_update_latlong env mem r lat lath lon lonh).2.fix.flags =
       r.fix.flags ||| GPS_LOCATION_HAS_LAT_LONG) := by
  unfold nmea_reader_update_latlong
  dsimp only
  split_ifs <;> simp

theorem update_altitude_frame (env : Env) (mem : Nat → Nat) (r : NmeaReader) (alt units : Token) :
    (nmea_reader_update_altitude env mem r alt units).2.gsa = r.gsa ∧
    (nmea_reader_update_altitude env mem r alt units).2.fix.accuracy = r.fix.accuracy ∧
    ((nmea_reader_update_altitude env mem r alt units).2.fix.flags = r.fix.flags ∨
     (nmea_reader_update_altitude env mem r alt units).2.fix.flags =
       r.fix.flags ||| GPS_LOCATION_HAS_ALTITUDE) := by
  unfold nmea_reader_update_altitude
  dsimp only
  split_ifs <;> simp

theorem update_accuracy_frame (env : Env) (mem : Nat → Nat) (r : NmeaReader) (tok : Token)
    (is_fix : Bool) :
    (nmea_reader_update_accuracy env mem r tok is_fix).2.gsa = r.gsa ∧
    (nmea_reader_update_accuracy env mem r tok is_fix).2.utc_year = r.utc_year ∧
    (nmea_reader_update_accuracy env mem r tok is_fix).2.utc_mon = r.utc_mon ∧
    (nmea_reader_update_accuracy env mem r tok is_fix).2.utc_day = r.utc_day ∧
    (nmea_reader_update_accuracy env mem r tok is_fix).2.fix.latitude = r.fix.latitude ∧
    (nmea_reader_update_accuracy env mem r tok is_fix).2.fix.longitude = r.fix.longitude ∧
    (nmea_reader_update_accuracy env mem r tok is_fix).2.fix.altitude = r.fix.altitude ∧
    (nmea_reader_update_accuracy env mem r tok is_fix).2.fix.timestamp = r.fix.timestamp ∧
    ((nmea_reader_update_accuracy env mem r tok is_fix).2.fix.flags = r.fix.flags ∨
     (is_fix = true ∧ (nmea_reader_update_accuracy env mem r tok is_fix).2.fix.flags =
       r.fix.flags ||| GPS_LOCATION_HAS_ACCURACY)) ∧
    (tok.p < tok.end_ →
      (nmea_reader_update_accuracy env mem r tok is_fix).2.fix.accuracy =
        env.to_float (str2float env mem tok.p tok.end_)) := by
  unfold nmea_reader_update_accuracy
  dsimp only
  split_ifs <;> simp_all

/-! ## Validity bits -/

theorem nat_or_and_right (x y z : Nat) : (x ||| y) &&& z = (x &&& z) ||| (y &&& z) := by
  rw [Nat.and_comm, Nat.and_or_distrib_left, Nat.and_comm z x, Nat.and_comm z y]

theorem has_flag_or (f b b2 : Nat) (h : b &&& b2 = 0) : has_flag (f ||| b) b2 = has_flag f b2 := by
  unfold has_flag
  rw [nat_or_and_right, h, Nat.or_zero]

theorem has_flag_or_self (f b : Nat) (h : b ≠ 0) : has_flag (f ||| b) b = true := by
  unfold has_flag
  rw [nat_or_and_right, Nat.and_self]
  simp only [ne_eq, decide_eq_true_eq]
  intro h0
  apply h
  apply Nat.eq_of_testBit_eq
  intro i
  have := congrArg (fun x => Nat.testBit x i) h0
  simp only [Nat.testBit_or, Nat.zero_testBit, Bool.or_eq_false_iff] at this
  simpa using this.2

theorem has_flag_clear_altitude (f : Nat) :
    has_flag (f &&& (65535 - GPS_LOCATION_HAS_ALTITUDE)) GPS_LOCATION_HAS_ALTITUDE = false := by
  unfold has_flag
  rw [Nat.and_assoc]
  have : (65535 - GPS_LOCATION_HAS_ALTITUDE) &&& GPS_LOCATION_HAS_ALTITUDE = 0 := by decide
  rw [this]
  simp

theorem has_flag_clear_altitude_accuracy (f : Nat) :
    has_flag (f &&& (65535 - GPS_LOCATION_HAS_ALTITUDE)) GPS_LOCATION_HAS_ACCURACY =
      has_flag f GPS_LOCATION_HAS_ACCURACY := by
  unfold has_flag
  rw [Nat.and_assoc]
  have : (65535 - GPS_LOCATION_HAS_ALTITUDE) &&& GPS_LOCATION_HAS_ACCURACY =
      GPS_LOCATION_HAS_ACCURACY := by decide
  rw [this]

theorem has_flag_zero (b : Nat) : has_flag 0 b = false := by
  simp [has_flag]

/-! ## Notifications -/

theorem fixes_of_append (l1 l2 : List Event) : fixes_of (l1 ++ l2) = fixes_of l1 ++ fixes_of l2 := by
  simp [fixes_of, List.filterMap_append]

theorem NoFixPushed.refl (a : State) : NoFixPushed a a :=
  ⟨[], by simp, rfl⟩

theorem NoFixPushed.of_out_eq {a b : State} (h : b.out = a.out) : NoFixPushed a b :=
  ⟨[], by simp [h], rfl⟩

theorem NoFixPushed.trans {a b c : State} (h1 : NoFixPushed a b) (h2 : NoFixPushed b c) :
    NoFixPushed a c := by
  obtain ⟨l1, e1, f1⟩ := h1
  obtain ⟨l2, e2, f2⟩ := h2
  exact ⟨l1 ++ l2, by rw [e2, e1, List.append_assoc], by rw [fixes_of_append, f1, f2]; rfl⟩

theorem update_svs_out (env : Env) (mem : Nat → Nat) (s : State) (inview num i : Int)
    (prn elevation azimuth snr : Token) :
    NoFixPushed s (nmea_reader_update_svs env mem s inview num i prn elevation azimuth snr) := by
  unfold nmea_reader_update_svs
  dsimp only
  split_ifs
  · exact NoFixPushed.of_out_eq rfl
  · exact ⟨[Event.sv_out_of_bounds (sv_index num i)], rfl, rfl⟩
  · exact NoFixPushed.refl s

theorem parse_gsv_out (env : Env) (mem : Nat → Nat) (tzer : NmeaTokenizer) (s : State) :
    NoFixPushed s (parse_gsv env mem tzer s).1 ∧ (parse_gsv env mem tzer s).2 = false := by
  unfold parse_gsv
  dsimp only
  have h0 : NoFixPushed s
      (if str2int mem (nmea_tokenizer_get tzer 2).p (nmea_tokenizer_get tzer 2).end_ = 1 then
        { s with r := { s.r with sv_status := { s.r.sv_status with used_in_fix_mask := 0 } } }
       else s) := by
    split_ifs
    · exact NoFixPushed.of_out_eq rfl
    · exact NoFixPushed.refl s
  generalize (if str2int mem (nmea_tokenizer_get tzer 2).p (nmea_tokenizer_get tzer 2).end_ = 1 then
        ({ s with r := { s.r with sv_status := { s.r.sv_status with used_in_fix_mask := 0 } } } : State)
       else s) = s0 at h0 ⊢
  have h1 := update_svs_out env mem s0
    (str2int mem (nmea_tokenizer_get tzer 3).p (nmea_tokenizer_get tzer 3).end_)
    (str2int mem (nmea_tokenizer_get tzer 2).p (nmea_tokenizer_get tzer 2).end_) 0
    (nmea_tokenizer_get tzer 4) (nmea_tokenizer_get tzer 5) (nmea_tokenizer_get tzer 6)
    (nmea_tokenizer_get tzer 7)
  generalize nmea_reader_update_svs env mem s0 _ _ 0 _ _ _ _ = s1 at h1 ⊢
  have h2 := update_svs_out env mem s1
    (str2int mem (nmea_tokenizer_get tzer 3).p (nmea_tokenizer_get tzer 3).end_)
    (str2int mem (nmea_tokenizer_get tzer 2).p (nmea_tokenizer_get tzer 2).end_) 1
    (nmea_tokenizer_get tzer 8) (nmea_tokenizer_get tzer 9) (nmea_tokenizer_get tzer 10)
    (nmea_tokenizer_get tzer 11)
  generalize nmea_reader_update_svs env mem s1 _ _ 1 _ _ _ _ = s2 at h2 ⊢
  have h3 := update_svs_out env mem s2
    (str2int mem (nmea_tokenizer_get tzer 3).p (nmea_tokenizer_get tzer 3).end_)
    (str2int mem (nmea_tokenizer_get tzer 2).p (nmea_tokenizer_get tzer 2).end_) 2
    (nmea_tokenizer_get tzer 12) (nmea_tokenizer_get tzer 13) (nmea_tokenizer_get tzer 14)
    (nmea_tokenizer_get tzer 15)
  generalize nmea_reader_update_svs env mem s2 _ _ 2 _ _ _ _ = s3 at h3 ⊢
  have h4 := update_svs_out env mem s3
    (str2int mem (nmea_tokenizer_get tzer 3).p (nmea_tokenizer_get tzer 3).end_)
    (str2int mem (nmea_tokenizer_get tzer 2).p (nmea_tokenizer_get tzer 2).end_) 3
    (nmea_tokenizer_get tzer 16) (nmea_tokenizer_get tzer 17) (nmea_tokenizer_get tzer 18)
    (nmea_tokenizer_get tzer 19)
  generalize nmea_reader_update_svs env mem s3 _ _ 3 _ _ _ _ = s4 at h4 ⊢
  have h04 : NoFixPushed s s4 := (((h0.trans h1).trans h2).trans h3).trans h4
  split_ifs
  · exact ⟨h04.trans ⟨[Event.sv_status _], rfl, rfl⟩, rfl⟩
  · exact ⟨h04.trans (NoFixPushed.of_out_eq rfl), rfl⟩
  · exact ⟨h04.trans (NoFixPushed.of_out_eq rfl), rfl⟩

theorem update_date_out (env : Env) (mem : Nat → Nat) (s : State) (date_tok time_tok : Token) :
    NoFixPushed s (nmea_reader_update_date env mem s date_tok time_tok).2 := by
  unfold nmea_reader_update_date
  dsimp only
  split_ifs
  · exact NoFixPushed.refl s
  · exact NoFixPushed.refl s
  · exact ⟨[Event.settimeofday _], rfl, rfl⟩
  · exact NoFixPushed.of_out_eq rfl
  · exact NoFixPushed.of_out_eq rfl

theorem parse_rmc_out (env : Env) (mem : Nat → Nat) (tzer : NmeaTokenizer) (s : State) :
    NoFixPushed s (parse_rmc env mem tzer s).1 ∧ (parse_rmc env mem tzer s).2 = false := by
  unfold parse_rmc
  dsimp only
  split_ifs
  · exact ⟨(update_date_out env mem s _ _).trans (NoFixPushed.of_out_eq rfl), rfl⟩
  · exact ⟨NoFixPushed.refl s, rfl⟩

theorem parse_vtg_out (env : Env) (mem : Nat → Nat) (tzer : NmeaTokenizer) (s : State) :
    (parse_vtg env mem tzer s).1.out = s.out ∧ (parse_vtg env mem tzer s).2 = false := by
  unfold parse_vtg
  dsimp only
  split_ifs <;> exact ⟨rfl, rfl⟩

theorem parse_gga_reader_before_accuracy (env : Env) (mem : Nat → Nat) (r : NmeaReader)
    (t1 t2 t4 t9 t10 : Token) (h3 h5 : Nat) :
    let r1 := (nmea_reader_update_altitude env mem
      (nmea_reader_update_latlong env mem
        (nmea_reader_update_time env mem r t1 env.gmt_uninit).2.1 t2 h3 t4 h5).2 t9 t10).2
    r1.gsa = r.gsa ∧ r1.fix.accuracy = r.fix.accuracy ∧
      has_flag r1.fix.flags GPS_LOCATION_HAS_ACCURACY = has_flag r.fix.flags GPS_LOCATION_HAS_ACCURACY := by
  intro r1
  have ht := update_time_frame env mem r t1 env.gmt_uninit
  have hl := update_latlong_frame env mem (nmea_reader_update_time env mem r t1 env.gmt_uninit).2.1
    t2 h3 t4 h5
  have ha := update_altitude_frame env mem
    (nmea_reader_update_latlong env mem
      (nmea_reader_update_time env mem r t1 env.gmt_uninit).2.1 t2 h3 t4 h5).2 t9 t10
  refine ⟨by rw [ha.1, hl.1, ht.1], by rw [ha.2.1, hl.2.1, ht.2.2.1], ?_⟩
  have e1 : has_flag (nmea_reader_update_latlong env mem
      (nmea_reader_update_time env mem r t1 env.gmt_uninit).2.1 t2 h3 t4 h5).2.fix.flags
      GPS_LOCATION_HAS_ACCURACY = has_flag r.fix.flags GPS_LOCATION_HAS_ACCURACY := by
    rcases hl.2.2 with h | h
    · rw [h, ht.2.1]
    · rw [h, ht.2.1, has_flag_or _ _ _ (by decide)]
  rcases ha.2.2 with h | h
  · show has_flag (nmea_reader_update_altitude _ _ _ _ _).2.fix.flags _ = _
    rw [h, e1]
  · show has_flag (nmea_reader_update_altitude _ _ _ _ _).2.fix.flags _ = _
    rw [h, has_flag_or _ _ _ (by decide), e1]

/-- The reader that the `GGA` branch hands to the accuracy update. -/
theorem parse_gga_spec (env : Env) (mem : Nat → Nat) (tzer : NmeaTokenizer) (s : State) :
    (parse_gga env mem tzer s).1.out = s.out ∧
    (parse_gga env mem tzer s).1.id_in_fixed = s.id_in_fixed ∧
    (parse_gga env mem tzer s).1.r.gsa = s.r.gsa ∧
    (parse_gga env mem tzer s).2 = !s.r.gsa ∧
    (s.r.gsa = true →
      (parse_gga env mem tzer s).1.r.fix.accuracy = s.r.fix.accuracy ∧
      has_flag (parse_gga env mem tzer s).1.r.fix.flags GPS_LOCATION_HAS_ACCURACY =
        has_flag s.r.fix.flags GPS_LOCATION_HAS_ACCURACY) ∧
    (s.r.gsa = false →
      ((nmea_tokenizer_get tzer 8).p < (nmea_tokenizer_get tzer 8).end_ →
        (parse_gga env mem tzer s).1.r.fix.accuracy =
          env.to_float (str2float env mem (nmea_tokenizer_get tzer 8).p
            (nmea_tokenizer_get tzer 8).end_)) ∧
      (has_flag (parse_gga env mem tzer s).1.r.fix.flags GPS_LOCATION_HAS_ACCURACY = true →
        has_flag s.r.fix.flags GPS_LOCATION_HAS_ACCURACY = true ∨
          0 < str2int mem (nmea_tokenizer_get tzer 6).p (nmea_tokenizer_get tzer 6).end_)) := by
  unfold parse_gga
  dsimp only
  by_cases hfix : 0 < str2int mem (nmea_tokenizer_get tzer 6).p (nmea_tokenizer_get tzer 6).end_
  · simp only [hfix, if_true, decide_True]
    obtain ⟨g1, g2, g3⟩ := parse_gga_reader_before_accuracy env mem s.r (nmea_tokenizer_get tzer 1)
      (nmea_tokenizer_get tzer 2) (nmea_tokenizer_get tzer 4) (nmea_tokenizer_get tzer 9)
      (nmea_tokenizer_get tzer 10) (mem (nmea_tokenizer_get tzer 3).p)
      (mem (nmea_tokenizer_get tzer 5).p)
    generalize (nmea_reader_update_altitude env mem
      (nmea_reader_update_latlong env mem
        (nmea_reader_update_time env mem s.r (nmea_tokenizer_get tzer 1) env.gmt_uninit).2.1
        (nmea_tokenizer_get tzer 2) (mem (nmea_tokenizer_get tzer 3).p)
        (nmea_tokenizer_get tzer 4) (mem (nmea_tokenizer_get tzer 5).p)).2
      (nmea_tokenizer_get tzer 9) (nmea_tokenizer_get tzer 10)).2 = r1 at g1 g2 g3 ⊢
    have hacc := update_accuracy_frame env mem r1 (nmea_tokenizer_get tzer 8) true
    cases hg : s.r.gsa
    · rw [hg] at g1
      rw [if_pos (by simp [g1])]
      exact ⟨rfl, rfl, by show (nmea_reader_update_accuracy _ _ _ _ _).2.gsa = false; rw [hacc.1, g1],
        rfl, (fun h => by cases h), fun _ => ⟨hacc.2.2.2.2.2.2.2.2.2, fun _ => Or.inr trivial⟩⟩
    · rw [hg] at g1
      rw [if_neg (by simp [g1])]
      exact ⟨rfl, rfl, g1, rfl, fun _ => ⟨g2, g3⟩, (fun h => by cases h)⟩
  · simp only [hfix, if_false, decide_False]
    have hacc := update_accuracy_frame env mem s.r (nmea_tokenizer_get tzer 8) false
    cases hg : s.r.gsa
    · rw [if_pos (by simp)]
      refine ⟨rfl, rfl, by show (nmea_reader_update_accuracy _ _ _ _ _).2.gsa = false; rw [hacc.1, hg],
        rfl, (fun h => by cases h), fun _ => ⟨hacc.2.2.2.2.2.2.2.2.2, fun h => Or.inl ?_⟩⟩
      rcases hacc.2.2.2.2.2.2.2.2.1 with h1 | h1
      · rw [← h1]; exact h
      · simp at h1
    · rw [if_neg (by simp)]
      exact ⟨rfl, rfl, hg, rfl, fun _ => ⟨rfl, rfl⟩, (fun h => by cases h)⟩

theorem parse_gga_no_fix (env : Env) (mem : Nat → Nat) (tzer : NmeaTokenizer) (s : State)
    (hfix : ¬ 0 < str2int mem (nmea_tokenizer_get tzer 6).p (nmea_tokenizer_get tzer 6).end_) :
    (parse_gga env mem tzer s).1.r.fix.latitude = s.r.fix.latitude ∧
    (parse_gga env mem tzer s).1.r.fix.longitude = s.r.fix.longitude ∧
    (parse_gga env mem tzer s).1.r.fix.altitude = s.r.fix.altitude ∧
    (parse_gga env mem tzer s).1.r.fix.timestamp = s.r.fix.timestamp ∧
    (parse_gga env mem tzer s).1.r.utc_year = s.r.utc_year ∧
    (parse_gga env mem tzer s).1.r.utc_mon = s.r.utc_mon ∧
    (parse_gga env mem tzer s).1.r.utc_day = s.r.utc_day ∧
    ((parse_gga env mem tzer s).1.r.fix.flags = s.r.fix.flags ∨
      (parse_gga env mem tzer s).1.r.fix.flags = s.r.fix.flags ||| GPS_LOCATION_HAS_ACCURACY) := by
  unfold parse_gga
  dsimp only
  simp only [hfix, if_false, decide_False]
  have hacc := update_accuracy_frame env mem s.r (nmea_tokenizer_get tzer 8) false
  obtain ⟨_, a2, a3, a4, a5, a6, a7, a8, a9, _⟩ := hacc
  cases hg : s.r.gsa
  · rw [if_pos (by simp)]
    refine ⟨a5, a6, a7, a8, a2, a3, a4, ?_⟩
    rcases a9 with h | h
    · exact Or.inl h
    · simp at h
  · rw [if_neg (by simp)]
    exact ⟨rfl, rfl, rfl, rfl, rfl, rfl, rfl, Or.inl rfl⟩

theorem parse_gsa_first (env : Env) (mem : Nat → Nat) (tzer : NmeaTokenizer) (s : State)
    (h : s.r.gsa = false) :
    parse_gsa env mem tzer s = ({ s with r := { s.r with gsa := true } }, false) := by
  unfold parse_gsa
  simp [h]

theorem parse_gsa_later (env : Env) (mem : Nat → Nat) (tzer : NmeaTokenizer) (s : State)
    (h : s.r.gsa = true) :
    (parse_gsa env mem tzer s).2 = true ∧
    (parse_gsa env mem tzer s).1.out = s.out ∧
    (parse_gsa env mem tzer s).1.r.gsa = true ∧
    (str2int mem (nmea_tokenizer_get tzer 2).p (nmea_tokenizer_get tzer 2).end_ = 2 →
      has_flag (parse_gsa env mem tzer s).1.r.fix.flags GPS_LOCATION_HAS_ALTITUDE = false) ∧
    (str2int mem (nmea_tokenizer_get tzer 2).p (nmea_tokenizer_get tzer 2).end_ ≠ 2 →
      has_flag (parse_gsa env mem tzer s).1.r.fix.flags GPS_LOCATION_HAS_ALTITUDE =
        has_flag s.r.fix.flags GPS_LOCATION_HAS_ALTITUDE) ∧
    (has_flag (parse_gsa env mem tzer s).1.r.fix.flags GPS_LOCATION_HAS_ACCURACY = true →
      has_flag s.r.fix.flags GPS_LOCATION_HAS_ACCURACY = true ∨
        1 < str2int mem (nmea_tokenizer_get tzer 2).p (nmea_tokenizer_get tzer 2).end_) ∧
    ((nmea_tokenizer_get tzer 16).p < (nmea_tokenizer_get tzer 16).end_ →
      (parse_gsa env mem tzer s).1.r.fix.accuracy =
        env.to_float (str2float env mem (nmea_tokenizer_get tzer 16).p
          (nmea_tokenizer_get tzer 16).end_)) ∧
    ((nmea_tokenizer_get tzer 16).p < (nmea_tokenizer_get tzer 16).end_ →
      1 < str2int mem (nmea_tokenizer_get tzer 2).p (nmea_tokenizer_get tzer 2).end_ →
      ¬ 99 < env.to_float (str2float env mem (nmea_tokenizer_get tzer 16).p
          (nmea_tokenizer_get tzer 16).end_) →
      has_flag (parse_gsa env mem tzer s).1.r.fix.flags GPS_LOCATION_HAS_ACCURACY = true) := by
  unfold parse_gsa
  rw [if_pos h]
  dsimp only
  generalize hfx : str2int mem (nmea_tokenizer_get tzer 2).p (nmea_tokenizer_get tzer 2).end_ = fx
  by_cases h2 : fx = 2
  · rw [if_pos h2]
    have hacc := update_accuracy_frame env mem
      { s.r with fix := { s.r.fix with flags := s.r.fix.flags &&& (65535 - GPS_LOCATION_HAS_ALTITUDE) } }
      (nmea_tokenizer_get tzer 16) (decide (1 < fx))
    obtain ⟨_, _, _, _, _, _, _, _, a9, a10⟩ := hacc
    refine ⟨rfl, rfl, rfl, fun _ => ?_, fun hne => absurd h2 hne, fun hset => Or.inr (by omega), a10, ?_⟩
    · rcases a9 with e | ⟨_, e⟩
      · show has_flag (nmea_reader_update_accuracy _ _ _ _ _).2.fix.flags _ = false
        rw [e]; exact has_flag_clear_altitude _
      · show has_flag (nmea_reader_update_accuracy _ _ _ _ _).2.fix.flags _ = false
        rw [e, has_flag_or _ _ _ (by decide)]; exact has_flag_clear_altitude _
    · intro hne _ h99
      show has_flag (nmea_reader_update_accuracy _ _ _ _ _).2.fix.flags _ = true
      unfold nmea_reader_update_accuracy
      dsimp only
      rw [if_neg (by omega), if_neg h99, if_pos (by simp; omega)]
      exact has_flag_or_self _ _ (by decide)
  · rw [if_neg h2]
    have hacc := update_accuracy_frame env mem s.r (nmea_tokenizer_get tzer 16) (decide (1 < fx))
    obtain ⟨_, _, _, _, _, _, _, _, a9, a10⟩ := hacc
    refine ⟨rfl, rfl, rfl, fun h2' => absurd h2' h2, fun _ => ?_, fun hset => ?_, a10, ?_⟩
    · rcases a9 with e | ⟨_, e⟩
      · show has_flag (nmea_reader_update_accuracy _ _ _ _ _).2.fix.flags _ = _
        rw [e]
      · show has_flag (nmea_reader_update_accuracy _ _ _ _ _).2.fix.flags _ = _
        rw [e, has_flag_or _ _ _ (by decide)]
    · rcases a9 with e | ⟨hfix, _⟩
      · left
        have hset' : has_flag (nmea_reader_update_accuracy env mem s.r (nmea_tokenizer_get tzer 16)
            (decide (1 < fx))).2.fix.flags GPS_LOCATION_HAS_ACCURACY = true := hset
        rw [e] at hset'
        exact hset'
      · right
        simpa using hfix
    · intro hne hfix h99
      show has_flag (nmea_reader_update_accuracy _ _ _ _ _).2.fix.flags _ = true
      unfold nmea_reader_update_accuracy
      dsimp only
      rw [if_neg (by omega), if_neg h99, if_pos (by simpa using hfix)]
      exact has_flag_or_self _ _ (by decide)

/-! ## The steps around the dispatch -/

theorem prepare_frame (env : Env) (s : State) :
    (nmea_prepare env s).1.r.gsa = s.r.gsa ∧
    (nmea_prepare env s).1.r.fix = s.r.fix ∧
    (nmea_prepare env s).1.r.utc_year = s.r.utc_year ∧
    (nmea_prepare env s).1.r.utc_mon = s.r.utc_mon ∧
    (nmea_prepare env s).1.r.utc_day = s.r.utc_day ∧
    (nmea_prepare env s).1.r.sv_status = s.r.sv_status ∧
    (nmea_prepare env s).1.id_in_fixed = s.id_in_fixed ∧
    NoFixPushed s (nmea_prepare env s).1 := by
  unfold nmea_prepare
  dsimp only
  split_ifs
  · exact ⟨rfl, rfl, rfl, rfl, rfl, rfl, rfl, NoFixPushed.refl s⟩
  · exact ⟨rfl, rfl, rfl, rfl, rfl, rfl, rfl, ⟨[Event.nmea _ _ _], rfl, rfl⟩⟩
  · exact ⟨rfl, rfl, rfl, rfl, rfl, rfl, rfl, NoFixPushed.of_out_eq rfl⟩
  · exact ⟨rfl, rfl, rfl, rfl, rfl, rfl, rfl, ⟨[Event.nmea _ _ _], rfl, rfl⟩⟩
  · exact ⟨rfl, rfl, rfl, rfl, rfl, rfl, rfl, NoFixPushed.of_out_eq rfl⟩

theorem decode_of_gga (env : Env) (s : State) (h : sentence_is env s 71 71 65 = true) :
    nmea_decode env s =
      parse_gga env (parse_mem env s) (parse_tzer env s) (nmea_prepare env s).1 := by
  unfold sentence_is at h
  unfold nmea_decode parse_tzer parse_mem
  cases hp : (nmea_prepare env s).2 with
  | none => rw [hp] at h; simp at h
  | some tp =>
    rw [hp] at h
    simp only at h ⊢
    unfold nmea_dispatch
    rw [if_pos h]

theorem decode_of_gsa (env : Env) (s : State) (h : sentence_is env s 71 83 65 = true) :
    nmea_decode env s =
      parse_gsa env (parse_mem env s) (parse_tzer env s) (nmea_prepare env s).1 := by
  unfold sentence_is at h
  unfold nmea_decode parse_tzer parse_mem
  cases hp : (nmea_prepare env s).2 with
  | none => rw [hp] at h; simp at h
  | some tp =>
    rw [hp] at h
    simp only at h ⊢
    unfold nmea_dispatch
    have hne : ¬ tag_is (buf_mem (nmea_prepare env s).1.r.in_) tp.2 71 71 65 = true := by
      unfold tag_is at h ⊢
      simp only [decide_eq_true_eq] at h ⊢
      omega
    rw [if_neg hne, if_pos h]

theorem decode_other (env : Env) (s : State) (h1 : sentence_is env s 71 71 65 = false)
    (h2 : sentence_is env s 71 83 65 = false) :
    (nmea_decode env s).2 = false := by
  unfold sentence_is at h1 h2
  unfold nmea_decode
  cases hp : (nmea_prepare env s).2 with
  | none => rfl
  | some tp =>
    rw [hp] at h1 h2
    simp only at h1 h2 ⊢
    unfold nmea_dispatch
    rw [if_neg (by simp [h1]), if_neg (by simp [h2])]
    split_ifs
    · exact (parse_gsv_out _ _ _ _).2
    · exact (parse_rmc_out _ _ _ _).2
    · exact (parse_vtg_out _ _ _ _).2
    · rfl

theorem decode_out (env : Env) (s : State) : NoFixPushed s (nmea_decode env s).1 := by
  have hp := (prepare_frame env s).2.2.2.2.2.2.2
  unfold nmea_decode
  cases hq : (nmea_prepare env s).2 with
  | none => exact hp
  | some tp =>
    simp only
    unfold nmea_dispatch
    split_ifs
    · exact hp.trans (NoFixPushed.of_out_eq (parse_gga_spec _ _ _ _).1)
    · by_cases hg : (nmea_prepare env s).1.r.gsa = true
      · exact hp.trans (NoFixPushed.of_out_eq (parse_gsa_later _ _ _ _ hg).2.1)
      · rw [parse_gsa_first _ _ _ _ (by simpa using hg)]
        exact hp.trans (NoFixPushed.of_out_eq rfl)
    · exact hp.trans (parse_gsv_out _ _ _ _).1
    · exact hp.trans (parse_rmc_out _ _ _ _).1
    · exact hp.trans (NoFixPushed.of_out_eq (parse_vtg_out _ _ _ _).1)
    · exact hp

/-- When the local `send_msg` is set after the dispatch. -/
theorem decode_send (env : Env) (s : State) :
    (nmea_decode env s).2 = true ↔
      (sentence_is env s 71 71 65 = true ∧ s.r.gsa = false) ∨
      (sentence_is env s 71 83 65 = true ∧ s.r.gsa = true) := by
  have hpg := (prepare_frame env s).1
  by_cases h1 : sentence_is env s 71 71 65 = true
  · rw [decode_of_gga env s h1, (parse_gga_spec _ _ _ _).2.2.2.1, hpg]
    have hno : ¬ sentence_is env s 71 83 65 = true := by
      unfold sentence_is at h1 ⊢
      cases hp : (nmea_prepare env s).2 with
      | none => simp
      | some tp =>
        rw [hp] at h1
        simp only at h1 ⊢
        unfold tag_is at h1 ⊢
        simp only [decide_eq_true_eq] at h1 ⊢
        omega
    cases s.r.gsa <;> simp [h1, hno]
  · by_cases h2 : sentence_is env s 71 83 65 = true
    · rw [decode_of_gsa env s h2]
      cases hg : s.r.gsa
      · rw [parse_gsa_first _ _ _ _ (by rw [hpg, hg])]
        simp [h1]
      · rw [(parse_gsa_later _ _ _ _ (by rw [hpg, hg])).1]
        simp [h2]
    · rw [decode_other env s (by simpa using h1) (by simpa using h2)]
      simp [h1, h2]

theorem emit_no_sink (env : Env) (h : env.location_cb = false) (s : State) (send_msg : Bool) :
    nmea_emit env s send_msg = s := by
  unfold nmea_emit
  simp [h]

theorem pushed_fixes_eq (env : Env) (s : State) :
    pushed_fixes env s =
      if (nmea_decode env s).2 = true ∧ env.location_cb = true then [(nmea_decode env s).1.r.fix]
      else [] := by
  obtain ⟨l, hl, hf⟩ := decode_out env s
  unfold pushed_fixes nmea_reader_parse nmea_emit
  generalize nmea_decode env s = d at hl ⊢
  obtain ⟨d1, d2⟩ := d
  simp only at hl ⊢
  cases d2
  · simp only [Bool.false_eq_true, if_false, false_and]
    rw [hl, List.drop_left, hf]
  · cases hcb : env.location_cb
    · simp only [Bool.false_eq_true, if_true, if_false, and_false]
      rw [hl, List.drop_left, hf]
    · simp only [if_true, and_self]
      rw [hl, List.append_assoc, List.drop_left, fixes_of_append, hf]
      rfl

theorem parse_reader (env : Env) (s : State) :
    (nmea_reader_parse env s).r =
      if (nmea_decode env s).2 = true ∧ env.location_cb = true then
        { (nmea_decode env s).1.r with fix := { (nmea_decode env s).1.r.fix with flags := 0 } }
      else (nmea_decode env s).1.r := by
  unfold nmea_reader_parse nmea_emit
  by_cases h1 : (nmea_decode env s).2 = true
  · by_cases h2 : env.location_cb = true
    · simp [h1, h2]
    · simp [h1, h2]
  · simp [h1]

/-! ## The GSA-seen flag only ever goes from false to true -/

theorem update_svs_gsa (env : Env) (mem : Nat → Nat) (s : State) (inview num i : Int)
    (prn elevation azimuth snr : Token) :
    (nmea_reader_update_svs env mem s inview num i prn elevation azimuth snr).r.gsa = s.r.gsa := by
  unfold nmea_reader_update_svs
  dsimp only
  split_ifs <;> rfl

theorem parse_gsv_gsa (env : Env) (mem : Nat → Nat) (tzer : NmeaTokenizer) (s : State) :
    (parse_gsv env mem tzer s).1.r.gsa = s.r.gsa := by
  unfold parse_gsv
  dsimp only
  split_ifs <;> simp only [update_svs_gsa]

theorem update_date_gsa (env : Env) (mem : Nat → Nat) (s : State) (date_tok time_tok : Token) :
    (nmea_reader_update_date env mem s date_tok time_tok).2.r.gsa = s.r.gsa := by
  unfold nmea_reader_update_date
  dsimp only
  split_ifs <;> first | rfl | exact (update_time_frame env mem _ _ _).1

theorem update_bearing_gsa (env : Env) (mem : Nat → Nat) (r : NmeaReader) (tok : Token) :
    (nmea_reader_update_bearing env mem r tok).2.gsa = r.gsa := by
  unfold nmea_reader_update_bearing
  split_ifs <;> rfl

theorem update_speed_gsa (env : Env) (mem : Nat → Nat) (r : NmeaReader) (tok : Token) :
    (nmea_reader_update_speed env mem r tok).2.gsa = r.gsa := by
  unfold nmea_reader_update_speed
  split_ifs <;> rfl

theorem parse_rmc_gsa (env : Env) (mem : Nat → Nat) (tzer : NmeaTokenizer) (s : State) :
    (parse_rmc env mem tzer s).1.r.gsa = s.r.gsa := by
  unfold parse_rmc
  dsimp only
  split_ifs
  · show (nmea_reader_update_speed _ _ _ _).2.gsa = _
    rw [update_speed_gsa, update_bearing_gsa, (update_latlong_frame _ _ _ _ _ _ _).1, update_date_gsa]
  · rfl

theorem parse_vtg_gsa (env : Env) (mem : Nat → Nat) (tzer : NmeaTokenizer) (s : State) :
    (parse_vtg env mem tzer s).1.r.gsa = s.r.gsa := by
  unfold parse_vtg
  dsimp only
  split_ifs
  · show (nmea_reader_update_speed _ _ _ _).2.gsa = _
    rw [update_speed_gsa, update_bearing_gsa]
  · rfl

theorem decode_gsa_mono (env : Env) (s : State) (h : s.r.gsa = true) :
    (nmea_decode env s).1.r.gsa = true := by
  have hp : (nmea_prepare env s).1.r.gsa = true := by rw [(prepare_frame env s).1, h]
  unfold nmea_decode
  cases hq : (nmea_prepare env s).2 with
  | none => exact hp
  | some tp =>
    simp only
    unfold nmea_dispatch
    split_ifs
    · rw [(parse_gga_spec _ _ _ _).2.2.1, hp]
    · exact (parse_gsa_later _ _ _ _ hp).2.2.1
    · rw [parse_gsv_gsa, hp]
    · rw [parse_rmc_gsa, hp]
    · rw [parse_vtg_gsa, hp]
    · exact hp

theorem parse_gsa_mono (env : Env) (s : State) (h : s.r.gsa = true) :
    (nmea_reader_parse env s).r.gsa = true := by
  rw [parse_reader]
  split_ifs
  · exact decode_gsa_mono env s h
  · exact decode_gsa_mono env s h

theorem addc_gsa_mono (env : Env) (s : State) (c : Nat) (h : s.r.gsa = true) :
    (nmea_reader_addc env s c).r.gsa = true := by
  unfold nmea_reader_addc
  dsimp only
  split_ifs
  · exact h
  · exact h
  · exact parse_gsa_mono env _ h
  · exact h

theorem feed_gsa_mono (env : Env) (bytes : List Nat) :
    ∀ s : State, s.r.gsa = true → (feed env s bytes).r.gsa = true := by
  induction bytes with
  | nil => intro s h; exact h
  | cons c cs ih =>
    intro s h
    exact ih _ (addc_gsa_mono env s c h)

/-! ## Claims about the fix aggregator -/

/-- C5: with a location sink attached, nmea_reader_parse pushes the fix record
exactly when the sentence is a GGA decoded with the GSA-seen flag false or a GSA
decoded with the flag true; the pushed record is the one the dispatch left and
after the push fix.flags is 0; with no sink attached nothing is pushed and the
emission step returns the state unchanged. -/
theorem C5_emission (env : Env) (s : State) :
    (env.location_cb = true →
      (pushed_fixes env s ≠ [] ↔
        (sentence_is env s 71 71 65 = true ∧ s.r.gsa = false) ∨
        (sentence_is env s 71 83 65 = true ∧ s.r.gsa = true)) ∧
      (pushed_fixes env s ≠ [] →
        pushed_fixes env s = [(nmea_decode env s).1.r.fix] ∧
        (nmea_reader_parse env s).r.fix.flags = 0)) ∧
    (env.location_cb = false →
      pushed_fixes env s = [] ∧
      nmea_reader_parse env s = (nmea_decode env s).1 ∧
      ∀ (s1 : State) (send_msg : Bool), nmea_emit env s1 send_msg = s1) := by
  refine ⟨fun hcb => ⟨?_, ?_⟩, fun hcb => ⟨?_, ?_, ?_⟩⟩
  · rw [← decode_send, pushed_fixes_eq]
    by_cases hd : (nmea_decode env s).2 = true
    · simp [hd, hcb]
    · simp [hd]
  · intro hne
    rw [pushed_fixes_eq] at hne ⊢
    by_cases hd : (nmea_decode env s).2 = true
    · refine ⟨by simp [hd, hcb], ?_⟩
      rw [parse_reader, if_pos ⟨hd, hcb⟩]
    · simp [hd] at hne
  · rw [pushed_fixes_eq]
    simp [hcb]
  · unfold nmea_reader_parse
    exact emit_no_sink env hcb _ _
  · exact fun s1 send_msg => emit_no_sink env hcb s1 send_msg

/-- C7: for a GGA sentence whose fix-quality field (field 6) does not decode
to a positive integer, nmea_reader_parse leaves fix.latitude, fix.longitude,
fix.altitude, fix.timestamp and utc_year/mon/day unchanged, and the bits
HAS_LAT_LONG and HAS_ALTITUDE are as they were in the record the dispatch
leaves (the one pushed, if any) and are not set in the final record unless
they were set before. -/
theorem C7_gga_without_fix (env : Env) (s : State)
    (hgga : sentence_is env s 71 71 65 = true) (hfix : ¬ 0 < field_int env s 6) :
    (nmea_reader_parse env s).r.fix.latitude = s.r.fix.latitude ∧
    (nmea_reader_parse env s).r.fix.longitude = s.r.fix.longitude ∧
    (nmea_reader_parse env s).r.fix.altitude = s.r.fix.altitude ∧
    (nmea_reader_parse env s).r.fix.timestamp = s.r.fix.timestamp ∧
    (nmea_reader_parse env s).r.utc_year = s.r.utc_year ∧
    (nmea_reader_parse env s).r.utc_mon = s.r.utc_mon ∧
    (nmea_reader_parse env s).r.utc_day = s.r.utc_day ∧
    (has_flag (nmea_reader_parse env s).r.fix.flags GPS_LOCATION_HAS_LAT_LONG = true →
      has_flag s.r.fix.flags GPS_LOCATION_HAS_LAT_LONG = true) ∧
    (has_flag (nmea_reader_parse env s).r.fix.flags GPS_LOCATION_HAS_ALTITUDE = true →
      has_flag s.r.fix.flags GPS_LOCATION_HAS_ALTITUDE = true) ∧
    (∀ fix ∈ pushed_fixes env s,
      fix.latitude = s.r.fix.latitude ∧ fix.longitude = s.r.fix.longitude ∧
      fix.altitude = s.r.fix.altitude ∧ fix.timestamp = s.r.fix.timestamp ∧
      has_flag fix.flags GPS_LOCATION_HAS_LAT_LONG = has_flag s.r.fix.flags GPS_LOCATION_HAS_LAT_LONG ∧
      has_flag fix.flags GPS_LOCATION_HAS_ALTITUDE = has_flag s.r.fix.flags GPS_LOCATION_HAS_ALTITUDE) := by
  have hd := decode_of_gga env s hgga
  obtain ⟨_, pf, py, pm, pd, _, _, _⟩ := prepare_frame env s
  obtain ⟨g1, g2, g3, g4, g5, g6, g7, g8⟩ :=
    parse_gga_no_fix env (parse_mem env s) (parse_tzer env s) (nmea_prepare env s).1 hfix
  rw [← hd] at g1 g2 g3 g4 g5 g6 g7 g8
  rw [pf] at g1 g2 g3 g4 g8
  rw [py] at g5
  rw [pm] at g6
  rw [pd] at g7
  have hlat : has_flag (nmea_decode env s).1.r.fix.flags GPS_LOCATION_HAS_LAT_LONG =
      has_flag s.r.fix.flags GPS_LOCATION_HAS_LAT_LONG := by
    rcases g8 with h | h
    · rw [h]
    · rw [h, has_flag_or _ _ _ (by decide)]
  have halt : has_flag (nmea_decode env s).1.r.fix.flags GPS_LOCATION_HAS_ALTITUDE =
      has_flag s.r.fix.flags GPS_LOCATION_HAS_ALTITUDE := by
    rcases g8 with h | h
    · rw [h]
    · rw [h, has_flag_or _ _ _ (by decide)]
  rw [parse_reader, pushed_fixes_eq]
  split_ifs
  · refine ⟨g1, g2, g3, g4, g5, g6, g7, ?_, ?_, ?_⟩
    · intro h; rw [has_flag_zero] at h; cases h
    · intro h; rw [has_flag_zero] at h; cases h
    · intro fix hmem
      rw [List.mem_singleton] at hmem
      subst hmem
      exact ⟨g1, g2, g3, g4, hlat, halt⟩
  · refine ⟨g1, g2, g3, g4, g5, g6, g7, ?_, ?_, ?_⟩
    · intro h; rw [← hlat]; exact h
    · intro h; rw [← halt]; exact h
    · intro fix hmem; cases hmem

/-- C8: for a GGA sentence, if the GSA-seen flag is true before the decode then
fix.accuracy and the HAS_ACCURACY bit are unchanged and no fix is pushed; if
the flag is false then fix.accuracy is taken from field 8 when that field is
non-empty, the HAS_ACCURACY bit is set by the decode only when fix-quality
(field 6) is > 0, and the record is marked ready to emit (send_msg is set, so
it is pushed when a sink is attached). -/
theorem C8_gga_accuracy (env : Env) (s : State) (hgga : sentence_is env s 71 71 65 = true) :
    (s.r.gsa = true →
      (nmea_reader_parse env s).r.fix.accuracy = s.r.fix.accuracy ∧
      has_flag (nmea_reader_parse env s).r.fix.flags GPS_LOCATION_HAS_ACCURACY =
        has_flag s.r.fix.flags GPS_LOCATION_HAS_ACCURACY ∧
      pushed_fixes env s = []) ∧
    (s.r.gsa = false →
      ((field env s 8).p < (field env s 8).end_ →
        (nmea_decode env s).1.r.fix.accuracy = env.to_float (field_float env s 8) ∧
        (nmea_reader_parse env s).r.fix.accuracy = env.to_float (field_float env s 8)) ∧
      (has_flag (nmea_decode env s).1.r.fix.flags GPS_LOCATION_HAS_ACCURACY = true →
        has_flag s.r.fix.flags GPS_LOCATION_HAS_ACCURACY = true ∨ 0 < field_int env s 6) ∧
      (nmea_decode env s).2 = true ∧
      (env.location_cb = true → pushed_fixes env s = [(nmea_decode env s).1.r.fix])) := by
  have hd := decode_of_gga env s hgga
  obtain ⟨pg, pf, _⟩ := prepare_frame env s
  obtain ⟨_, _, _, g4, g5, g6⟩ :=
    parse_gga_spec env (parse_mem env s) (parse_tzer env s) (nmea_prepare env s).1
  rw [← hd] at g4 g5 g6
  rw [pg] at g4 g5 g6
  rw [pf] at g5 g6
  refine ⟨fun hg => ?_, fun hg => ?_⟩
  · have hsend : ¬ ((nmea_decode env s).2 = true ∧ env.location_cb = true) := by
      rw [g4, hg]; simp
    rw [parse_reader, pushed_fixes_eq, if_neg hsend, if_neg hsend]
    exact ⟨(g5 hg).1, (g5 hg).2, rfl⟩
  · have hsend : (nmea_decode env s).2 = true := by rw [g4, hg]; rfl
    refine ⟨fun hne => ?_, (g6 hg).2, hsend, fun hcb => ?_⟩
    · have hacc := (g6 hg).1 hne
      refine ⟨hacc, ?_⟩
      rw [parse_reader]
      split_ifs
      · exact hacc
      · exact hacc
    · rw [pushed_fixes_eq, if_pos ⟨hsend, hcb⟩]

/-- C10: for a GSA sentence decoded while the GSA-seen flag is already true:
when the fix-type (field 2) decodes to 2, the record the dispatch leaves (the
one pushed to the sink, and the one held when no sink is attached) has the
HAS_ALTITUDE bit clear, as has the final record; for any other fix-type, 3 in
particular, the HAS_ALTITUDE bit of that record is as it was; the decode sets
HAS_ACCURACY only when fix-type > 1, and fix.accuracy is taken from field 16
when that field is non-empty. -/
theorem C10_later_gsa (env : Env) (s : State)
    (hgsa : sentence_is env s 71 83 65 = true) (hflag : s.r.gsa = true) :
    (nmea_decode env s).2 = true ∧
    (env.location_cb = true → pushed_fixes env s = [(nmea_decode env s).1.r.fix]) ∧
    (env.location_cb = false → (nmea_reader_parse env s).r.fix = (nmea_decode env s).1.r.fix) ∧
    (field_int env s 2 = 2 →
      has_flag (nmea_decode env s).1.r.fix.flags GPS_LOCATION_HAS_ALTITUDE = false ∧
      has_flag (nmea_reader_parse env s).r.fix.flags GPS_LOCATION_HAS_ALTITUDE = false) ∧
    (field_int env s 2 ≠ 2 →
      has_flag (nmea_decode env s).1.r.fix.flags GPS_LOCATION_HAS_ALTITUDE =
        has_flag s.r.fix.flags GPS_LOCATION_HAS_ALTITUDE) ∧
    (has_flag (nmea_decode env s).1.r.fix.flags GPS_LOCATION_HAS_ACCURACY = true →
      has_flag s.r.fix.flags GPS_LOCATION_HAS_ACCURACY = true ∨ 1 < field_int env s 2) ∧
    ((field env s 16).p < (field env s 16).end_ →
      (nmea_decode env s).1.r.fix.accuracy = env.to_float (field_float env s 16)) := by
  have hd := decode_of_gsa env s hgsa
  obtain ⟨pg, pf, _⟩ := prepare_frame env s
  obtain ⟨g1, _, _, g4, g5, g6, g7, _⟩ :=
    parse_gsa_later env (parse_mem env s) (parse_tzer env s) (nmea_prepare env s).1
      (by rw [pg, hflag])
  rw [← hd] at g1 g4 g5 g6 g7
  rw [pf] at g5 g6
  refine ⟨g1, fun hcb => ?_, fun hcb => ?_, fun h2 => ⟨g4 h2, ?_⟩, g5, g6, g7⟩
  · rw [pushed_fixes_eq, if_pos ⟨g1, hcb⟩]
  · rw [parse_reader, if_neg (by simp [hcb])]
  · rw [parse_reader]
    split_ifs
    · exact has_flag_zero _
    · exact g4 h2

/-! ## Coordinates -/

theorem floor_floor_div_100 (v : ℚ) :
    Int.floor (((Int.floor v : Int) : ℚ) / 100) = Int.floor (v / 100) := by
  symm
  rw [Int.floor_eq_iff]
  have h1 : ((Int.floor (((Int.floor v : Int) : ℚ) / 100) : Int) : ℚ) ≤ ((Int.floor v : Int) : ℚ) / 100 :=
    Int.floor_le _
  have h2 : ((Int.floor v : Int) : ℚ) / 100 < (Int.floor (((Int.floor v : Int) : ℚ) / 100) : Int) + 1 :=
    Int.lt_floor_add_one _
  have h3 : ((Int.floor v : Int) : ℚ) ≤ v := Int.floor_le v
  constructor
  · linarith
  · -- v < 100 * (k + 1) because floor v < 100 * (k + 1) as integers
    have h4 : ((Int.floor v : Int) : ℚ) < 100 * ((Int.floor (((Int.floor v : Int) : ℚ) / 100) : Int) + 1) := by
      linarith
    have h5 : Int.floor v < 100 * (Int.floor (((Int.floor v : Int) : ℚ) / 100) + 1) := by
      exact_mod_cast h4
    have h6 : Int.floor v + 1 ≤ 100 * (Int.floor (((Int.floor v : Int) : ℚ) / 100) + 1) := by omega
    have h7 : v < (Int.floor v : ℚ) + 1 := Int.lt_floor_add_one v
    have h8 : ((Int.floor v : Int) : ℚ) + 1 ≤ 100 * ((Int.floor (((Int.floor v : Int) : ℚ) / 100) : Int) + 1) := by
      exact_mod_cast h6
    linarith

theorem c_int_degrees (v : ℚ) (h0 : 0 ≤ v) (h1 : v < 214748364800) :
    c_int (((Int.floor v : Int) : ℚ) / 100) = Int.floor (v / 100) := by
  unfold c_int
  have hf : (0 : ℚ) ≤ ((Int.floor v : Int) : ℚ) / 100 := by
    have : (0 : Int) ≤ Int.floor v := Int.floor_nonneg.mpr h0
    have : (0 : ℚ) ≤ ((Int.floor v : Int) : ℚ) := by exact_mod_cast this
    positivity
  rw [if_pos hf, floor_floor_div_100]
  apply wrap32_id
  · have : (0 : Int) ≤ Int.floor (v / 100) := Int.floor_nonneg.mpr (by positivity)
    omega
  · have : Int.floor (v / 100) < 2147483648 := by
      rw [Int.floor_lt]
      push_cast
      linarith
    exact this

theorem str2float_4807_038 :
    str2float (env_ex true) (list_mem [52, 56, 48, 55, 46, 48, 51, 56]) 0 8 = 4807038 / 1000 := by
  have h : slice (list_mem [52, 56, 48, 55, 46, 48, 51, 56]) 0 8 = [52, 56, 48, 55, 46, 48, 51, 56] := by
    decide
  unfold str2float
  rw [if_neg (by decide), h]
  show strtod_decimal [52, 56, 48, 55, 46, 48, 51, 56] = _
  unfold strtod_decimal
  have h1 : List.takeWhile (fun b => decide (48 ≤ b ∧ b ≤ 57)) [52, 56, 48, 55, 46, 48, 51, 56] =
      [52, 56, 48, 55] := by decide
  have h2 : List.dropWhile (fun b => decide (48 ≤ b ∧ b ≤ 57)) [52, 56, 48, 55, 46, 48, 51, 56] =
      [46, 48, 51, 56] := by decide
  rw [h2]
  simp only [h1]
  have h3 : List.takeWhile (fun b => decide (48 ≤ b ∧ b ≤ 57)) [48, 51, 56] = [48, 51, 56] := by
    decide
  rw [h3]
  have h4 : digits_value [52, 56, 48, 55] = 4807 := by decide
  have h5 : digits_value [48, 51, 56] = 38 := by decide
  rw [h4, h5]
  norm_num

theorem convert_from_hhmm_formula (env : Env) (mem : Nat → Nat) (tok : Token)
    (h0 : 0 ≤ str2float env mem tok.p tok.end_)
    (h1 : str2float env mem tok.p tok.end_ < 214748364800) :
    convert_from_hhmm env mem tok =
      (Int.floor (str2float env mem tok.p tok.end_ / 100) : ℚ) +
        (str2float env mem tok.p tok.end_ -
          100 * (Int.floor (str2float env mem tok.p tok.end_ / 100) : ℚ)) / 60 := by
  unfold convert_from_hhmm
  dsimp only
  rw [c_int_degrees _ h0 h1]
  ring

/-- C6: for every coordinate field whose value v is non-negative (and below
100 * 2^31, which every DDDMM.MMMM value is), convert_from_hhmm returns
floor(v/100) + (v - 100*floor(v/100))/60 in exact arithmetic; when both
coordinate fields have the six leading characters the update requires,
nmea_reader_update_latlong stores the negated latitude for hemisphere S, the
negated longitude for hemisphere W and the value itself for any other
hemisphere byte, and sets HAS_LAT_LONG; the field 4807.038 gives 48 + 7.038/60
with N and the negation of that with S. -/
theorem C6_coordinates (env : Env) (mem : Nat → Nat) :
    (∀ tok : Token, 0 ≤ str2float env mem tok.p tok.end_ →
      str2float env mem tok.p tok.end_ < 214748364800 →
      convert_from_hhmm env mem tok =
        (Int.floor (str2float env mem tok.p tok.end_ / 100) : ℚ) +
          (str2float env mem tok.p tok.end_ -
            100 * (Int.floor (str2float env mem tok.p tok.end_ / 100) : ℚ)) / 60) ∧
    (∀ (r : NmeaReader) (lat lon : Token) (lath lonh : Nat),
      lat.p + 6 ≤ lat.end_ → lon.p + 6 ≤ lon.end_ →
      (nmea_reader_update_latlong env mem r lat lath lon lonh).1 = 0 ∧
      (nmea_reader_update_latlong env mem r lat lath lon lonh).2.fix.latitude =
        (if lath = 83 then -convert_from_hhmm env mem lat else convert_from_hhmm env mem lat) ∧
      (nmea_reader_update_latlong env mem r lat lath lon lonh).2.fix.longitude =
        (if lonh = 87 then -convert_from_hhmm env mem lon else convert_from_hhmm env mem lon) ∧
      has_flag (nmea_reader_update_latlong env mem r lat lath lon lonh).2.fix.flags
        GPS_LOCATION_HAS_LAT_LONG = true) ∧
    convert_from_hhmm (env_ex true) (list_mem [52, 56, 48, 55, 46, 48, 51, 56]) { p := 0, end_ := 8 } =
      48 + (7038 / 1000) / 60 ∧
    (nmea_reader_update_latlong (env_ex true) (list_mem [52, 56, 48, 55, 46, 48, 51, 56])
      (nmea_reader_init 32) { p := 0, end_ := 8 } 78 { p := 0, end_ := 8 } 69).2.fix.latitude =
      48 + (7038 / 1000) / 60 ∧
    (nmea_reader_update_latlong (env_ex true) (list_mem [52, 56, 48, 55, 46, 48, 51, 56])
      (nmea_reader_init 32) { p := 0, end_ := 8 } 83 { p := 0, end_ := 8 } 69).2.fix.latitude =
      -(48 + (7038 / 1000) / 60) := by
  have hupd : ∀ (r : NmeaReader) (lat lon : Token) (lath lonh : Nat),
      lat.p + 6 ≤ lat.end_ → lon.p + 6 ≤ lon.end_ →
      (nmea_reader_update_latlong env mem r lat lath lon lonh).1 = 0 ∧
      (nmea_reader_update_latlong env mem r lat lath lon lonh).2.fix.latitude =
        (if lath = 83 then -convert_from_hhmm env mem lat else convert_from_hhmm env mem lat) ∧
      (nmea_reader_update_latlong env mem r lat lath lon lonh).2.fix.longitude =
        (if lonh = 87 then -convert_from_hhmm env mem lon else convert_from_hhmm env mem lon) ∧
      has_flag (nmea_reader_update_latlong env mem r lat lath lon lonh).2.fix.flags
        GPS_LOCATION_HAS_LAT_LONG = true := by
    intro r lat lon lath lonh hlat hlon
    unfold nmea_reader_update_latlong
    rw [if_neg (by omega)]
    dsimp only
    rw [if_neg (by omega)]
    exact ⟨rfl, rfl, rfl, has_flag_or_self _ _ (by decide)⟩
  have hex : convert_from_hhmm (env_ex true) (list_mem [52, 56, 48, 55, 46, 48, 51, 56])
      { p := 0, end_ := 8 } = 48 + (7038 / 1000) / 60 := by
    rw [convert_from_hhmm_formula _ _ _ (by rw [str2float_4807_038]; norm_num)
      (by rw [str2float_4807_038]; norm_num)]
    show (Int.floor (str2float _ _ 0 8 / 100) : ℚ) + (str2float _ _ 0 8 - 100 * _) / 60 = _
    rw [str2float_4807_038]
    have hfl : Int.floor ((4807038 / 1000 : ℚ) / 100) = 48 := by
      rw [Int.floor_eq_iff]
      constructor <;> norm_num
    rw [hfl]
    norm_num
  refine ⟨fun tok h0 h1 => convert_from_hhmm_formula env mem tok h0 h1, hupd, hex, ?_, ?_⟩
  · unfold nmea_reader_update_latlong
    rw [if_neg (by decide)]
    dsimp only
    rw [if_neg (by decide), if_neg (by decide)]
    exact hex
  · unfold nmea_reader_update_latlong
    rw [if_neg (by decide)]
    dsimp only
    rw [if_neg (by decide), if_pos rfl]
    show -convert_from_hhmm _ _ _ = _
    rw [hex]

/-! ## The claims at concrete sentences -/

/-- C5 at a GGA sentence decoded with the GSA-seen flag false and a sink
attached: a fix is pushed and the bitmask is 0 afterwards. -/
theorem C5_emission_witness :
    pushed_fixes (env_ex true) (state_with line_gga_q0 false 3) ≠ [] ∧
    (nmea_reader_parse (env_ex true) (state_with line_gga_q0 false 3)).r.fix.flags = 0 :=
  have h : pushed_fixes (env_ex true) (state_with line_gga_q0 false 3) ≠ [] :=
    ((C5_emission (env_ex true) (state_with line_gga_q0 false 3)).1 rfl).1.mpr
      (Or.inl ⟨by decide, rfl⟩)
  ⟨h, (((C5_emission (env_ex true) (state_with line_gga_q0 false 3)).1 rfl).2 h).2⟩

/-- C7 at a GGA sentence with fix-quality 0 and HAS_LAT_LONG, HAS_ALTITUDE set
beforehand. -/
theorem C7_gga_without_fix_witness :
    sentence_is (env_ex false) (state_with line_gga_q0 true 3) 71 71 65 = true ∧
    ¬ 0 < field_int (env_ex false) (state_with line_gga_q0 true 3) 6 ∧
    (nmea_reader_parse (env_ex false) (state_with line_gga_q0 true 3)).r.fix.latitude =
      (state_with line_gga_q0 true 3).r.fix.latitude :=
  ⟨by decide, by decide,
    (C7_gga_without_fix (env_ex false) (state_with line_gga_q0 true 3) (by decide) (by decide)).1⟩

/-- C8 at a GGA sentence decoded with the GSA-seen flag false: the record is
marked ready to emit. -/
theorem C8_gga_accuracy_witness :
    sentence_is (env_ex true) (state_with line_gga_q0 false 0) 71 71 65 = true ∧
    (nmea_decode (env_ex true) (state_with line_gga_q0 false 0)).2 = true :=
  ⟨by decide,
    ((C8_gga_accuracy (env_ex true) (state_with line_gga_q0 false 0) (by decide)).2 rfl).2.2.1⟩

/-- C10 at a GSA sentence with fix-type 2, decoded with the GSA-seen flag true
and HAS_ALTITUDE set beforehand. -/
theorem C10_later_gsa_witness :
    sentence_is (env_ex false) (state_with line_gsa_2d true 3) 71 83 65 = true ∧
    (state_with line_gsa_2d true 3).r.gsa = true ∧
    has_flag (state_with line_gsa_2d true 3).r.fix.flags GPS_LOCATION_HAS_ALTITUDE = true ∧
    field_int (env_ex false) (state_with line_gsa_2d true 3) 2 = 2 ∧
    has_flag (nmea_reader_parse (env_ex false) (state_with line_gsa_2d true 3)).r.fix.flags
      GPS_LOCATION_HAS_ALTITUDE = false :=
  ⟨by decide, rfl, by decide, by decide,
    ((C10_later_gsa (env_ex false) (state_with line_gsa_2d true 3) (by decide) rfl).2.2.2.1
      (by decide)).2⟩

/-! ## Rate-command encoder -/

/-- C18: for every period p in 0..65535 (little-endian host)
gps_dev_set_meas_rate builds exactly the 14 bytes B5 62 06 08 06 00 (p mod 256)
(p div 256) 01 00 01 00 ckA ckB, where (ckA, ckB) is gps_dev_calc_ubx_csum over
bytes 2..11; for p = 1000 the message ends E8 03 01 00 01 00 01 39 and for
p = 500 it ends F4 01 01 00 01 00 0B 77. -/
theorem C18_meas_rate_message (p : Nat) (hp : p < 65536) :
    gps_dev_set_meas_rate p =
      [181, 98, 6, 8, 6, 0, p % 256, p / 256, 1, 0, 1, 0,
        (gps_dev_calc_ubx_csum [6, 8, 6, 0, p % 256, p / 256, 1, 0, 1, 0] 10).1,
        (gps_dev_calc_ubx_csum [6, 8, 6, 0, p % 256, p / 256, 1, 0, 1, 0] 10).2] ∧
    (gps_dev_set_meas_rate p).length = 14 ∧
    gps_dev_set_meas_rate 1000 = [181, 98, 6, 8, 6, 0, 232, 3, 1, 0, 1, 0, 1, 57] ∧
    gps_dev_set_meas_rate 500 = [181, 98, 6, 8, 6, 0, 244, 1, 1, 0, 1, 0, 11, 119] := by
  have hdiv : p / 256 % 256 = p / 256 := by omega
  have h : gps_dev_set_meas_rate p =
      [181, 98, 6, 8, 6, 0, p % 256, p / 256, 1, 0, 1, 0,
        (gps_dev_calc_ubx_csum [6, 8, 6, 0, p % 256, p / 256, 1, 0, 1, 0] 10).1,
        (gps_dev_calc_ubx_csum [6, 8, 6, 0, p % 256, p / 256, 1, 0, 1, 0] 10).2] := by
    simp only [gps_dev_set_meas_rate, store16, List.replicate, List.set, List.cons_append,
      List.nil_append, List.drop, hdiv]
    rfl
  refine ⟨h, ?_, by decide, by decide⟩
  rw [h]
  rfl

/-- C18 at the period 1000 ms. -/
theorem C18_meas_rate_message_witness :
    gps_dev_set_meas_rate 1000 =
      [181, 98, 6, 8, 6, 0, 1000 % 256, 1000 / 256, 1, 0, 1, 0,
        (gps_dev_calc_ubx_csum [6, 8, 6, 0, 1000 % 256, 1000 / 256, 1, 0, 1, 0] 10).1,
        (gps_dev_calc_ubx_csum [6, 8, 6, 0, 1000 % 256, 1000 / 256, 1, 0, 1, 0] 10).2] :=
  (C18_meas_rate_message 1000 (by decide)).1

/-! ## Line accumulator -/

theorem addc_eq_with (env : Env) (s : State) (c : Nat) :
    nmea_reader_addc env s c = addc_with (nmea_reader_parse env) s c := rfl

/-- When `addc_parse_input` is `none` the decoder plays no part in the step. -/
theorem addc_with_input_none (s : State) (c : Nat) (h : addc_parse_input s c = none)
    (d1 d2 : State → State) : addc_with d1 s c = addc_with d2 s c := by
  unfold addc_parse_input at h
  unfold addc_with
  split_ifs at h ⊢ <;> first | rfl | cases h

/-- When `addc_parse_input` is `some s1` the step is the decoder applied to
`s1`, followed by `r->pos = 0`. -/
theorem addc_with_input_some (s s1 : State) (c : Nat) (h : addc_parse_input s c = some s1)
    (d : State → State) :
    addc_with d s c = { d s1 with r := { (d s1).r with pos := 0 } } := by
  unfold addc_parse_input at h
  unfold addc_with
  split_ifs at h ⊢
  simp only [Option.some.injEq] at h
  subst h
  rfl

theorem parse_inputs_append (env : Env) (a b : List Nat) :
    ∀ s : State, parse_inputs env s (a ++ b) =
      parse_inputs env s a ++ parse_inputs env (feed env s a) b := by
  induction a with
  | nil => intro s; rfl
  | cons c cs ih =>
    intro s
    show (addc_parse_input s c).toList ++ parse_inputs env (nmea_reader_addc env s c) (cs ++ b) =
      ((addc_parse_input s c).toList ++ parse_inputs env (nmea_reader_addc env s c) cs) ++
        parse_inputs env (feed env (nmea_reader_addc env s c) cs) b
    rw [ih, List.append_assoc]

theorem feed_append (env : Env) (s : State) (a b : List Nat) :
    feed env s (a ++ b) = feed env (feed env s a) b := by
  simp [feed, List.foldl_append]

theorem store_bytes_length (bytes : List Nat) :
    ∀ (buf : List Nat) (pos : Nat), (store_bytes buf pos bytes).length = buf.length := by
  induction bytes with
  | nil => intro buf pos; rfl
  | cons c cs ih => intro buf pos; rw [store_bytes, ih, List.length_set]

theorem store_bytes_getElem (bytes : List Nat) :
    ∀ (buf : List Nat) (pos i : Nat), pos + bytes.length ≤ buf.length →
      (store_bytes buf pos bytes)[i]? =
        if pos ≤ i ∧ i < pos + bytes.length then bytes[i - pos]? else buf[i]? := by
  induction bytes with
  | nil =>
    intro buf pos i _
    simp only [store_bytes, List.length_nil, Nat.add_zero]
    rw [if_neg (by omega)]
  | cons c cs ih =>
    intro buf pos i h
    simp only [List.length_cons] at h
    rw [store_bytes, ih _ _ _ (by rw [List.length_set]; omega)]
    simp only [List.length_cons]
    by_cases h1 : pos + 1 ≤ i ∧ i < pos + 1 + cs.length
    · rw [if_pos h1, if_pos (by omega)]
      have : i - pos = (i - (pos + 1)) + 1 := by omega
      rw [this, List.getElem?_cons_succ]
    · rw [if_neg h1]
      by_cases h2 : i = pos
      · subst h2
        rw [if_pos (by omega), Nat.sub_self, List.getElem?_cons_zero]
        rw [List.getElem?_set_self (by omega)]
      · rw [if_neg (by omega), List.getElem?_set_ne (by omega)]

theorem store_bytes_take (bytes buf : List Nat) (h : bytes.length ≤ buf.length) :
    (store_bytes buf 0 bytes).take bytes.length = bytes := by
  apply List.ext_getElem?
  intro i
  rw [List.getElem?_take]
  by_cases hi : i < bytes.length
  · rw [if_pos hi, store_bytes_getElem bytes buf 0 i (by omega), if_pos (by omega)]
    rfl
  · rw [if_neg hi]
    exact (List.getElem?_eq_none (by omega)).symm

/-- Bytes other than line-feeds: the decoder is never called; an overflowing
reader stays as it is; otherwise the bytes are stored while the cursor is below
255, and one byte beyond that sets the overflow flag with the cursor at 0. -/
theorem feed_no_lf (env : Env) (bytes : List Nat) :
    ∀ s : State, (∀ c ∈ bytes, c ≠ 10) →
      parse_inputs env s bytes = [] ∧
      (s.r.overflow = true → feed env s bytes = s) ∧
      (s.r.overflow = false → s.r.pos + bytes.length ≤ 255 →
        feed env s bytes =
          { s with r := { s.r with in_ := store_bytes s.r.in_ s.r.pos bytes,
                                   pos := s.r.pos + bytes.length } }) ∧
      (s.r.overflow = false → s.r.pos ≤ 255 → 256 ≤ s.r.pos + bytes.length →
        (feed env s bytes).r.overflow = true ∧ (feed env s bytes).r.pos = 0) ∧
      (feed env s bytes).r.in_.length = s.r.in_.length ∧
      (feed env s bytes).out = s.out ∧
      (feed env s bytes).id_in_fixed = s.id_in_fixed ∧
      (feed env s bytes).r.fix = s.r.fix ∧
      (feed env s bytes).r.gsa = s.r.gsa ∧
      (feed env s bytes).r.sv_status = s.r.sv_status := by
  induction bytes with
  | nil =>
    intro s _
    refine ⟨rfl, fun _ => rfl, fun _ _ => rfl, fun _ h1 h => ?_, rfl, rfl, rfl, rfl, rfl, rfl⟩
    simp only [List.length_nil] at h
    omega
  | cons c cs ih =>
    intro s hnl
    have hc : c ≠ 10 := hnl c (by simp)
    have hcs : ∀ x ∈ cs, x ≠ 10 := fun x hx => hnl x (by simp [hx])
    have hfeed : feed env s (c :: cs) = feed env (nmea_reader_addc env s c) cs := rfl
    have hin : addc_parse_input s c = none := by
      unfold addc_parse_input
      split_ifs <;> rfl
    rw [hfeed]
    simp only [parse_inputs, hin, Option.toList, List.nil_append, List.length_cons]
    obtain ⟨i1, i2, i3, i4, i5, i6, i7, i8, i9, i10⟩ := ih (nmea_reader_addc env s c) hcs
    by_cases hov : s.r.overflow = true
    · have hstep : nmea_reader_addc env s c = s := by
        unfold nmea_reader_addc
        rw [if_pos hov]
        have : decide (c ≠ 10) = true := by simp [hc]
        rw [this]
        cases s with
        | mk r ids out =>
          cases r
          simp only at hov
          subst hov
          rfl
      rw [hstep] at i1 i2 i3 i4 i5 i6 i7 i8 i9 i10 ⊢
      refine ⟨i1, i2, fun h => ?_, fun h => ?_, i5, i6, i7, i8, i9, i10⟩
      · rw [h] at hov; cases hov
      · rw [h] at hov; cases hov
    · have hov' : s.r.overflow = false := by simpa using hov
      by_cases hfull : s.r.pos ≥ NMEA_MAX_SIZE + 1 - 1
      · have hstep : nmea_reader_addc env s c =
            { s with r := { s.r with overflow := true, pos := 0 } } := by
          unfold nmea_reader_addc
          rw [if_neg hov, if_pos hfull]
        rw [hstep] at i1 i2 i3 i4 i5 i6 i7 i8 i9 i10 ⊢
        have hfix := i2 rfl
        refine ⟨i1, fun h => ?_, fun _ h => ?_, fun _ _ _ => ?_, ?_, ?_, ?_, ?_, ?_, ?_⟩
        · rw [h] at hov; exact absurd rfl hov
        · simp only [NMEA_MAX_SIZE] at hfull; omega
        · rw [hfix]; exact ⟨rfl, rfl⟩
        · rw [hfix]
        · rw [hfix]
        · rw [hfix]
        · rw [hfix]
        · rw [hfix]
        · rw [hfix]
      · have hstep : nmea_reader_addc env s c =
            { s with r := { s.r with in_ := s.r.in_.set s.r.pos c, pos := s.r.pos + 1 } } := by
          unfold nmea_reader_addc
          rw [if_neg hov, if_neg hfull]
          simp only [hc, if_false]
        rw [hstep] at i1 i2 i3 i4 i5 i6 i7 i8 i9 i10 ⊢
        simp only at i3 i4 i5 i6 i7 i8 i9 i10
        have hnf : s.r.pos < 255 := by simp only [NMEA_MAX_SIZE] at hfull; omega
        refine ⟨i1, fun h => ?_, fun _ h => ?_, fun _ _ h => ?_, ?_, i6, i7, i8, i9, i10⟩
        · rw [h] at hov; exact absurd rfl hov
        · rw [i3 hov' (by omega)]
          simp only [store_bytes]
          have : s.r.pos + 1 + cs.length = s.r.pos + (cs.length + 1) := by omega
          rw [this]
        · exact i4 hov' (by omega) (by omega)
        · rw [i5, List.length_set]

theorem store_bytes_append (a b : List Nat) :
    ∀ (buf : List Nat) (pos : Nat),
      store_bytes buf pos (a ++ b) = store_bytes (store_bytes buf pos a) (pos + a.length) b := by
  induction a with
  | nil => intro buf pos; rfl
  | cons c cs ih =>
    intro buf pos
    show store_bytes (buf.set pos c) (pos + 1) (cs ++ b) =
      store_bytes (store_bytes (buf.set pos c) (pos + 1) cs) (pos + (cs.length + 1)) b
    rw [ih]
    have : pos + 1 + cs.length = pos + (cs.length + 1) := by omega
    rw [this]

/-- A complete line of at most 254 bytes followed by its line-feed, fed to a
reader with cursor 0 and no overflow: the decoder is called once, on the reader
that holds the line and the line-feed with the cursor after the line-feed. -/
theorem feed_line (env : Env) (t : State) (line : List Nat)
    (hpos : t.r.pos = 0) (hov : t.r.overflow = false) (hlen : line.length ≤ 254)
    (hnl : ∀ c ∈ line, c ≠ 10) :
    parse_inputs env t (line ++ [10]) = [with_line t line] ∧
    feed env t (line ++ [10]) =
      { nmea_reader_parse env (with_line t line) with
        r := { (nmea_reader_parse env (with_line t line)).r with pos := 0 } } := by
  obtain ⟨f1, _, f3, _⟩ := feed_no_lf env line t hnl
  have hfeed := f3 hov (by omega)
  rw [hpos] at hfeed
  simp only [Nat.zero_add] at hfeed
  have hin : addc_parse_input (feed env t line) 10 = some (with_line t line) := by
    rw [hfeed]
    unfold addc_parse_input with_line
    have h1 : ¬ (line.length ≥ 255 + 1 - 1) := by omega
    simp [hov, NMEA_MAX_SIZE, h1, store_bytes_append, store_bytes]
  refine ⟨?_, ?_⟩
  · rw [parse_inputs_append, f1]
    simp only [parse_inputs, hin, Option.toList, List.nil_append, List.append_nil]
  · rw [feed_append]
    show nmea_reader_addc env (feed env t line) 10 = _
    rw [addc_eq_with, addc_with_input_some _ _ _ hin]

theorem decode_out_from_prepare (env : Env) (s : State) :
    NoFixPushed (nmea_prepare env s).1 (nmea_decode env s).1 := by
  unfold nmea_decode
  cases hq : (nmea_prepare env s).2 with
  | none => exact NoFixPushed.refl _
  | some tp =>
    simp only
    unfold nmea_dispatch
    split_ifs
    · exact NoFixPushed.of_out_eq (parse_gga_spec _ _ _ _).1
    · by_cases hg : (nmea_prepare env s).1.r.gsa = true
      · exact NoFixPushed.of_out_eq (parse_gsa_later _ _ _ _ hg).2.1
      · rw [parse_gsa_first _ _ _ _ (by simpa using hg)]
        exact NoFixPushed.of_out_eq rfl
    · exact (parse_gsv_out _ _ _ _).1
    · exact (parse_rmc_out _ _ _ _).1
    · exact NoFixPushed.of_out_eq (parse_vtg_out _ _ _ _).1
    · exact NoFixPushed.refl _

theorem parse_out_from_prepare (env : Env) (s : State) :
    ∃ rest, (nmea_reader_parse env s).out = (nmea_prepare env s).1.out ++ rest := by
  obtain ⟨l, hl, _⟩ := decode_out_from_prepare env s
  unfold nmea_reader_parse nmea_emit
  split_ifs
  · exact ⟨l ++ [Event.location (nmea_decode env s).1.r.fix], by simp [hl]⟩
  · exact ⟨l, hl⟩
  · exact ⟨l, hl⟩

theorem take_set_ge {α : Type} (l : List α) (n m : Nat) (a : α) (h : n ≤ m) :
    (l.set m a).take n = l.take n := by
  apply List.ext_getElem?
  intro i
  rw [List.getElem?_take, List.getElem?_take]
  by_cases hi : i < n
  · rw [if_pos hi, if_pos hi, List.getElem?_set_ne (by omega)]
  · rw [if_neg hi, if_neg hi]

theorem prepare_in_getElem (env : Env) (s : State) (i : Nat) (hi : i < s.r.pos) :
    (nmea_prepare env s).1.r.in_[i]? = s.r.in_[i]? := by
  unfold nmea_prepare
  dsimp only
  split_ifs
  · rfl
  · exact List.getElem?_set_ne (by omega)
  · exact List.getElem?_set_ne (by omega)
  · exact List.getElem?_set_ne (by omega)
  · exact List.getElem?_set_ne (by omega)

theorem nmea_strip_line_feed (mem : Nat → Nat) (e : Nat) (he : 0 < e) (h10 : mem (e - 1) = 10) :
    (nmea_strip mem 0 e).2 ≤ e - 1 := by
  unfold nmea_strip
  dsimp only
  by_cases h36 : 0 < e ∧ mem 0 = 36
  · have hgt : e > 0 + 1 ∧ mem (e - 1) = 10 := by
      refine ⟨?_, h10⟩
      by_contra hc
      have h1 : e = 1 := by omega
      subst h1
      have := h36.2
      simp only [Nat.sub_self] at h10
      omega
    rw [if_pos h36, if_pos hgt]
    split_ifs <;> omega
  · have hgt : e > 0 ∧ mem (e - 1) = 10 := ⟨he, h10⟩
    rw [if_neg h36, if_pos hgt]
    split_ifs <;> omega

theorem state_with_nil_in_length (gsa : Bool) (flags : Nat) :
    (state_with [] gsa flags).r.in_.length = 256 := by
  show ([] ++ List.replicate (NMEA_MAX_SIZE + 1 - 0) 0 : List Nat).length = 256
  rw [List.nil_append, List.length_replicate]
  rfl

theorem with_line_in (t : State) (line : List Nat) (hbuf : line.length + 1 ≤ t.r.in_.length) :
    (with_line t line).r.in_.take (line.length + 1) = line ++ [10] := by
  have := store_bytes_take (line ++ [10]) t.r.in_ (by simpa using hbuf)
  simpa [with_line] using this

/-! ## Accuracy threshold -/

theorem strtod_99_0 : strtod_decimal [57, 57, 46, 48] = 99 := by
  have h : strtod_decimal [57, 57, 46, 48] =
      ((99 : Nat) : ℚ) + ((0 : Nat) : ℚ) / ((10 ^ 1 : Nat) : ℚ) := by
    rfl
  rw [h]; norm_num

theorem strtod_98_9 : strtod_decimal [57, 56, 46, 57] = 989 / 10 := by
  have h : strtod_decimal [57, 56, 46, 57] =
      ((98 : Nat) : ℚ) + ((9 : Nat) : ℚ) / ((10 ^ 1 : Nat) : ℚ) := by
    rfl
  rw [h]; norm_num

theorem strtod_150_0 : strtod_decimal [49, 53, 48, 46, 48] = 150 := by
  have h : strtod_decimal [49, 53, 48, 46, 48] =
      ((150 : Nat) : ℚ) + ((0 : Nat) : ℚ) / ((10 ^ 1 : Nat) : ℚ) := by
    rfl
  rw [h]; norm_num

theorem slice_list_mem (l : List Nat) : slice (list_mem l) 0 l.length = l := by
  unfold slice list_mem
  apply List.ext_getElem?
  intro i
  simp only [Nat.sub_zero, Nat.zero_add, List.getElem?_map]
  by_cases hi : i < l.length
  · simp [List.getElem?_range hi, List.getD_eq_getElem?_getD, List.getElem?_eq_getElem hi]
  · rw [List.getElem?_eq_none (by simpa using hi), List.getElem?_eq_none (by simpa using hi)]
    rfl

/-- With the environment of the examples, `str2float` of a field of fewer than
16 bytes is the decimal value of its bytes. -/
theorem str2float_list (b : Bool) (l : List Nat) (h : l.length < 16) :
    str2float (env_ex b) (list_mem l) 0 l.length = strtod_decimal l := by
  unfold str2float
  rw [if_neg (by omega)]
  show strtod_decimal (slice (list_mem l) 0 l.length) = _
  rw [slice_list_mem]

theorem update_accuracy_above (env : Env) (mem : Nat → Nat) (r : NmeaReader) (tok : Token)
    (is_fix : Bool) (hne : tok.p < tok.end_)
    (h99 : 99 < env.to_float (str2float env mem tok.p tok.end_)) :
    nmea_reader_update_accuracy env mem r tok is_fix =
      (0, { r with fix := { r.fix with
        accuracy := env.to_float (str2float env mem tok.p tok.end_) } }) := by
  unfold nmea_reader_update_accuracy
  rw [if_neg (by omega)]
  dsimp only
  rw [if_pos h99]

theorem update_accuracy_not_above (env : Env) (mem : Nat → Nat) (r : NmeaReader) (tok : Token)
    (hne : tok.p < tok.end_)
    (h99 : ¬ 99 < env.to_float (str2float env mem tok.p tok.end_)) :
    nmea_reader_update_accuracy env mem r tok true =
      (0, { r with fix := { r.fix with
        accuracy := env.to_float (str2float env mem tok.p tok.end_),
        flags := r.fix.flags ||| GPS_LOCATION_HAS_ACCURACY } }) := by
  unfold nmea_reader_update_accuracy
  rw [if_neg (by omega)]
  dsimp only
  rw [if_neg h99, if_pos rfl]

/-- C17, as the code has it: with is_fix true and HAS_ACCURACY initially
clear, decoding a non-empty accuracy field sets HAS_ACCURACY exactly when the
decoded value is not above 99.0; so the field `99.0` sets the bit, as the field
`98.9` does, and the bit is withheld only strictly above 99.0. -/
theorem C17_accuracy_threshold (env : Env) (mem : Nat → Nat) (r : NmeaReader) (tok : Token)
    (hne : tok.p < tok.end_) (hclear : has_flag r.fix.flags GPS_LOCATION_HAS_ACCURACY = false) :
    (has_flag (nmea_reader_update_accuracy env mem r tok true).2.fix.flags
        GPS_LOCATION_HAS_ACCURACY = true ↔
      ¬ 99 < env.to_float (str2float env mem tok.p tok.end_)) ∧
    has_flag (nmea_reader_update_accuracy (env_ex true) (list_mem [57, 57, 46, 48])
      (nmea_reader_init 32) { p := 0, end_ := 4 } true).2.fix.flags
      GPS_LOCATION_HAS_ACCURACY = true ∧
    has_flag (nmea_reader_update_accuracy (env_ex true) (list_mem [57, 56, 46, 57])
      (nmea_reader_init 32) { p := 0, end_ := 4 } true).2.fix.flags
      GPS_LOCATION_HAS_ACCURACY = true := by
  refine ⟨?_, ?_, ?_⟩
  · by_cases h99 : 99 < env.to_float (str2float env mem tok.p tok.end_)
    · rw [update_accuracy_above env mem r tok true hne h99]
      simp only [h99, not_true_eq_false, iff_false]
      rw [hclear]
      simp
    · rw [update_accuracy_not_above env mem r tok hne h99]
      simp only [h99, not_false_eq_true, iff_true]
      exact has_flag_or_self _ _ (by decide)
  · have hv : (env_ex true).to_float
        (str2float (env_ex true) (list_mem [57, 57, 46, 48]) 0 4) = 99 :=
      (str2float_list true [57, 57, 46, 48] (by decide)).trans strtod_99_0
    rw [update_accuracy_not_above _ _ _ _ (by decide) (by rw [hv]; norm_num)]
    exact has_flag_or_self _ _ (by decide)
  · have hv : (env_ex true).to_float
        (str2float (env_ex true) (list_mem [57, 56, 46, 57]) 0 4) = 989 / 10 :=
      (str2float_list true [57, 56, 46, 57] (by decide)).trans strtod_98_9
    rw [update_accuracy_not_above _ _ _ _ (by decide) (by rw [hv]; norm_num)]
    exact has_flag_or_self _ _ (by decide)

/-- C17 on the field `99.0`, with is_fix true and HAS_ACCURACY clear: the
decoded value 99 is not above 99.0. -/
theorem C17_accuracy_threshold_witness :
    has_flag (nmea_reader_init 32).fix.flags GPS_LOCATION_HAS_ACCURACY = false ∧
    (has_flag (nmea_reader_update_accuracy (env_ex true) (list_mem [57, 57, 46, 48])
        (nmea_reader_init 32) { p := 0, end_ := 4 } true).2.fix.flags
        GPS_LOCATION_HAS_ACCURACY = true ↔
      ¬ 99 < (env_ex true).to_float
        (str2float (env_ex true) (list_mem [57, 57, 46, 48]) 0 4)) :=
  ⟨by decide,
    (C17_accuracy_threshold (env_ex true) (list_mem [57, 57, 46, 48]) (nmea_reader_init 32)
      { p := 0, end_ := 4 } (by decide) (by decide)).1⟩

/-- C17 as stated fails at the threshold: decoding the field `99.0` with is_fix
true and HAS_ACCURACY clear sets HAS_ACCURACY. -/
theorem C17_counterexample :
    has_flag (nmea_reader_init 32).fix.flags GPS_LOCATION_HAS_ACCURACY = false ∧
    (nmea_reader_update_accuracy (env_ex true) (list_mem [57, 57, 46, 48])
      (nmea_reader_init 32) { p := 0, end_ := 4 } true).2.fix.accuracy = 99 ∧
    has_flag (nmea_reader_update_accuracy (env_ex true) (list_mem [57, 57, 46, 48])
      (nmea_reader_init 32) { p := 0, end_ := 4 } true).2.fix.flags
      GPS_LOCATION_HAS_ACCURACY = true := by
  have hv : (env_ex true).to_float
      (str2float (env_ex true) (list_mem [57, 57, 46, 48]) 0 4) = 99 :=
    (str2float_list true [57, 57, 46, 48] (by decide)).trans strtod_99_0
  rw [update_accuracy_not_above _ _ _ _ (by decide) (by rw [hv]; norm_num)]
  exact ⟨by decide, hv, has_flag_or_self _ _ (by decide)⟩

/-! ## RMC, VTG and the Used-Satellite Cache -/

theorem tokenize_loop_empty_field (mem : Nat → Nat) (e : Nat) :
    ∀ (fuel p : Nat) (t : NmeaTokenizer),
      (∀ tok ∈ t.tokens, tok.p = tok.end_ → mem tok.p = 44) →
      ∀ tok ∈ (tokenize_loop mem e fuel p t).tokens, tok.p = tok.end_ → mem tok.p = 44 := by
  intro fuel
  induction fuel with
  | zero => intro p t h; simpa [tokenize_loop] using h
  | succ fuel ih =>
    intro p t h
    unfold tokenize_loop
    by_cases hpe : p < e
    · simp only [hpe, if_true]
      apply ih
      intro tok htok
      by_cases hc : t.count < MAX_NMEA_TOKENS
      · simp only [hc, if_true, List.mem_append, List.mem_singleton] at htok
        rcases htok with htok | htok
        · exact h tok htok
        · subst htok
          cases hm : memchr mem 44 p (e - p) with
          | none => simp only; intro hpq; omega
          | some q =>
            simp only
            intro hpq
            have := (memchr_some _ _ _ hm).2.2.1
            rw [hpq]; exact this
      · simp only [hc, if_false] at htok
        exact h tok htok
    · simp only [hpe, if_false]
      exact h

/-- A zero-length view handed out by `nmea_tokenizer_get` starts at a comma or
at the NUL of the empty literal. -/
theorem tokenizer_get_empty (buf : List Nat) (p e : Nat) (i : Int)
    (h : (nmea_tokenizer_get (nmea_tokenizer_init (buf_mem buf) p e) i).p =
      (nmea_tokenizer_get (nmea_tokenizer_init (buf_mem buf) p e) i).end_) :
    buf_mem buf (nmea_tokenizer_get (nmea_tokenizer_init (buf_mem buf) p e) i).p = 44 ∨
    buf_mem buf (nmea_tokenizer_get (nmea_tokenizer_init (buf_mem buf) p e) i).p = 0 := by
  have hlit : buf_mem buf STR_EMPTY = 0 := by
    unfold buf_mem STR_EMPTY NMEA_MAX_SIZE
    rw [if_neg (by omega)]
  have hinv := tokenize_loop_empty_field (buf_mem buf) (nmea_strip (buf_mem buf) p e).2
    ((nmea_strip (buf_mem buf) p e).2 - (nmea_strip (buf_mem buf) p e).1)
    (nmea_strip (buf_mem buf) p e).1 { count := 0, tokens := [] } (by simp)
  unfold nmea_tokenizer_get at h ⊢
  split_ifs at h ⊢ with hc
  · exact Or.inr hlit
  · rw [List.getD_eq_getElem?_getD] at h ⊢
    cases hg : (nmea_tokenizer_init (buf_mem buf) p e).tokens[i.toNat]? with
    | none => exact Or.inr hlit
    | some tok =>
      rw [hg] at h
      simp only [Option.getD_some] at h ⊢
      exact Or.inl (hinv tok (List.getElem?_mem hg) h)

theorem tokenizer_get_nil (i : Int) :
    nmea_tokenizer_get { count := 0, tokens := [] } i = { p := STR_EMPTY, end_ := STR_EMPTY } := by
  unfold nmea_tokenizer_get
  split_ifs <;> rfl

theorem prepare_tzer (env : Env) (s : State) :
    parse_tzer env s = { count := 0, tokens := [] } ∨
    parse_tzer env s = nmea_tokenizer_init (parse_mem env s) 0 s.r.pos := by
  unfold parse_tzer parse_mem nmea_prepare
  dsimp only
  split_ifs <;> first | exact Or.inl rfl | exact Or.inr rfl

theorem field_empty_byte (env : Env) (s : State) (i : Int)
    (h : (field env s i).p = (field env s i).end_) :
    parse_mem env s (field env s i).p = 44 ∨ parse_mem env s (field env s i).p = 0 := by
  unfold field at h ⊢
  rcases prepare_tzer env s with ht | ht
  · rw [ht, tokenizer_get_nil]
    right
    unfold parse_mem buf_mem
    simp only [STR_EMPTY, NMEA_MAX_SIZE]
    rw [if_neg (by omega)]
  · rw [ht] at h ⊢
    exact tokenizer_get_empty _ 0 s.r.pos i h

/-- The first byte of a field, read the way the decoder reads `tok.p[0]`, is
the first byte of the field's content when the field is not empty, and is
never a letter when it is empty. -/
theorem field_first_byte (env : Env) (s : State) (i : Int) (c : Nat) (hc : c ≠ 44) (hc0 : c ≠ 0) :
    parse_mem env s (field env s i).p = c ↔
      (tok_bytes (parse_mem env s) (field env s i)).head? = some c := by
  unfold tok_bytes
  by_cases hne : (field env s i).p < (field env s i).end_
  · rw [slice_cons _ _ _ hne]
    simp
  · rw [slice_nil _ _ _ (by omega)]
    simp only [List.head?_nil]
    constructor
    · intro h
      have hemp : (field env s i).p = (field env s i).end_ ∨
          (field env s i).end_ < (field env s i).p := by omega
      rcases hemp with hemp | hemp
      · rcases field_empty_byte env s i hemp with h1 | h1
        · rw [h1] at h; exact absurd h.symm hc
        · rw [h1] at h; exact absurd h.symm hc0
      · exfalso
        unfold field at hemp
        rcases prepare_tzer env s with ht | ht
        · rw [ht, tokenizer_get_nil] at hemp
          simp at hemp
        · rw [ht] at hemp
          have hb := (nmea_tokenizer_init_inv (parse_mem env s) 0 s.r.pos).2.2
          unfold nmea_tokenizer_get at hemp
          split_ifs at hemp with hcc
          · simp at hemp
          · rw [List.getD_eq_getElem?_getD] at hemp
            cases hg : (nmea_tokenizer_init (parse_mem env s) 0 s.r.pos).tokens[i.toNat]? with
            | none => rw [hg] at hemp; simp at hemp
            | some tok =>
              rw [hg] at hemp
              simp only [Option.getD_some] at hemp
              have := hb tok (List.getElem?_mem hg)
              omega
    · intro h; cases h

theorem sentence_is_unique (env : Env) (s : State) (a b c a2 b2 c2 : Nat)
    (h1 : sentence_is env s a b c = true) (h2 : sentence_is env s a2 b2 c2 = true) :
    a = a2 ∧ b = b2 ∧ c = c2 := by
  unfold sentence_is at h1 h2
  cases hp : (nmea_prepare env s).2 with
  | none => rw [hp] at h1; simp at h1
  | some tp =>
    rw [hp] at h1 h2
    simp only at h1 h2
    unfold tag_is at h1 h2
    simp only [decide_eq_true_eq] at h1 h2
    omega

/-- The dispatch of `nmea_reader_parse`, by sentence tag. -/
theorem decode_dispatch (env : Env) (s : State) :
    nmea_decode env s =
      if sentence_is env s 71 71 65 = true then
        parse_gga env (parse_mem env s) (parse_tzer env s) (nmea_prepare env s).1
      else if sentence_is env s 71 83 65 = true then
        parse_gsa env (parse_mem env s) (parse_tzer env s) (nmea_prepare env s).1
      else if sentence_is env s 71 83 86 = true then
        parse_gsv env (parse_mem env s) (parse_tzer env s) (nmea_prepare env s).1
      else if sentence_is env s 82 77 67 = true then
        parse_rmc env (parse_mem env s) (parse_tzer env s) (nmea_prepare env s).1
      else if sentence_is env s 86 84 71 = true then
        parse_vtg env (parse_mem env s) (parse_tzer env s) (nmea_prepare env s).1
      else ((nmea_prepare env s).1, false) := by
  unfold sentence_is nmea_decode parse_tzer parse_mem
  cases hp : (nmea_prepare env s).2 with
  | none => simp
  | some tp =>
    simp only
    unfold nmea_dispatch
    rfl

theorem decode_of_gsv (env : Env) (s : State) (h : sentence_is env s 71 83 86 = true) :
    nmea_decode env s =
      parse_gsv env (parse_mem env s) (parse_tzer env s) (nmea_prepare env s).1 := by
  rw [decode_dispatch]
  have h1 : ¬ sentence_is env s 71 71 65 = true := fun h1 => by
    have := sentence_is_unique env s _ _ _ _ _ _ h h1; omega
  have h2 : ¬ sentence_is env s 71 83 65 = true := fun h1 => by
    have := sentence_is_unique env s _ _ _ _ _ _ h h1; omega
  rw [if_neg h1, if_neg h2, if_pos h]

theorem decode_of_rmc (env : Env) (s : State) (h : sentence_is env s 82 77 67 = true) :
    nmea_decode env s =
      parse_rmc env (parse_mem env s) (parse_tzer env s) (nmea_prepare env s).1 := by
  rw [decode_dispatch]
  have h1 : ¬ sentence_is env s 71 71 65 = true := fun h1 => by
    have := sentence_is_unique env s _ _ _ _ _ _ h h1; omega
  have h2 : ¬ sentence_is env s 71 83 65 = true := fun h1 => by
    have := sentence_is_unique env s _ _ _ _ _ _ h h1; omega
  have h3 : ¬ sentence_is env s 71 83 86 = true := fun h1 => by
    have := sentence_is_unique env s _ _ _ _ _ _ h h1; omega
  rw [if_neg h1, if_neg h2, if_neg h3, if_pos h]

theorem decode_of_vtg (env : Env) (s : State) (h : sentence_is env s 86 84 71 = true) :
    nmea_decode env s =
      parse_vtg env (parse_mem env s) (parse_tzer env s) (nmea_prepare env s).1 := by
  rw [decode_dispatch]
  have h1 : ¬ sentence_is env s 71 71 65 = true := fun h1 => by
    have := sentence_is_unique env s _ _ _ _ _ _ h h1; omega
  have h2 : ¬ sentence_is env s 71 83 65 = true := fun h1 => by
    have := sentence_is_unique env s _ _ _ _ _ _ h h1; omega
  have h3 : ¬ sentence_is env s 71 83 86 = true := fun h1 => by
    have := sentence_is_unique env s _ _ _ _ _ _ h h1; omega
  have h4 : ¬ sentence_is env s 82 77 67 = true := fun h1 => by
    have := sentence_is_unique env s _ _ _ _ _ _ h h1; omega
  rw [if_neg h1, if_neg h2, if_neg h3, if_neg h4, if_pos h]

/-- A decoded sentence has at least nine bytes, so the prologue of
`nmea_reader_parse` stores the NUL and makes the raw-sentence echo. -/
theorem prepare_of_sentence (env : Env) (s : State) (a b c : Nat)
    (h : sentence_is env s a b c = true) :
    (nmea_prepare env s).1 =
      { s with r := { s.r with in_ := s.r.in_.set s.r.pos 0 },
               out := if env.init then
                        s.out ++ [Event.nmea env.tv_ms ((s.r.in_.set s.r.pos 0).take s.r.pos) s.r.pos]
                      else s.out } := by
  unfold sentence_is at h
  unfold nmea_prepare at h ⊢
  dsimp only at h ⊢
  split_ifs at h ⊢ <;> first | rfl | simp at h

theorem parse_eq_decode_of_not_send (env : Env) (s : State) (h : (nmea_decode env s).2 = false) :
    nmea_reader_parse env s = (nmea_decode env s).1 := by
  unfold nmea_reader_parse nmea_emit
  rw [h]
  simp

/-- C14: for an RMC sentence whose fix-status field (field 2) does not begin
with A (V, or an empty or missing field), nmea_reader_parse leaves the fix
record with its bitmask and utc_year/mon/day unchanged, pushes no fix, and
delivers nothing but the raw-sentence echo: in particular the time-sync policy
does not set the clock. -/
theorem C14_rmc_without_fix (env : Env) (s : State)
    (hrmc : sentence_is env s 82 77 67 = true)
    (hA : (tok_bytes (parse_mem env s) (field env s 2)).head? ≠ some 65) :
    nmea_reader_parse env s = (nmea_prepare env s).1 ∧
    (nmea_reader_parse env s).r.fix = s.r.fix ∧
    (nmea_reader_parse env s).r.utc_year = s.r.utc_year ∧
    (nmea_reader_parse env s).r.utc_mon = s.r.utc_mon ∧
    (nmea_reader_parse env s).r.utc_day = s.r.utc_day ∧
    pushed_fixes env s = [] ∧
    new_events env s =
      (if env.init then
        [Event.nmea env.tv_ms ((s.r.in_.set s.r.pos 0).take s.r.pos) s.r.pos]
       else []) ∧
    (∀ gmt, Event.settimeofday gmt ∉ new_events env s) := by
  have hbyte : ¬ parse_mem env s (field env s 2).p = 65 := fun h =>
    hA ((field_first_byte env s 2 65 (by decide) (by decide)).mp h)
  have hd : nmea_decode env s = ((nmea_prepare env s).1, false) := by
    rw [decode_of_rmc env s hrmc]
    unfold parse_rmc
    dsimp only
    exact if_neg hbyte
  have hp : nmea_reader_parse env s = (nmea_prepare env s).1 := by
    rw [parse_eq_decode_of_not_send env s (by rw [hd]), hd]
  obtain ⟨_, pf, py, pm, pd, _⟩ := prepare_frame env s
  have hnew : new_events env s =
      (if env.init then
        [Event.nmea env.tv_ms ((s.r.in_.set s.r.pos 0).take s.r.pos) s.r.pos]
       else []) := by
    unfold new_events
    rw [hp, prepare_of_sentence env s _ _ _ hrmc]
    dsimp only
    split_ifs
    · rw [List.drop_left]
    · simp
  refine ⟨hp, by rw [hp, pf], by rw [hp, py], by rw [hp, pm], by rw [hp, pd], ?_, hnew, ?_⟩
  · rw [pushed_fixes_eq, hd]
    simp
  · intro gmt
    rw [hnew]
    split_ifs <;> simp

/-- C14 on an RMC sentence with fix-status V. -/
theorem C14_rmc_without_fix_witness :
    sentence_is (env_ex true) (state_with line_rmc_void false 3) 82 77 67 = true ∧
    (nmea_reader_parse (env_ex true) (state_with line_rmc_void false 3)).r.fix =
      (state_with line_rmc_void false 3).r.fix ∧
    pushed_fixes (env_ex true) (state_with line_rmc_void false 3) = [] :=
  have h := C14_rmc_without_fix (env_ex true) (state_with line_rmc_void false 3)
    (by decide) (by decide)
  ⟨by decide, h.2.1, h.2.2.2.2.2.1⟩

theorem update_bearing_spec (env : Env) (mem : Nat → Nat) (r : NmeaReader) (tok : Token) :
    (tok.p < tok.end_ →
      (nmea_reader_update_bearing env mem r tok).2.fix.bearing =
        env.to_float (str2float env mem tok.p tok.end_) ∧
      (nmea_reader_update_bearing env mem r tok).2.fix.flags =
        r.fix.flags ||| GPS_LOCATION_HAS_BEARING) ∧
    (¬ tok.p < tok.end_ → (nmea_reader_update_bearing env mem r tok).2 = r) ∧
    (nmea_reader_update_bearing env mem r tok).2.fix.speed = r.fix.speed := by
  unfold nmea_reader_update_bearing
  split_ifs with h
  · exact ⟨fun h1 => absurd h1 (by omega), fun _ => rfl, rfl⟩
  · exact ⟨fun _ => ⟨rfl, rfl⟩, fun h1 => absurd (by omega) h1, rfl⟩

theorem update_speed_spec (env : Env) (mem : Nat → Nat) (r : NmeaReader) (tok : Token) :
    (tok.p < tok.end_ →
      (nmea_reader_update_speed env mem r tok).2.fix.speed =
        env.to_float (str2float env mem tok.p tok.end_ * (1852 / 1000 / (36 / 10))) ∧
      (nmea_reader_update_speed env mem r tok).2.fix.flags =
        r.fix.flags ||| GPS_LOCATION_HAS_SPEED) ∧
    (¬ tok.p < tok.end_ → (nmea_reader_update_speed env mem r tok).2 = r) ∧
    (nmea_reader_update_speed env mem r tok).2.fix.bearing = r.fix.bearing ∧
    has_flag (nmea_reader_update_speed env mem r tok).2.fix.flags GPS_LOCATION_HAS_BEARING =
      has_flag r.fix.flags GPS_LOCATION_HAS_BEARING := by
  unfold nmea_reader_update_speed
  split_ifs with h
  · exact ⟨fun h1 => absurd h1 (by omega), fun _ => rfl, rfl, rfl⟩
  · exact ⟨fun _ => ⟨rfl, rfl⟩, fun h1 => absurd (by omega) h1, rfl, has_flag_or _ _ _ (by decide)⟩

/-- What a VTG sentence does: no fix is pushed; when the byte at the start of
field 9 is NUL or `N` the fix record is unchanged; otherwise bearing comes from
field 1 and speed from field 5 times 1.852/3.6, each when the field is not
empty. -/
theorem vtg_effect (env : Env) (s : State) (hvtg : sentence_is env s 86 84 71 = true) :
    pushed_fixes env s = [] ∧
    ((parse_mem env s (field env s 9).p = 0 ∨ parse_mem env s (field env s 9).p = 78) →
      (nmea_reader_parse env s).r.fix = s.r.fix) ∧
    (¬ (parse_mem env s (field env s 9).p = 0 ∨ parse_mem env s (field env s 9).p = 78) →
      ((field env s 1).p < (field env s 1).end_ →
        (nmea_reader_parse env s).r.fix.bearing = env.to_float (field_float env s 1) ∧
        has_flag (nmea_reader_parse env s).r.fix.flags GPS_LOCATION_HAS_BEARING = true) ∧
      (¬ (field env s 1).p < (field env s 1).end_ →
        (nmea_reader_parse env s).r.fix.bearing = s.r.fix.bearing) ∧
      ((field env s 5).p < (field env s 5).end_ →
        (nmea_reader_parse env s).r.fix.speed =
          env.to_float (field_float env s 5 * (1852 / 1000 / (36 / 10))) ∧
        has_flag (nmea_reader_parse env s).r.fix.flags GPS_LOCATION_HAS_SPEED = true) ∧
      (¬ (field env s 5).p < (field env s 5).end_ →
        (nmea_reader_parse env s).r.fix.speed = s.r.fix.speed)) := by
  have hd := decode_of_vtg env s hvtg
  have hsend : (nmea_decode env s).2 = false := by
    rw [hd]; exact (parse_vtg_out _ _ _ _).2
  have hp := parse_eq_decode_of_not_send env s hsend
  obtain ⟨_, pf, _⟩ := prepare_frame env s
  refine ⟨by rw [pushed_fixes_eq, hsend]; simp, ?_, ?_⟩
  · intro h0
    have hno : ¬ (parse_mem env s (nmea_tokenizer_get (parse_tzer env s) 9).p ≠ 0 ∧
        parse_mem env s (nmea_tokenizer_get (parse_tzer env s) 9).p ≠ 78) := by
      intro hc
      rcases h0 with h0 | h0
      · exact hc.1 h0
      · exact hc.2 h0
    have : parse_vtg env (parse_mem env s) (parse_tzer env s) (nmea_prepare env s).1 =
        ((nmea_prepare env s).1, false) := by
      unfold parse_vtg
      dsimp only
      exact if_neg hno
    rw [hp, hd, this]
    exact pf
  · intro h0
    have hact : (parse_mem env s (nmea_tokenizer_get (parse_tzer env s) 9).p ≠ 0 ∧
        parse_mem env s (nmea_tokenizer_get (parse_tzer env s) 9).p ≠ 78) :=
      ⟨fun h => h0 (Or.inl h), fun h => h0 (Or.inr h)⟩
    have hr : (parse_vtg env (parse_mem env s) (parse_tzer env s) (nmea_prepare env s).1).1.r =
        (nmea_reader_update_speed env (parse_mem env s)
          (nmea_reader_update_bearing env (parse_mem env s) (nmea_prepare env s).1.r
            (field env s 1)).2 (field env s 5)).2 := by
      unfold parse_vtg
      dsimp only
      rw [if_pos hact]
      rfl
    rw [hp, hd, hr]
    obtain ⟨b1, b2, b3⟩ := update_bearing_spec env (parse_mem env s) (nmea_prepare env s).1.r
      (field env s 1)
    obtain ⟨s1, s2, s3, s4⟩ := update_speed_spec env (parse_mem env s)
      (nmea_reader_update_bearing env (parse_mem env s) (nmea_prepare env s).1.r
        (field env s 1)).2 (field env s 5)
    refine ⟨fun h1 => ⟨?_, ?_⟩, fun h1 => ?_, fun h5 => ⟨?_, ?_⟩, fun h5 => ?_⟩
    · rw [s3, (b1 h1).1]; rfl
    · rw [s4, (b1 h1).2]; exact has_flag_or_self _ _ (by decide)
    · rw [s3, b2 h1, pf]
    · rw [(s1 h5).1]; rfl
    · rw [(s1 h5).2]; exact has_flag_or_self _ _ (by decide)
    · rw [s2 h5, b3, pf]

/-- C15 fails on the VTG sentence `$GPVTG,1,,,,2,,,,,X`: its field 9 is empty,
but the byte the decoder tests is the comma after it, so bearing and speed are
taken and HAS_BEARING and HAS_SPEED are set although the claim says the fix
record is left unchanged. -/
theorem C15_vtg_empty_mode :
    sentence_is (env_ex true) (state_with line_vtg_empty_mode false 0) 86 84 71 = true ∧
    (field (env_ex true) (state_with line_vtg_empty_mode false 0) 9).p =
      (field (env_ex true) (state_with line_vtg_empty_mode false 0) 9).end_ ∧
    parse_mem (env_ex true) (state_with line_vtg_empty_mode false 0)
      (field (env_ex true) (state_with line_vtg_empty_mode false 0) 9).p = 44 ∧
    (state_with line_vtg_empty_mode false 0).r.fix.flags = 0 ∧
    (nmea_reader_parse (env_ex true) (state_with line_vtg_empty_mode false 0)).r.fix.flags =
      GPS_LOCATION_HAS_BEARING ||| GPS_LOCATION_HAS_SPEED ∧
    (nmea_reader_parse (env_ex true) (state_with line_vtg_empty_mode false 0)).r.fix ≠
      (state_with line_vtg_empty_mode false 0).r.fix := by
  refine ⟨by decide, by decide, by decide, by decide, by decide, ?_⟩
  intro h
  have hf : (nmea_reader_parse (env_ex true) (state_with line_vtg_empty_mode false 0)).r.fix.flags =
      GPS_LOCATION_HAS_BEARING ||| GPS_LOCATION_HAS_SPEED := by decide
  rw [h] at hf
  exact absurd hf (by decide)

theorem gsa_ids_succ (mem : Nat → Nat) (tzer : NmeaTokenizer) (n : Nat) (ids : List Int) :
    gsa_ids mem tzer (n + 1) ids =
      if (nmea_tokenizer_get tzer (3 + (n : Int))).end_ > (nmea_tokenizer_get tzer (3 + (n : Int))).p then
        (gsa_ids mem tzer n ids).set n
          (str2int mem (nmea_tokenizer_get tzer (3 + (n : Int))).p
            (nmea_tokenizer_get tzer (3 + (n : Int))).end_)
      else gsa_ids mem tzer n ids := by
  unfold gsa_ids
  rw [List.range_succ, List.foldl_append]
  rfl

theorem gsa_ids_length (mem : Nat → Nat) (tzer : NmeaTokenizer) (ids : List Int) :
    ∀ n, (gsa_ids mem tzer n ids).length = ids.length := by
  intro n
  induction n with
  | zero => rfl
  | succ n ih =>
    rw [gsa_ids_succ]
    split_ifs
    · rw [List.length_set, ih]
    · exact ih

/-- Slot `i` of the cache after the loop over the satellite-ID fields. -/
theorem gsa_ids_getElem (mem : Nat → Nat) (tzer : NmeaTokenizer) (ids : List Int) (i : Nat) :
    ∀ n, (gsa_ids mem tzer n ids)[i]? =
      if i < n ∧ i < ids.length ∧
          (nmea_tokenizer_get tzer (3 + (i : Int))).p < (nmea_tokenizer_get tzer (3 + (i : Int))).end_ then
        some (str2int mem (nmea_tokenizer_get tzer (3 + (i : Int))).p
          (nmea_tokenizer_get tzer (3 + (i : Int))).end_)
      else ids[i]? := by
  intro n
  induction n with
  | zero =>
    rw [if_neg (by omega)]
    rfl
  | succ n ih =>
    rw [gsa_ids_succ]
    by_cases hn : (nmea_tokenizer_get tzer (3 + (n : Int))).end_ >
        (nmea_tokenizer_get tzer (3 + (n : Int))).p
    · rw [if_pos hn]
      by_cases hin : i = n
      · subst hin
        by_cases hl : i < ids.length
        · rw [List.getElem?_set_self (by rw [gsa_ids_length]; exact hl),
            if_pos ⟨by omega, hl, hn⟩]
        · rw [if_neg (by omega), List.getElem?_eq_none (by rw [List.length_set, gsa_ids_length]; omega),
            List.getElem?_eq_none (by omega)]
      · rw [List.getElem?_set_ne (by omega), ih]
        by_cases hc : i < n ∧ i < ids.length ∧
            (nmea_tokenizer_get tzer (3 + (i : Int))).p < (nmea_tokenizer_get tzer (3 + (i : Int))).end_
        · rw [if_pos hc, if_pos ⟨by omega, hc.2⟩]
        · rw [if_neg hc, if_neg (by intro h; exact hc ⟨by omega, h.2⟩)]
    · rw [if_neg hn, ih]
      by_cases hc : i < n ∧ i < ids.length ∧
          (nmea_tokenizer_get tzer (3 + (i : Int))).p < (nmea_tokenizer_get tzer (3 + (i : Int))).end_
      · rw [if_pos hc, if_pos ⟨by omega, hc.2⟩]
      · rw [if_neg hc, if_neg]
        intro h
        by_cases hin : i = n
        · subst hin; exact hn h.2.2
        · exact hc ⟨by omega, h.2⟩

theorem parse_id_in_fixed (env : Env) (s : State) :
    (nmea_reader_parse env s).id_in_fixed = (nmea_decode env s).1.id_in_fixed := by
  unfold nmea_reader_parse nmea_emit
  split_ifs <;> rfl

/-- C11, as the code has it: the Used-Satellite Cache is written only by a GSA
sentence decoded while the GSA-seen flag is already true; then each slot i
(0 <= i < 12) whose satellite-ID field 3+i is non-empty equals str2int of that
field after the decode and every other slot keeps its value. A GSA sentence
decoded while the flag is false (the first of a session) leaves the cache
unchanged. -/
theorem C11_used_satellite_cache (env : Env) (s : State)
    (hgsa : sentence_is env s 71 83 65 = true) (hlen : s.id_in_fixed.length = 12) :
    (s.r.gsa = true → ∀ i : Nat, i < 12 →
      ((field env s (3 + (i : Int))).p < (field env s (3 + (i : Int))).end_ →
        (nmea_reader_parse env s).id_in_fixed[i]? = some (field_int env s (3 + (i : Int)))) ∧
      (¬ (field env s (3 + (i : Int))).p < (field env s (3 + (i : Int))).end_ →
        (nmea_reader_parse env s).id_in_fixed[i]? = s.id_in_fixed[i]?)) ∧
    (s.r.gsa = false → (nmea_reader_parse env s).id_in_fixed = s.id_in_fixed) := by
  have hd := decode_of_gsa env s hgsa
  obtain ⟨pg, _, _, _, _, _, pid, _⟩ := prepare_frame env s
  refine ⟨fun hg i hi => ?_, fun hg => ?_⟩
  · have hids : (nmea_reader_parse env s).id_in_fixed =
        gsa_ids (parse_mem env s) (parse_tzer env s) 12 s.id_in_fixed := by
      rw [parse_id_in_fixed, hd]
      unfold parse_gsa
      rw [if_pos (by rw [pg, hg])]
      dsimp only
      rw [pid]
    rw [hids, gsa_ids_getElem]
    refine ⟨fun hne => ?_, fun hemp => ?_⟩
    · rw [if_pos ⟨hi, by omega, hne⟩]
      rfl
    · rw [if_neg (fun h => hemp h.2.2)]
  · rw [parse_id_in_fixed, hd, parse_gsa_first _ _ _ _ (by rw [pg, hg])]
    exact pid

/-- C11 on a GSA sentence whose field 3 is `04`, decoded with the flag true:
slot 0 of the cache becomes 4. -/
theorem C11_used_satellite_cache_witness :
    sentence_is (env_ex true) (state_with line_gsa_2d true 0) 71 83 65 = true ∧
    (nmea_reader_parse (env_ex true) (state_with line_gsa_2d true 0)).id_in_fixed[0]? =
      some (field_int (env_ex true) (state_with line_gsa_2d true 0) 3) ∧
    field_int (env_ex true) (state_with line_gsa_2d true 0) 3 = 4 :=
  ⟨by decide,
    (((C11_used_satellite_cache (env_ex true) (state_with line_gsa_2d true 0)
      (by decide) (by decide)).1 rfl 0 (by decide)).1 (by decide)),
    by decide⟩

/-- C11 as stated fails on the first GSA of a session: with the GSA-seen flag
false, field 3 is `04` (non-empty, str2int 4) but slot 0 of the cache is still
0 after the decode. -/
theorem C11_counterexample :
    sentence_is (env_ex true) (state_with line_gsa_2d false 0) 71 83 65 = true ∧
    (state_with line_gsa_2d false 0).r.gsa = false ∧
    (field (env_ex true) (state_with line_gsa_2d false 0) 3).p <
      (field (env_ex true) (state_with line_gsa_2d false 0) 3).end_ ∧
    field_int (env_ex true) (state_with line_gsa_2d false 0) 3 = 4 ∧
    (nmea_reader_parse (env_ex true) (state_with line_gsa_2d false 0)).id_in_fixed[0]? = some 0 := by
  decide

/-! ## Satellites in view -/

/-- One call of `nmea_reader_update_svs`, component by component. -/
theorem update_svs_spec (env : Env) (mem : Nat → Nat) (s : State) (inview num i : Int)
    (prn elevation azimuth snr : Token) :
    (nmea_reader_update_svs env mem s inview num i prn elevation azimuth snr).id_in_fixed =
      s.id_in_fixed ∧
    (nmea_reader_update_svs env mem s inview num i prn elevation azimuth snr).r.sv_status.num_svs =
      s.r.sv_status.num_svs ∧
    (nmea_reader_update_svs env mem s inview num i prn elevation azimuth snr).r.sv_status.sv_list =
      (if sv_index num i < inview ∧ 0 ≤ sv_index num i ∧
          sv_index num i < (s.r.sv_status.sv_list.length : Int) then
        s.r.sv_status.sv_list.set (sv_index num i).toNat
          { prn := str2int mem prn.p prn.end_,
            elevation := env.to_float (str2int mem elevation.p elevation.end_ : ℚ),
            azimuth := env.to_float (str2int mem azimuth.p azimuth.end_ : ℚ),
            snr := env.to_float (str2int mem snr.p snr.end_ : ℚ) }
       else s.r.sv_status.sv_list) ∧
    (nmea_reader_update_svs env mem s inview num i prn elevation azimuth snr).r.sv_status.used_in_fix_mask =
      (if sv_index num i < inview then
        cache_mask env s.id_in_fixed (str2int mem prn.p prn.end_) s.r.sv_status.used_in_fix_mask
       else s.r.sv_status.used_in_fix_mask) ∧
    ((sv_index num i < inview →
        0 ≤ sv_index num i ∧ sv_index num i < (s.r.sv_status.sv_list.length : Int)) →
      (nmea_reader_update_svs env mem s inview num i prn elevation azimuth snr).out = s.out) := by
  by_cases hw : sv_index num i < inview
  · by_cases hb : 0 ≤ sv_index num i ∧ sv_index num i < (s.r.sv_status.sv_list.length : Int)
    · refine ⟨?_, ?_, ?_, ?_, ?_⟩ <;> unfold nmea_reader_update_svs <;> dsimp only <;>
        simp [hw, hb, cache_mask]
    · refine ⟨?_, ?_, ?_, ?_, ?_⟩ <;> unfold nmea_reader_update_svs <;> dsimp only <;>
        simp [hw, hb, cache_mask]
  · refine ⟨?_, ?_, ?_, ?_, ?_⟩ <;> unfold nmea_reader_update_svs <;> dsimp only <;>
      simp [hw, cache_mask]

theorem update_svs_steps (env : Env) (mem : Nat → Nat) (s : State) (inview num i : Int)
    (prn elevation azimuth snr : Token) :
    (nmea_reader_update_svs env mem s inview num i prn elevation azimuth snr).id_in_fixed =
      s.id_in_fixed ∧
    (nmea_reader_update_svs env mem s inview num i prn elevation azimuth snr).r.sv_status.sv_list =
      gsv_list_step s.r.sv_status.sv_list inview (sv_index num i)
        (sv_info env mem prn elevation azimuth snr) ∧
    (nmea_reader_update_svs env mem s inview num i prn elevation azimuth snr).r.sv_status.used_in_fix_mask =
      gsv_mask_step env s.id_in_fixed inview (sv_index num i) (str2int mem prn.p prn.end_)
        s.r.sv_status.used_in_fix_mask ∧
    ((sv_index num i < inview →
        0 ≤ sv_index num i ∧ sv_index num i < (s.r.sv_status.sv_list.length : Int)) →
      (nmea_reader_update_svs env mem s inview num i prn elevation azimuth snr).out = s.out) := by
  obtain ⟨h1, _, h3, h4, h5⟩ := update_svs_spec env mem s inview num i prn elevation azimuth snr
  exact ⟨h1, h3, h4, h5⟩

theorem gsv_list_step_length (l : List GpsSvInfo) (inview idx : Int) (info : GpsSvInfo) :
    (gsv_list_step l inview idx info).length = l.length := by
  unfold gsv_list_step
  split_ifs
  · rw [List.length_set]
  · rfl

theorem gsv_list_step_getElem (l : List GpsSvInfo) (inview idx : Int) (info : GpsSvInfo) (n : Nat) :
    (gsv_list_step l inview idx info)[n]? =
      if (idx < inview ∧ 0 ≤ idx ∧ idx < (l.length : Int)) ∧ idx = (n : Int) then some info
      else l[n]? := by
  unfold gsv_list_step
  by_cases hc : idx < inview ∧ 0 ≤ idx ∧ idx < (l.length : Int)
  · rw [if_pos hc]
    by_cases hn : idx = (n : Int)
    · rw [if_pos ⟨hc, hn⟩]
      have : idx.toNat = n := by omega
      rw [this, List.getElem?_set_self (by omega)]
    · rw [if_neg (fun h => hn h.2), List.getElem?_set_ne (by omega)]
  · rw [if_neg hc, if_neg (fun h => hc h.1)]

/-- The `GSV` branch, component by component: the four stores and mask
updates in order, the in-view count, and the snapshot notification. -/
theorem parse_gsv_spec (env : Env) (mem : Nat → Nat) (tzer : NmeaTokenizer) (s : State) :
    (parse_gsv env mem tzer s).1.id_in_fixed = s.id_in_fixed ∧
    (parse_gsv env mem tzer s).1.r.sv_status.num_svs =
      str2int mem (nmea_tokenizer_get tzer 3).p (nmea_tokenizer_get tzer 3).end_ ∧
    (parse_gsv env mem tzer s).1.r.sv_status.sv_list =
      gsv_list_step (gsv_list_step (gsv_list_step (gsv_list_step s.r.sv_status.sv_list
        (str2int mem (nmea_tokenizer_get tzer 3).p (nmea_tokenizer_get tzer 3).end_)
        (sv_index (str2int mem (nmea_tokenizer_get tzer 2).p (nmea_tokenizer_get tzer 2).end_) 0)
        (sv_info env mem (nmea_tokenizer_get tzer 4) (nmea_tokenizer_get tzer 5)
          (nmea_tokenizer_get tzer 6) (nmea_tokenizer_get tzer 7)))
        (str2int mem (nmea_tokenizer_get tzer 3).p (nmea_tokenizer_get tzer 3).end_)
        (sv_index (str2int mem (nmea_tokenizer_get tzer 2).p (nmea_tokenizer_get tzer 2).end_) 1)
        (sv_info env mem (nmea_tokenizer_get tzer 8) (nmea_tokenizer_get tzer 9)
          (nmea_tokenizer_get tzer 10) (nmea_tokenizer_get tzer 11)))
        (str2int mem (nmea_tokenizer_get tzer 3).p (nmea_tokenizer_get tzer 3).end_)
        (sv_index (str2int mem (nmea_tokenizer_get tzer 2).p (nmea_tokenizer_get tzer 2).end_) 2)
        (sv_info env mem (nmea_tokenizer_get tzer 12) (nmea_tokenizer_get tzer 13)
          (nmea_tokenizer_get tzer 14) (nmea_tokenizer_get tzer 15)))
        (str2int mem (nmea_tokenizer_get tzer 3).p (nmea_tokenizer_get tzer 3).end_)
        (sv_index (str2int mem (nmea_tokenizer_get tzer 2).p (nmea_tokenizer_get tzer 2).end_) 3)
        (sv_info env mem (nmea_tokenizer_get tzer 16) (nmea_tokenizer_get tzer 17)
          (nmea_tokenizer_get tzer 18) (nmea_tokenizer_get tzer 19)) ∧
    (parse_gsv env mem tzer s).1.r.sv_status.used_in_fix_mask =
      gsv_mask_step env s.id_in_fixed
        (str2int mem (nmea_tokenizer_get tzer 3).p (nmea_tokenizer_get tzer 3).end_)
        (sv_index (str2int mem (nmea_tokenizer_get tzer 2).p (nmea_tokenizer_get tzer 2).end_) 3)
        (str2int mem (nmea_tokenizer_get tzer 16).p (nmea_tokenizer_get tzer 16).end_)
      (gsv_mask_step env s.id_in_fixed
        (str2int mem (nmea_tokenizer_get tzer 3).p (nmea_tokenizer_get tzer 3).end_)
        (sv_index (str2int mem (nmea_tokenizer_get tzer 2).p (nmea_tokenizer_get tzer 2).end_) 2)
        (str2int mem (nmea_tokenizer_get tzer 12).p (nmea_tokenizer_get tzer 12).end_)
      (gsv_mask_step env s.id_in_fixed
        (str2int mem (nmea_tokenizer_get tzer 3).p (nmea_tokenizer_get tzer 3).end_)
        (sv_index (str2int mem (nmea_tokenizer_get tzer 2).p (nmea_tokenizer_get tzer 2).end_) 1)
        (str2int mem (nmea_tokenizer_get tzer 8).p (nmea_tokenizer_get tzer 8).end_)
      (gsv_mask_step env s.id_in_fixed
        (str2int mem (nmea_tokenizer_get tzer 3).p (nmea_tokenizer_get tzer 3).end_)
        (sv_index (str2int mem (nmea_tokenizer_get tzer 2).p (nmea_tokenizer_get tzer 2).end_) 0)
        (str2int mem (nmea_tokenizer_get tzer 4).p (nmea_tokenizer_get tzer 4).end_)
        (if str2int mem (nmea_tokenizer_get tzer 2).p (nmea_tokenizer_get tzer 2).end_ = 1 then 0
         else s.r.sv_status.used_in_fix_mask)))) := by
  unfold parse_gsv
  dsimp only
  generalize hs0 : (if str2int mem (nmea_tokenizer_get tzer 2).p (nmea_tokenizer_get tzer 2).end_ = 1 then
        ({ s with r := { s.r with sv_status := { s.r.sv_status with used_in_fix_mask := 0 } } } : State)
       else s) = s0
  have e0 : s0.id_in_fixed = s.id_in_fixed ∧ s0.r.sv_status.sv_list = s.r.sv_status.sv_list ∧
      s0.r.sv_status.used_in_fix_mask =
        (if str2int mem (nmea_tokenizer_get tzer 2).p (nmea_tokenizer_get tzer 2).end_ = 1 then 0
         else s.r.sv_status.used_in_fix_mask) := by
    rw [← hs0]
    split_ifs <;> exact ⟨rfl, rfl, rfl⟩
  obtain ⟨a1, a2, a3, _⟩ := update_svs_steps env mem s0
    (str2int mem (nmea_tokenizer_get tzer 3).p (nmea_tokenizer_get tzer 3).end_)
    (str2int mem (nmea_tokenizer_get tzer 2).p (nmea_tokenizer_get tzer 2).end_) 0
    (nmea_tokenizer_get tzer 4) (nmea_tokenizer_get tzer 5) (nmea_tokenizer_get tzer 6)
    (nmea_tokenizer_get tzer 7)
  generalize nmea_reader_update_svs env mem s0 _ _ 0 _ _ _ _ = s1 at a1 a2 a3 ⊢
  obtain ⟨b1, b2, b3, _⟩ := update_svs_steps env mem s1
    (str2int mem (nmea_tokenizer_get tzer 3).p (nmea_tokenizer_get tzer 3).end_)
    (str2int mem (nmea_tokenizer_get tzer 2).p (nmea_tokenizer_get tzer 2).end_) 1
    (nmea_tokenizer_get tzer 8) (nmea_tokenizer_get tzer 9) (nmea_tokenizer_get tzer 10)
    (nmea_tokenizer_get tzer 11)
  generalize nmea_reader_update_svs env mem s1 _ _ 1 _ _ _ _ = s2 at b1 b2 b3 ⊢
  obtain ⟨c1, c2, c3, _⟩ := update_svs_steps env mem s2
    (str2int mem (nmea_tokenizer_get tzer 3).p (nmea_tokenizer_get tzer 3).end_)
    (str2int mem (nmea_tokenizer_get tzer 2).p (nmea_tokenizer_get tzer 2).end_) 2
    (nmea_tokenizer_get tzer 12) (nmea_tokenizer_get tzer 13) (nmea_tokenizer_get tzer 14)
    (nmea_tokenizer_get tzer 15)
  generalize nmea_reader_update_svs env mem s2 _ _ 2 _ _ _ _ = s3 at c1 c2 c3 ⊢
  obtain ⟨d1, d2, d3, _⟩ := update_svs_steps env mem s3
    (str2int mem (nmea_tokenizer_get tzer 3).p (nmea_tokenizer_get tzer 3).end_)
    (str2int mem (nmea_tokenizer_get tzer 2).p (nmea_tokenizer_get tzer 2).end_) 3
    (nmea_tokenizer_get tzer 16) (nmea_tokenizer_get tzer 17) (nmea_tokenizer_get tzer 18)
    (nmea_tokenizer_get tzer 19)
  generalize nmea_reader_update_svs env mem s3 _ _ 3 _ _ _ _ = s4 at d1 d2 d3 ⊢
  split_ifs <;> refine ⟨?_, rfl, ?_, ?_⟩ <;> dsimp only
  all_goals first
    | rw [d1, c1, b1, a1, e0.1]
    | rw [d2, c2, b2, a2, e0.2.1]
    | rw [d3, c3, b3, a3, c1, b1, a1, e0.1, e0.2.2]
  all_goals try simp only [*, if_true, if_false, not_false_eq_true]

theorem svs_of_append (a b : List Event) : svs_of (a ++ b) = svs_of a ++ svs_of b := by
  unfold svs_of
  rw [List.filterMap_append]

theorem update_svs_snapshot (env : Env) (mem : Nat → Nat) (s : State) (inview num i : Int)
    (prn elevation azimuth snr : Token) :
    ∃ l, (nmea_reader_update_svs env mem s inview num i prn elevation azimuth snr).out = s.out ++ l ∧
      svs_of l = [] := by
  unfold nmea_reader_update_svs
  dsimp only
  split_ifs
  · exact ⟨[], by simp, rfl⟩
  · exact ⟨[Event.sv_out_of_bounds (sv_index num i)], rfl, rfl⟩
  · exact ⟨[], by simp, rfl⟩

theorem parse_gsv_snapshot (env : Env) (mem : Nat → Nat) (tzer : NmeaTokenizer) (s : State) :
    ∃ l, (parse_gsv env mem tzer s).1.out = s.out ++ l ∧
      svs_of l =
        if str2int mem (nmea_tokenizer_get tzer 1).p (nmea_tokenizer_get tzer 1).end_ =
            str2int mem (nmea_tokenizer_get tzer 2).p (nmea_tokenizer_get tzer 2).end_ ∧
            env.sv_status_cb = true then
          [(parse_gsv env mem tzer s).1.r.sv_status]
        else [] := by
  unfold parse_gsv
  dsimp only
  have h0 : (if str2int mem (nmea_tokenizer_get tzer 2).p (nmea_tokenizer_get tzer 2).end_ = 1 then
        ({ s with r := { s.r with sv_status := { s.r.sv_status with used_in_fix_mask := 0 } } } : State)
       else s).out = s.out := by
    split_ifs <;> rfl
  generalize (if str2int mem (nmea_tokenizer_get tzer 2).p (nmea_tokenizer_get tzer 2).end_ = 1 then
        ({ s with r := { s.r with sv_status := { s.r.sv_status with used_in_fix_mask := 0 } } } : State)
       else s) = s0 at h0 ⊢
  obtain ⟨l1, h1, g1⟩ := update_svs_snapshot env mem s0
    (str2int mem (nmea_tokenizer_get tzer 3).p (nmea_tokenizer_get tzer 3).end_)
    (str2int mem (nmea_tokenizer_get tzer 2).p (nmea_tokenizer_get tzer 2).end_) 0
    (nmea_tokenizer_get tzer 4) (nmea_tokenizer_get tzer 5) (nmea_tokenizer_get tzer 6)
    (nmea_tokenizer_get tzer 7)
  generalize nmea_reader_update_svs env mem s0 _ _ 0 _ _ _ _ = s1 at h1 ⊢
  obtain ⟨l2, h2, g2⟩ := update_svs_snapshot env mem s1
    (str2int mem (nmea_tokenizer_get tzer 3).p (nmea_tokenizer_get tzer 3).end_)
    (str2int mem (nmea_tokenizer_get tzer 2).p (nmea_tokenizer_get tzer 2).end_) 1
    (nmea_tokenizer_get tzer 8) (nmea_tokenizer_get tzer 9) (nmea_tokenizer_get tzer 10)
    (nmea_tokenizer_get tzer 11)
  generalize nmea_reader_update_svs env mem s1 _ _ 1 _ _ _ _ = s2 at h2 ⊢
  obtain ⟨l3, h3, g3⟩ := update_svs_snapshot env mem s2
    (str2int mem (nmea_tokenizer_get tzer 3).p (nmea_tokenizer_get tzer 3).end_)
    (str2int mem (nmea_tokenizer_get tzer 2).p (nmea_tokenizer_get tzer 2).end_) 2
    (nmea_tokenizer_get tzer 12) (nmea_tokenizer_get tzer 13) (nmea_tokenizer_get tzer 14)
    (nmea_tokenizer_get tzer 15)
  generalize nmea_reader_update_svs env mem s2 _ _ 2 _ _ _ _ = s3 at h3 ⊢
  obtain ⟨l4, h4, g4⟩ := update_svs_snapshot env mem s3
    (str2int mem (nmea_tokenizer_get tzer 3).p (nmea_tokenizer_get tzer 3).end_)
    (str2int mem (nmea_tokenizer_get tzer 2).p (nmea_tokenizer_get tzer 2).end_) 3
    (nmea_tokenizer_get tzer 16) (nmea_tokenizer_get tzer 17) (nmea_tokenizer_get tzer 18)
    (nmea_tokenizer_get tzer 19)
  generalize nmea_reader_update_svs env mem s3 _ _ 3 _ _ _ _ = s4 at h4 ⊢
  have hout : s4.out = s.out ++ (l1 ++ l2 ++ l3 ++ l4) := by
    rw [h4, h3, h2, h1, h0]
    simp only [List.append_assoc]
  have hsv : svs_of (l1 ++ l2 ++ l3 ++ l4) = [] := by
    rw [svs_of_append, svs_of_append, svs_of_append, g1, g2, g3, g4]
    rfl
  by_cases hN : str2int mem (nmea_tokenizer_get tzer 1).p (nmea_tokenizer_get tzer 1).end_ =
      str2int mem (nmea_tokenizer_get tzer 2).p (nmea_tokenizer_get tzer 2).end_
  · by_cases hcb : env.sv_status_cb = true
    · rw [if_pos hN, if_pos hcb, if_pos ⟨hN, hcb⟩]
      refine ⟨l1 ++ l2 ++ l3 ++ l4 ++ [Event.sv_status
        { s4.r.sv_status with
          num_svs := str2int mem (nmea_tokenizer_get tzer 3).p (nmea_tokenizer_get tzer 3).end_ }],
        ?_, ?_⟩
      · show s4.out ++ _ = _
        rw [hout, List.append_assoc]
      · rw [svs_of_append, hsv]
        rfl
    · rw [if_pos hN, if_neg hcb, if_neg (fun h => hcb h.2)]
      exact ⟨_, hout, hsv⟩
  · rw [if_neg hN, if_neg (fun h => hN h.1)]
    exact ⟨_, hout, hsv⟩

theorem prepare_snapshot (env : Env) (s : State) :
    ∃ l, (nmea_prepare env s).1.out = s.out ++ l ∧ svs_of l = [] := by
  unfold nmea_prepare
  dsimp only
  split_ifs
  · exact ⟨[], by simp, rfl⟩
  · exact ⟨[Event.nmea _ _ _], rfl, rfl⟩
  · exact ⟨[], by simp, rfl⟩
  · exact ⟨[Event.nmea _ _ _], rfl, rfl⟩
  · exact ⟨[], by simp, rfl⟩

theorem parse_of_gsv (env : Env) (s : State) (h : sentence_is env s 71 83 86 = true) :
    nmea_reader_parse env s =
      (parse_gsv env (parse_mem env s) (parse_tzer env s) (nmea_prepare env s).1).1 := by
  have hd := decode_of_gsv env s h
  rw [parse_eq_decode_of_not_send env s (by rw [hd]; exact (parse_gsv_out _ _ _ _).2), hd]

theorem gsv_new_events (env : Env) (s : State) (h : sentence_is env s 71 83 86 = true) :
    svs_of (new_events env s) =
      if field_int env s 1 = field_int env s 2 ∧ env.sv_status_cb = true then
        [(nmea_reader_parse env s).r.sv_status]
      else [] := by
  obtain ⟨l0, e0, g0⟩ := prepare_snapshot env s
  obtain ⟨l, e, g⟩ := parse_gsv_snapshot env (parse_mem env s) (parse_tzer env s)
    (nmea_prepare env s).1
  unfold new_events
  rw [parse_of_gsv env s h, e, e0, List.append_assoc, List.drop_left, svs_of_append, g0, g]
  rfl

theorem sv_index_small (k j : Int) (h1 : 1 ≤ k) (h2 : k ≤ 536870912) (hj0 : 0 ≤ j) (hj : j ≤ 3) :
    sv_index k j = (k - 1) * 4 + j := by
  unfold sv_index
  rw [wrap32_id (k - 1) (by omega) (by omega), wrap32_id ((k - 1) * 4) (by omega) (by omega),
    wrap32_id _ (by omega) (by omega)]

theorem gsv_slots (l : List GpsSvInfo) (k V : Int) (a0 a1 a2 a3 : GpsSvInfo)
    (hk : 1 ≤ k) (hV : V ≤ 12) (hcap : 12 ≤ l.length) :
    (gsv_list_step (gsv_list_step (gsv_list_step (gsv_list_step l V ((k - 1) * 4 + 0) a0)
      V ((k - 1) * 4 + 1) a1) V ((k - 1) * 4 + 2) a2) V ((k - 1) * 4 + 3) a3).length = l.length ∧
    ((k - 1) * 4 + 0 < V →
      (gsv_list_step (gsv_list_step (gsv_list_step (gsv_list_step l V ((k - 1) * 4 + 0) a0)
        V ((k - 1) * 4 + 1) a1) V ((k - 1) * 4 + 2) a2) V ((k - 1) * 4 + 3) a3)[
          ((k - 1) * 4 + 0).toNat]? = some a0) ∧
    ((k - 1) * 4 + 1 < V →
      (gsv_list_step (gsv_list_step (gsv_list_step (gsv_list_step l V ((k - 1) * 4 + 0) a0)
        V ((k - 1) * 4 + 1) a1) V ((k - 1) * 4 + 2) a2) V ((k - 1) * 4 + 3) a3)[
          ((k - 1) * 4 + 1).toNat]? = some a1) ∧
    ((k - 1) * 4 + 2 < V →
      (gsv_list_step (gsv_list_step (gsv_list_step (gsv_list_step l V ((k - 1) * 4 + 0) a0)
        V ((k - 1) * 4 + 1) a1) V ((k - 1) * 4 + 2) a2) V ((k - 1) * 4 + 3) a3)[
          ((k - 1) * 4 + 2).toNat]? = some a2) ∧
    ((k - 1) * 4 + 3 < V →
      (gsv_list_step (gsv_list_step (gsv_list_step (gsv_list_step l V ((k - 1) * 4 + 0) a0)
        V ((k - 1) * 4 + 1) a1) V ((k - 1) * 4 + 2) a2) V ((k - 1) * 4 + 3) a3)[
          ((k - 1) * 4 + 3).toNat]? = some a3) ∧
    (∀ n : Nat,
      (∀ j : Nat, j < 4 → (k - 1) * 4 + (j : Int) < V → (k - 1) * 4 + (j : Int) ≠ (n : Int)) →
      (gsv_list_step (gsv_list_step (gsv_list_step (gsv_list_step l V ((k - 1) * 4 + 0) a0)
        V ((k - 1) * 4 + 1) a1) V ((k - 1) * 4 + 2) a2) V ((k - 1) * 4 + 3) a3)[n]? = l[n]?) := by
  refine ⟨?_, ?_, ?_, ?_, ?_, ?_⟩
  · simp only [gsv_list_step_length]
  · intro h
    simp only [gsv_list_step_getElem, gsv_list_step_length]
    rw [if_neg (by omega), if_neg (by omega), if_neg (by omega), if_pos (by omega)]
  · intro h
    simp only [gsv_list_step_getElem, gsv_list_step_length]
    rw [if_neg (by omega), if_neg (by omega), if_pos (by omega)]
  · intro h
    simp only [gsv_list_step_getElem, gsv_list_step_length]
    rw [if_neg (by omega), if_pos (by omega)]
  · intro h
    simp only [gsv_list_step_getElem, gsv_list_step_length]
    rw [if_pos (by omega)]
  · intro n hn
    have h0 := hn 0 (by omega)
    have h1 := hn 1 (by omega)
    have h2 := hn 2 (by omega)
    have h3 := hn 3 (by omega)
    simp only [Nat.cast_zero, Nat.cast_one, Nat.cast_ofNat] at h0 h1 h2 h3
    simp only [gsv_list_step_getElem, gsv_list_step_length]
    rw [if_neg (fun h => h3 h.1.1 h.2), if_neg (fun h => h2 h.1.1 h.2),
      if_neg (fun h => h1 h.1.1 h.2), if_neg (fun h => h0 h.1.1 h.2)]

/-! ## The used-in-fix mask -/

theorem in_cache_any (ids : List Int) (prn : Int) (os : List Nat) (P : Nat)
    (hP : P < 4294967296) :
    ∀ m : Nat, m < 4294967296 →
      os.foldl (fun (m : Nat) (o : Nat) =>
        if ids.getD o 0 = prn then (m ||| P) % 4294967296 else m) m < 4294967296 ∧
      ∀ b : Nat,
        ((os.foldl (fun (m : Nat) (o : Nat) =>
          if ids.getD o 0 = prn then (m ||| P) % 4294967296 else m) m).testBit b = true ↔
          (m.testBit b = true ∨
            (os.any (fun o => decide (ids.getD o 0 = prn)) = true ∧ P.testBit b = true))) := by
  induction os with
  | nil =>
    intro m hm
    exact ⟨hm, fun b => by simp⟩
  | cons o os ih =>
    intro m hm
    rw [List.foldl_cons, List.any_cons]
    by_cases ho : ids.getD o 0 = prn
    · rw [if_pos ho]
      have hor : m ||| P < 4294967296 := Nat.or_lt_two_pow (n := 32) hm hP
      rw [Nat.mod_eq_of_lt hor]
      obtain ⟨i1, i2⟩ := ih (m ||| P) hor
      refine ⟨i1, fun b => ?_⟩
      rw [i2 b, Nat.testBit_or]
      simp only [ho, decide_True, Bool.true_or, true_and, Bool.or_eq_true]
      tauto
    · rw [if_neg ho]
      obtain ⟨i1, i2⟩ := ih m hm
      refine ⟨i1, fun b => ?_⟩
      rw [i2 b]
      simp only [ho, decide_False, Bool.false_or]

theorem cache_mask_bits (env : Env) (ids : List Int) (prn : Int) (m : Nat)
    (h1 : 1 ≤ prn) (h2 : prn ≤ 32) (hm : m < 4294967296) :
    cache_mask env ids prn m < 4294967296 ∧
    ∀ b : Nat, ((cache_mask env ids prn m).testBit b = true ↔
      (m.testBit b = true ∨ (in_cache ids prn = true ∧ prn = (b : Int) + 1))) := by
  have hsh : shl1 env (wrap32 (prn - 1)) = 2 ^ (prn - 1).toNat := by
    rw [wrap32_id _ (by omega) (by omega)]
    unfold shl1
    rw [if_pos (by omega)]
  have hP : 2 ^ (prn - 1).toNat < 4294967296 := by
    have : (prn - 1).toNat < 32 := by omega
    calc 2 ^ (prn - 1).toNat < 2 ^ 32 := Nat.pow_lt_pow_right (by omega) this
      _ = 4294967296 := by norm_num
  obtain ⟨i1, i2⟩ := in_cache_any ids prn (List.range 12) (2 ^ (prn - 1).toNat) hP m hm
  unfold cache_mask
  rw [hsh]
  refine ⟨i1, fun b => ?_⟩
  rw [i2 b]
  unfold in_cache
  rw [Nat.testBit_two_pow]
  have : ((prn - 1).toNat = b) ↔ prn = (b : Int) + 1 := by omega
  simp only [decide_eq_true_eq, this]

theorem gsv_mask_step_bits (env : Env) (ids : List Int) (V idx prn : Int) (m : Nat)
    (hprn : idx < V → 1 ≤ prn ∧ prn ≤ 32) (hm : m < 4294967296) :
    gsv_mask_step env ids V idx prn m < 4294967296 ∧
    ∀ b : Nat, ((gsv_mask_step env ids V idx prn m).testBit b = true ↔
      (m.testBit b = true ∨ (idx < V ∧ prn = (b : Int) + 1 ∧ in_cache ids prn = true))) := by
  unfold gsv_mask_step
  by_cases hw : idx < V
  · rw [if_pos hw]
    obtain ⟨i1, i2⟩ := cache_mask_bits env ids prn m (hprn hw).1 (hprn hw).2 hm
    refine ⟨i1, fun b => ?_⟩
    rw [i2 b]
    tauto
  · rw [if_neg hw]
    refine ⟨hm, fun b => ?_⟩
    tauto

/-! ## Short lines -/

theorem parse_short (env : Env) (s : State) (h : s.r.pos < 9) : nmea_reader_parse env s = s := by
  have hp : nmea_prepare env s = (s, none) := by
    unfold nmea_prepare
    rw [if_pos h]
  have hd : nmea_decode env s = (s, false) := by
    unfold nmea_decode
    rw [hp]
  unfold nmea_reader_parse
  rw [hd]
  rfl

/-- C21, as the code has it: the test `r->pos < 9` counts the line-feed, so the
lines discarded without decoding are those of fewer than 8 bytes before the
line-feed. For such a line fed to an accumulator with cursor 0 and overflow
clear, nmea_reader_parse is entered once and returns at once: nothing is
delivered to the sink and the fix record, satellite snapshot, date context,
GSA-seen flag and Used-Satellite Cache are unchanged; the cursor is 0
afterwards. -/
theorem C21_short_line (env : Env) (t : State) (line : List Nat)
    (hpos : t.r.pos = 0) (hov : t.r.overflow = false) (hlen : line.length < 8)
    (hnl : ∀ c ∈ line, c ≠ 10) :
    parse_inputs env t (line ++ [10]) = [with_line t line] ∧
    nmea_reader_parse env (with_line t line) = with_line t line ∧
    (feed env t (line ++ [10])).out = t.out ∧
    (feed env t (line ++ [10])).r.fix = t.r.fix ∧
    (feed env t (line ++ [10])).r.sv_status = t.r.sv_status ∧
    (feed env t (line ++ [10])).r.utc_year = t.r.utc_year ∧
    (feed env t (line ++ [10])).r.utc_mon = t.r.utc_mon ∧
    (feed env t (line ++ [10])).r.utc_day = t.r.utc_day ∧
    (feed env t (line ++ [10])).r.gsa = t.r.gsa ∧
    (feed env t (line ++ [10])).id_in_fixed = t.id_in_fixed ∧
    (feed env t (line ++ [10])).r.pos = 0 ∧
    (feed env t (line ++ [10])).r.overflow = false := by
  obtain ⟨f1, f2⟩ := feed_line env t line hpos hov (by omega) hnl
  have hs : nmea_reader_parse env (with_line t line) = with_line t line :=
    parse_short env _ (by show line.length + 1 < 9; omega)
  rw [f2, hs]
  exact ⟨f1, rfl, rfl, rfl, rfl, rfl, rfl, rfl, rfl, rfl, rfl, hov⟩

/-- C21 on the seven-byte line `$GPGSA,` fed to a fresh session. -/
theorem C21_short_line_witness :
    (feed (env_ex true) (state_with [] false 0) ([36, 71, 80, 71, 83, 65, 44] ++ [10])).out = [] ∧
    (feed (env_ex true) (state_with [] false 0) ([36, 71, 80, 71, 83, 65, 44] ++ [10])).r.gsa =
      false :=
  have h := C21_short_line (env_ex true) (state_with [] false 0) [36, 71, 80, 71, 83, 65, 44]
    rfl rfl (by decide) (by decide)
  ⟨h.2.2.1, h.2.2.2.2.2.2.2.2.1⟩

/-- C21 as stated fails on the eight-byte line `$GPGSA,A`: with its line-feed
the cursor is 9, so the sentence is decoded: the raw-sentence echo is delivered
and the GSA-seen flag goes from false to true. -/
theorem C21_counterexample :
    line_eight.length = 8 ∧
    parse_inputs (env_ex true) (state_with [] false 0) (line_eight ++ [10]) =
      [with_line (state_with [] false 0) line_eight] ∧
    (state_with [] false 0).r.gsa = false ∧
    (nmea_reader_parse (env_ex true) (with_line (state_with [] false 0) line_eight)).r.gsa = true ∧
    new_events (env_ex true) (with_line (state_with [] false 0) line_eight) =
      [Event.nmea 0 (line_eight ++ [10]) 9] ∧
    (feed (env_ex true) (state_with [] false 0) (line_eight ++ [10])).r.gsa = true := by
  obtain ⟨f1, f2⟩ := feed_line (env_ex true) (state_with [] false 0) line_eight rfl rfl
    (by decide) (by decide)
  refine ⟨rfl, f1, rfl, by decide, by decide, ?_⟩
  rw [f2]
  show (nmea_reader_parse (env_ex true) (with_line (state_with [] false 0) line_eight)).r.gsa = true
  decide

/-! ## The checksum characters and the tokenizer -/

theorem memchr_shift (mem mem2 : Nat → Nat) (c d e : Nat)
    (hm : ∀ a, a < e → mem2 a = mem (a + d)) :
    ∀ (n p : Nat), p + n ≤ e →
      memchr mem c (p + d) n = (memchr mem2 c p n).map (fun q => q + d) := by
  intro n
  induction n with
  | zero => intro p _; rfl
  | succ n ih =>
    intro p hp
    unfold memchr
    rw [hm p (by omega)]
    by_cases hc : mem (p + d) = c
    · rw [if_pos hc, if_pos hc]
      rfl
    · rw [if_neg hc, if_neg hc]
      have := ih (p + 1) (by omega)
      rw [← this]
      congr 1
      omega

theorem token_push_shift (d p q : Nat) (t t2 : NmeaTokenizer)
    (hc : t.count = t2.count) (ht : t.tokens = t2.tokens.map (shift_token d)) :
    (if t.count < MAX_NMEA_TOKENS then
        ({ count := t.count + 1, tokens := t.tokens ++ [{ p := p + d, end_ := q + d }] } :
          NmeaTokenizer)
      else t).count =
      (if t2.count < MAX_NMEA_TOKENS then
        ({ count := t2.count + 1, tokens := t2.tokens ++ [{ p := p, end_ := q }] } : NmeaTokenizer)
      else t2).count ∧
    (if t.count < MAX_NMEA_TOKENS then
        ({ count := t.count + 1, tokens := t.tokens ++ [{ p := p + d, end_ := q + d }] } :
          NmeaTokenizer)
      else t).tokens =
      (if t2.count < MAX_NMEA_TOKENS then
        ({ count := t2.count + 1, tokens := t2.tokens ++ [{ p := p, end_ := q }] } : NmeaTokenizer)
      else t2).tokens.map (shift_token d) := by
  by_cases hcap : t2.count < MAX_NMEA_TOKENS
  · rw [if_pos (by rw [hc]; exact hcap), if_pos hcap]
    refine ⟨?_, ?_⟩
    · show t.count + 1 = t2.count + 1
      rw [hc]
    · show t.tokens ++ [_] = (t2.tokens ++ [_]).map (shift_token d)
      rw [ht, List.map_append]
      rfl
  · rw [if_neg (by rw [hc]; exact hcap), if_neg hcap]
    exact ⟨hc, ht⟩

theorem tokenize_loop_shift (mem mem2 : Nat → Nat) (d e : Nat)
    (hm : ∀ a, a < e → mem2 a = mem (a + d)) :
    ∀ (fuel p : Nat) (t t2 : NmeaTokenizer),
      t.count = t2.count → t.tokens = t2.tokens.map (shift_token d) →
      (tokenize_loop mem (e + d) fuel (p + d) t).count = (tokenize_loop mem2 e fuel p t2).count ∧
      (tokenize_loop mem (e + d) fuel (p + d) t).tokens =
        (tokenize_loop mem2 e fuel p t2).tokens.map (shift_token d) := by
  intro fuel
  induction fuel with
  | zero =>
    intro p t t2 hc ht
    exact ⟨hc, ht⟩
  | succ fuel ih =>
    intro p t t2 hc ht
    unfold tokenize_loop
    by_cases hp : p < e
    · rw [if_pos hp, if_pos (by omega : p + d < e + d)]
      have hlen : e + d - (p + d) = e - p := by omega
      rw [hlen, memchr_shift mem mem2 44 d e hm (e - p) p (by omega)]
      cases hq : memchr mem2 44 p (e - p) with
      | none =>
        simp only [Option.map_none']
        rw [if_neg (by omega : ¬ e + d < e + d), if_neg (by omega : ¬ e < e)]
        obtain ⟨s1, s2⟩ := token_push_shift d p e t t2 hc ht
        exact ih e _ _ s1 s2
      | some q =>
        simp only [Option.map_some']
        obtain ⟨s1, s2⟩ := token_push_shift d p q t t2 hc ht
        by_cases hqe : q < e
        · rw [if_pos (by omega : q + d < e + d), if_pos hqe]
          have : q + d + 1 = q + 1 + d := by omega
          rw [this]
          exact ih (q + 1) _ _ s1 s2
        · rw [if_neg (by omega : ¬ q + d < e + d), if_neg hqe]
          exact ih q _ _ s1 s2
    · rw [if_neg hp, if_neg (by omega : ¬ p + d < e + d)]
      exact ⟨hc, ht⟩

theorem tok_bytes_shift (mem mem2 : Nat → Nat) (d e : Nat)
    (hm : ∀ a, a < e → mem2 a = mem (a + d)) (tok : Token) (h : tok.end_ ≤ e) :
    tok_bytes mem (shift_token d tok) = tok_bytes mem2 tok := by
  unfold tok_bytes shift_token slice
  dsimp only
  have hl : tok.end_ + d - (tok.p + d) = tok.end_ - tok.p := by omega
  rw [hl]
  apply List.map_congr_left
  intro i hi
  have hi2 : i < tok.end_ - tok.p := List.mem_range.mp hi
  rw [hm (tok.p + i) (by omega)]
  congr 1
  omega

theorem framed_mem (body : List Nat) (c1 c2 : Nat) :
    (framed body c1 c2).length = body.length + 6 ∧
    list_mem (framed body c1 c2) 0 = 36 ∧
    (∀ a, a < body.length → list_mem body a = list_mem (framed body c1 c2) (a + 1)) ∧
    list_mem (framed body c1 c2) (body.length + 1) = 42 ∧
    list_mem (framed body c1 c2) (body.length + 4) = 13 ∧
    list_mem (framed body c1 c2) (body.length + 5) = 10 := by
  have htail : ∀ k, list_mem (framed body c1 c2) (body.length + 1 + k) =
      [42, c1, c2, 13, 10].getD k 0 := by
    intro k
    unfold list_mem framed
    rw [show body.length + 1 + k = (body.length + k) + 1 by omega, List.cons_append,
      List.getD_cons_succ, List.getD_append_right _ _ _ _ (by omega)]
    congr 1
    omega
  refine ⟨?_, rfl, ?_, htail 0, htail 3, htail 4⟩
  · unfold framed
    simp
  · intro a ha
    unfold list_mem framed
    rw [List.cons_append, List.getD_cons_succ, List.getD_append _ _ _ _ ha]

theorem list_mem_mem (l : List Nat) (a : Nat) (h : a < l.length) : list_mem l a ∈ l := by
  unfold list_mem
  rw [List.getD_eq_getElem _ _ h]
  exact List.getElem_mem h

theorem strip_framed (body : List Nat) (c1 c2 : Nat) :
    nmea_strip (list_mem (framed body c1 c2)) 0 (framed body c1 c2).length =
      (1, body.length + 1) := by
  obtain ⟨hl, h0, _, h1, h4, h5⟩ := framed_mem body c1 c2
  unfold nmea_strip
  rw [hl]
  dsimp only
  have e1 : body.length + 6 - 1 = body.length + 5 := by omega
  have e2 : body.length + 5 - 1 = body.length + 4 := by omega
  have e3 : body.length + 4 - 3 = body.length + 1 := by omega
  have c0 : 0 < body.length + 6 ∧ list_mem (framed body c1 c2) 0 = 36 := ⟨by omega, h0⟩
  have c5 : body.length + 6 > 0 + 1 ∧ list_mem (framed body c1 c2) (body.length + 5) = 10 :=
    ⟨by omega, h5⟩
  have c4 : body.length + 5 > 0 + 1 ∧ list_mem (framed body c1 c2) (body.length + 4) = 13 :=
    ⟨by omega, h4⟩
  have c1 : body.length + 4 ≥ 0 + 1 + 3 ∧ list_mem (framed body c1 c2) (body.length + 1) = 42 :=
    ⟨by omega, h1⟩
  rw [if_pos c0]
  simp only [e1, e2]
  rw [if_pos c5, if_pos c4]
  simp only [e3]
  rw [if_pos c1]

theorem strip_body (body : List Nat) (hbody : ∀ b ∈ body, b ≠ 36 ∧ b ≠ 42 ∧ b ≠ 10) :
    nmea_strip (list_mem body) 0 body.length = (0, body.length) := by
  unfold nmea_strip
  dsimp only
  have h1 : ¬ (0 < body.length ∧ list_mem body 0 = 36) := fun h =>
    (hbody _ (list_mem_mem body 0 h.1)).1 h.2
  rw [if_neg h1]
  have h2 : ¬ (body.length > 0 ∧ list_mem body (body.length - 1) = 10) := fun h =>
    (hbody _ (list_mem_mem body (body.length - 1) (by omega))).2.2 h.2
  rw [if_neg h2]
  have h3 : ¬ (body.length ≥ 0 + 3 ∧ list_mem body (body.length - 3) = 42) := fun h =>
    (hbody _ (list_mem_mem body (body.length - 3) (by omega))).2.1 h.2
  rw [if_neg h3]

theorem init_framed (body : List Nat) (c1 c2 : Nat)
    (hbody : ∀ b ∈ body, b ≠ 36 ∧ b ≠ 42 ∧ b ≠ 10) :
    (nmea_tokenizer_init (list_mem (framed body c1 c2)) 0 (framed body c1 c2).length).count =
      (nmea_tokenizer_init (list_mem body) 0 body.length).count ∧
    (nmea_tokenizer_init (list_mem (framed body c1 c2)) 0 (framed body c1 c2).length).tokens.map
        (tok_bytes (list_mem (framed body c1 c2))) =
      (nmea_tokenizer_init (list_mem body) 0 body.length).tokens.map (tok_bytes (list_mem body)) := by
  have hm : ∀ a, a < body.length → list_mem body a = list_mem (framed body c1 c2) (a + 1) :=
    (framed_mem body c1 c2).2.2.1
  have hinv := nmea_tokenizer_init_inv (list_mem body) 0 body.length
  have hb : nmea_tokenizer_init (list_mem body) 0 body.length =
      tokenize_loop (list_mem body) body.length body.length 0 { count := 0, tokens := [] } := by
    unfold nmea_tokenizer_init
    rw [strip_body body hbody]
    rfl
  have hf : nmea_tokenizer_init (list_mem (framed body c1 c2)) 0 (framed body c1 c2).length =
      tokenize_loop (list_mem (framed body c1 c2)) (body.length + 1) body.length (0 + 1)
        { count := 0, tokens := [] } := by
    unfold nmea_tokenizer_init
    rw [strip_framed body c1 c2]
    dsimp only
    rw [Nat.add_sub_cancel]
  obtain ⟨s1, s2⟩ := tokenize_loop_shift (list_mem (framed body c1 c2)) (list_mem body) 1
    body.length hm body.length 0 { count := 0, tokens := [] } { count := 0, tokens := [] } rfl rfl
  rw [hb] at hinv
  rw [hf, hb]
  refine ⟨s1, ?_⟩
  rw [s2, List.map_map]
  apply List.map_congr_left
  intro tok htok
  exact tok_bytes_shift (list_mem (framed body c1 c2)) (list_mem body) 1 body.length hm tok
    (hinv.2.2 tok htok).2.2

/-- C22: for every body without `$`, `*` and line-feed and every two checksum
bytes c1, c2, tokenizing `$` + body + `*` + c1 + c2 + CR LF yields the same
number of fields, with the same contents, as tokenizing the body alone, and
hence the same as with any other pair of checksum bytes d1, d2. -/
theorem C22_checksum_ignored (body : List Nat) (c1 c2 d1 d2 : Nat)
    (hbody : ∀ b ∈ body, b ≠ 36 ∧ b ≠ 42 ∧ b ≠ 10) :
    (nmea_tokenizer_init (list_mem (framed body c1 c2)) 0 (framed body c1 c2).length).count =
      (nmea_tokenizer_init (list_mem body) 0 body.length).count ∧
    (nmea_tokenizer_init (list_mem (framed body c1 c2)) 0 (framed body c1 c2).length).tokens.map
        (tok_bytes (list_mem (framed body c1 c2))) =
      (nmea_tokenizer_init (list_mem body) 0 body.length).tokens.map (tok_bytes (list_mem body)) ∧
    (nmea_tokenizer_init (list_mem (framed body c1 c2)) 0 (framed body c1 c2).length).count =
      (nmea_tokenizer_init (list_mem (framed body d1 d2)) 0 (framed body d1 d2).length).count ∧
    (nmea_tokenizer_init (list_mem (framed body c1 c2)) 0 (framed body c1 c2).length).tokens.map
        (tok_bytes (list_mem (framed body c1 c2))) =
      (nmea_tokenizer_init (list_mem (framed body d1 d2)) 0 (framed body d1 d2).length).tokens.map
        (tok_bytes (list_mem (framed body d1 d2))) := by
  obtain ⟨a1, a2⟩ := init_framed body c1 c2 hbody
  obtain ⟨b1, b2⟩ := init_framed body d1 d2 hbody
  exact ⟨a1, a2, a1.trans b1.symm, a2.trans b2.symm⟩

/-- C22 on the body `GPGGA,1,,3` with the checksum characters `47` and `00`:
three commas, four fields (the third one empty) either way. -/
theorem C22_checksum_ignored_witness :
    (nmea_tokenizer_init (list_mem (framed [71, 80, 71, 71, 65, 44, 49, 44, 44, 51] 52 55)) 0
      (framed [71, 80, 71, 71, 65, 44, 49, 44, 44, 51] 52 55).length).tokens.map
        (tok_bytes (list_mem (framed [71, 80, 71, 71, 65, 44, 49, 44, 44, 51] 52 55))) =
      (nmea_tokenizer_init (list_mem [71, 80, 71, 71, 65, 44, 49, 44, 44, 51]) 0
        [71, 80, 71, 71, 65, 44, 49, 44, 44, 51].length).tokens.map
        (tok_bytes (list_mem [71, 80, 71, 71, 65, 44, 49, 44, 44, 51])) ∧
    (nmea_tokenizer_init (list_mem [71, 80, 71, 71, 65, 44, 49, 44, 44, 51]) 0
        [71, 80, 71, 71, 65, 44, 49, 44, 44, 51].length).tokens.map
        (tok_bytes (list_mem [71, 80, 71, 71, 65, 44, 49, 44, 44, 51])) =
      [[71, 80, 71, 71, 65], [49], [], [51]] :=
  have h := C22_checksum_ignored [71, 80, 71, 71, 65, 44, 49, 44, 44, 51] 52 55 48 48
    (by decide)
  ⟨h.2.1, by decide⟩

/-! ## A line of exactly 255 bytes -/

theorem parse_inputs_single (env : Env) (s : State) (c : Nat) :
    parse_inputs env s [c] = (addc_parse_input s c).toList := by
  show (addc_parse_input s c).toList ++ parse_inputs env (nmea_reader_addc env s c) [] = _
  show (addc_parse_input s c).toList ++ [] = _
  rw [List.append_nil]

theorem feed_single (env : Env) (s : State) (c : Nat) :
    feed env s [c] = nmea_reader_addc env s c := rfl

theorem addc_overflow_lf (env : Env) (s : State) (h : s.r.overflow = true) :
    addc_parse_input s 10 = none ∧
    (nmea_reader_addc env s 10).r.overflow = false ∧
    (nmea_reader_addc env s 10).r.pos = s.r.pos ∧
    (nmea_reader_addc env s 10).out = s.out ∧
    (nmea_reader_addc env s 10).r.gsa = s.r.gsa ∧
    (nmea_reader_addc env s 10).r.fix = s.r.fix := by
  unfold addc_parse_input nmea_reader_addc
  rw [if_pos h, if_pos h]
  exact ⟨rfl, by simp, rfl, rfl, rfl, rfl⟩

theorem addc_full (env : Env) (s : State) (c : Nat) (hov : s.r.overflow = false)
    (hpos : 255 ≤ s.r.pos) :
    addc_parse_input s c = none ∧
    (nmea_reader_addc env s c).r.overflow = true ∧
    (nmea_reader_addc env s c).r.pos = 0 ∧
    (nmea_reader_addc env s c).out = s.out ∧
    (nmea_reader_addc env s c).r.gsa = s.r.gsa ∧
    (nmea_reader_addc env s c).r.fix = s.r.fix := by
  have h1 : ¬ s.r.overflow = true := by rw [hov]; exact Bool.false_ne_true
  have h2 : s.r.pos ≥ NMEA_MAX_SIZE + 1 - 1 := by
    show 255 + 1 - 1 ≤ s.r.pos
    omega
  unfold addc_parse_input nmea_reader_addc
  rw [if_neg h1, if_neg h1, if_pos h2, if_pos h2]
  exact ⟨rfl, rfl, rfl, rfl, rfl, rfl⟩

/-- A line of exactly 255 bytes takes the following line with it: its
line-feed is the byte that finds the buffer full, so it sets the overflow flag
instead of ending the line, and the next line is skipped up to its own
line-feed. -/
theorem feed_255_then_line (env : Env) (s : State) (bytes line : List Nat)
    (hpos : s.r.pos = 0) (hov : s.r.overflow = false)
    (hlen : bytes.length = 255) (hnl : ∀ c ∈ bytes, c ≠ 10) (hnl2 : ∀ c ∈ line, c ≠ 10) :
    (feed env s (bytes ++ [10])).r.overflow = true ∧
    (feed env s (bytes ++ [10])).r.pos = 0 ∧
    parse_inputs env s (bytes ++ [10] ++ (line ++ [10])) = [] ∧
    (feed env s (bytes ++ [10] ++ (line ++ [10]))).out = s.out ∧
    (feed env s (bytes ++ [10] ++ (line ++ [10]))).r.gsa = s.r.gsa ∧
    (feed env s (bytes ++ [10] ++ (line ++ [10]))).r.fix = s.r.fix ∧
    (feed env s (bytes ++ [10] ++ (line ++ [10]))).r.overflow = false ∧
    (feed env s (bytes ++ [10] ++ (line ++ [10]))).r.pos = 0 := by
  obtain ⟨a1, _, a3, _, _, a6, _, a8, a9, _⟩ := feed_no_lf env bytes s hnl
  have a3 := a3 hov (by omega)
  have hov1 : (feed env s bytes).r.overflow = false := by rw [a3]; exact hov
  have hpos1 : 255 ≤ (feed env s bytes).r.pos := by
    rw [a3]
    show 255 ≤ s.r.pos + bytes.length
    omega
  obtain ⟨b1, b2, b3, b4, b5, b6⟩ := addc_full env (feed env s bytes) 10 hov1 hpos1
  have hf1 : feed env s (bytes ++ [10]) = nmea_reader_addc env (feed env s bytes) 10 := by
    rw [feed_append, feed_single]
  obtain ⟨c1, c2, _, _, _, _, _, _, _, _⟩ :=
    feed_no_lf env line (nmea_reader_addc env (feed env s bytes) 10) hnl2
  have c2 := c2 b2
  obtain ⟨d1, d2, d3, d4, d5, d6⟩ :=
    addc_overflow_lf env (nmea_reader_addc env (feed env s bytes) 10) b2
  have hf2 : feed env s (bytes ++ [10] ++ (line ++ [10])) =
      nmea_reader_addc env (nmea_reader_addc env (feed env s bytes) 10) 10 := by
    rw [feed_append, hf1, feed_append, c2, feed_single]
  have hp : parse_inputs env s (bytes ++ [10] ++ (line ++ [10])) = [] := by
    rw [parse_inputs_append, parse_inputs_append, a1, parse_inputs_single, b1, hf1,
      parse_inputs_append, c1, c2, parse_inputs_single, d1]
    rfl
  rw [hf2, hf1]
  exact ⟨b2, b3, hp, by rw [d4, b4, a6], by rw [d5, b5, a9], by rw [d6, b6, a8], d2,
    by rw [d3, b3]⟩

/-- C23 fails at its boundary: after a line of exactly 255 bytes the
accumulator is not resynchronised by that line's line-feed but by the next
one, so the complete line that immediately follows is lost as well. On 255
bytes `A`, a line-feed, the line `$GPGGA,12` and a line-feed, fed to a fresh
session, the decoder is never entered and nothing is delivered, whereas the
same line fed on its own is decoded. -/
theorem C23_line_of_255 :
    (∀ (env : Env) (s : State) (bytes line : List Nat),
      s.r.pos = 0 → s.r.overflow = false → bytes.length = 255 →
      (∀ c ∈ bytes, c ≠ 10) → (∀ c ∈ line, c ≠ 10) →
      (feed env s (bytes ++ [10])).r.overflow = true ∧
      parse_inputs env s (bytes ++ [10] ++ (line ++ [10])) = []) ∧
    (feed (env_ex true) (state_with [] false 0) (List.replicate 255 65 ++ [10])).r.overflow = true ∧
    parse_inputs (env_ex true) (state_with [] false 0)
      (List.replicate 255 65 ++ [10] ++ (line_nine ++ [10])) = [] ∧
    (feed (env_ex true) (state_with [] false 0)
      (List.replicate 255 65 ++ [10] ++ (line_nine ++ [10]))).out = [] ∧
    parse_inputs (env_ex true) (state_with [] false 0) (line_nine ++ [10]) =
      [with_line (state_with [] false 0) line_nine] ∧
    new_events (env_ex true) (with_line (state_with [] false 0) line_nine) =
      [Event.nmea 0 (line_nine ++ [10]) 10, Event.location (state_with [] false 0).r.fix] := by
  have h := feed_255_then_line (env_ex true) (state_with [] false 0) (List.replicate 255 65)
    line_nine rfl rfl (by rw [List.length_replicate])
    (by intro c hc; rw [List.eq_of_mem_replicate hc]; decide) (by decide)
  refine ⟨?_, h.1, h.2.2.1, h.2.2.2.1, ?_, by decide⟩
  · intro env s bytes line hpos hov hlen hnl hnl2
    have g := feed_255_then_line env s bytes line hpos hov hlen hnl hnl2
    exact ⟨g.1, g.2.2.1⟩
  · exact (feed_line (env_ex true) (state_with [] false 0) line_nine rfl rfl (by decide)
      (by decide)).1

/-! ## What a GSA decode leaves in the Used-Satellite Cache -/

theorem prepare_congr (env : Env) (s1 s2 : State) (hr : s1.r = s2.r) :
    (nmea_prepare env s1).2 = (nmea_prepare env s2).2 ∧
    (nmea_prepare env s1).1.r = (nmea_prepare env s2).1.r := by
  unfold nmea_prepare
  dsimp only
  rw [hr]
  split_ifs <;> first | exact ⟨rfl, rfl⟩ | exact ⟨rfl, hr⟩

theorem parse_view_congr (env : Env) (s1 s2 : State) (hr : s1.r = s2.r) :
    parse_mem env s1 = parse_mem env s2 ∧ parse_tzer env s1 = parse_tzer env s2 ∧
    (∀ a b c, sentence_is env s1 a b c = sentence_is env s2 a b c) := by
  obtain ⟨h2, h1⟩ := prepare_congr env s1 s2 hr
  refine ⟨?_, ?_, fun a b c => ?_⟩
  · unfold parse_mem
    rw [h1]
  · unfold parse_tzer
    rw [h2]
  · unfold sentence_is
    rw [h2, h1]

theorem gsa_cache (env : Env) (s : State) (hgsa : sentence_is env s 71 83 65 = true)
    (hflag : s.r.gsa = true) :
    (nmea_reader_parse env s).id_in_fixed =
      gsa_ids (parse_mem env s) (parse_tzer env s) 12 s.id_in_fixed := by
  have hd := decode_of_gsa env s hgsa
  obtain ⟨pg, _, _, _, _, _, pid, _⟩ := prepare_frame env s
  rw [parse_id_in_fixed, hd]
  unfold parse_gsa
  rw [if_pos (by rw [pg, hflag])]
  dsimp only
  rw [pid]

theorem gsa_cache_slot (env : Env) (s : State) (hgsa : sentence_is env s 71 83 65 = true)
    (hflag : s.r.gsa = true) (hlen : s.id_in_fixed.length = 12) (i : Nat) (hi : i < 12) :
    ((field env s (3 + (i : Int))).p < (field env s (3 + (i : Int))).end_ →
      (nmea_reader_parse env s).id_in_fixed[i]? = some (field_int env s (3 + (i : Int)))) ∧
    (¬ (field env s (3 + (i : Int))).p < (field env s (3 + (i : Int))).end_ →
      (nmea_reader_parse env s).id_in_fixed[i]? = s.id_in_fixed[i]?) := by
  rw [gsa_cache env s hgsa hflag, gsa_ids_getElem]
  refine ⟨fun hne => ?_, fun hemp => ?_⟩
  · rw [if_pos ⟨hi, by omega, hne⟩]
    rfl
  · rw [if_neg (fun h => hemp h.2.2)]

/-- C24, as the code has it: a GSA decode with the GSA-seen flag true
overwrites only the cache slots whose satellite-ID field is non-empty. For two
runs on the same reader from different prior caches, a slot whose field 3+i is
non-empty ends equal to str2int of the field in both, and a slot whose field is
empty keeps, in each run, the identifier it held before. -/
theorem C24_cache_after_gsa (env : Env) (s1 s2 : State) (hr : s1.r = s2.r)
    (hgsa : sentence_is env s1 71 83 65 = true) (hflag : s1.r.gsa = true)
    (hl1 : s1.id_in_fixed.length = 12) (hl2 : s2.id_in_fixed.length = 12) :
    ∀ i : Nat, i < 12 →
      ((field env s1 (3 + (i : Int))).p < (field env s1 (3 + (i : Int))).end_ →
        (nmea_reader_parse env s1).id_in_fixed[i]? = some (field_int env s1 (3 + (i : Int))) ∧
        (nmea_reader_parse env s2).id_in_fixed[i]? = some (field_int env s1 (3 + (i : Int)))) ∧
      (¬ (field env s1 (3 + (i : Int))).p < (field env s1 (3 + (i : Int))).end_ →
        (nmea_reader_parse env s1).id_in_fixed[i]? = s1.id_in_fixed[i]? ∧
        (nmea_reader_parse env s2).id_in_fixed[i]? = s2.id_in_fixed[i]?) := by
  intro i hi
  obtain ⟨hm, ht, hs⟩ := parse_view_congr env s1 s2 hr
  have hgsa2 : sentence_is env s2 71 83 65 = true := by rw [← hs]; exact hgsa
  have hflag2 : s2.r.gsa = true := by rw [← hr]; exact hflag
  have hf : ∀ j : Int, field env s2 j = field env s1 j := by
    intro j
    unfold field
    rw [ht]
  have hfi : ∀ j : Int, field_int env s2 j = field_int env s1 j := by
    intro j
    unfold field_int
    rw [hf, hm]
  obtain ⟨a1, a2⟩ := gsa_cache_slot env s1 hgsa hflag hl1 i hi
  obtain ⟨b1, b2⟩ := gsa_cache_slot env s2 hgsa2 hflag2 hl2 i hi
  rw [hf, hfi] at b1
  rw [hf] at b2
  exact ⟨fun h => ⟨a1 h, b1 h⟩, fun h => ⟨a2 h, b2 h⟩⟩

/-- C24 on the GSA sentence whose field 3 is `04` and whose other satellite-ID
fields are empty, from an all-zero cache and from a cache full of 7: slot 0
ends as 4 in both runs. -/
theorem C24_cache_after_gsa_witness :
    (nmea_reader_parse (env_ex true) (state_with line_gsa_2d true 0)).id_in_fixed[0]? =
      some (field_int (env_ex true) (state_with line_gsa_2d true 0) 3) ∧
    (nmea_reader_parse (env_ex true) state_gsa_stale).id_in_fixed[0]? =
      some (field_int (env_ex true) (state_with line_gsa_2d true 0) 3) :=
  (C24_cache_after_gsa (env_ex true) (state_with line_gsa_2d true 0) state_gsa_stale rfl
    (by decide) rfl (by decide) (by decide) 0 (by decide)).1 (by decide)

/-- C24 as stated fails: the same GSA sentence (field 3 is `04`, field 4 is
empty) decoded with the flag true from an all-zero cache and from a cache full
of 7 ends with different caches; slot 1 keeps 0 in one run and 7 in the
other. -/
theorem C24_counterexample :
    state_gsa_stale.r = (state_with line_gsa_2d true 0).r ∧
    sentence_is (env_ex true) (state_with line_gsa_2d true 0) 71 83 65 = true ∧
    (state_with line_gsa_2d true 0).r.gsa = true ∧
    (field (env_ex true) (state_with line_gsa_2d true 0) 4).p =
      (field (env_ex true) (state_with line_gsa_2d true 0) 4).end_ ∧
    (nmea_reader_parse (env_ex true) (state_with line_gsa_2d true 0)).id_in_fixed[1]? = some 0 ∧
    (nmea_reader_parse (env_ex true) state_gsa_stale).id_in_fixed[1]? = some 7 ∧
    (nmea_reader_parse (env_ex true) (state_with line_gsa_2d true 0)).id_in_fixed ≠
      (nmea_reader_parse (env_ex true) state_gsa_stale).id_in_fixed := by
  refine ⟨rfl, by decide, rfl, by decide, by decide, by decide, by decide⟩

/-! ## Over-long coordinate fields -/

theorem str2float_long (env : Env) (mem : Nat → Nat) (p e : Nat) (h : p + 16 ≤ e) :
    str2float env mem p e = 0 := by
  unfold str2float
  rw [if_pos (Or.inr (by omega))]

theorem c_int_zero : c_int 0 = 0 := by
  unfold c_int wrap32
  simp

theorem convert_from_hhmm_long (env : Env) (mem : Nat → Nat) (tok : Token)
    (h : tok.p + 16 ≤ tok.end_) : convert_from_hhmm env mem tok = 0 := by
  unfold convert_from_hhmm
  rw [str2float_long env mem _ _ h]
  simp [c_int_zero]

theorem update_latlong_long (env : Env) (mem : Nat → Nat) (r : NmeaReader)
    (lat : Token) (lath : Nat) (lon : Token) (lonh : Nat)
    (hlat : lat.p + 6 ≤ lat.end_) (hlon : lon.p + 6 ≤ lon.end_) :
    (nmea_reader_update_latlong env mem r lat lath lon lonh).1 = 0 ∧
    (nmea_reader_update_latlong env mem r lat lath lon lonh).2.fix.flags =
      r.fix.flags ||| GPS_LOCATION_HAS_LAT_LONG ∧
    (lat.p + 16 ≤ lat.end_ →
      (nmea_reader_update_latlong env mem r lat lath lon lonh).2.fix.latitude = 0) ∧
    (lon.p + 16 ≤ lon.end_ →
      (nmea_reader_update_latlong env mem r lat lath lon lonh).2.fix.longitude = 0) := by
  unfold nmea_reader_update_latlong
  rw [if_neg (by omega)]
  dsimp only
  rw [if_neg (by omega)]
  refine ⟨rfl, rfl, ?_, ?_⟩
  · intro h
    dsimp only
    rw [convert_from_hhmm_long env mem lat h]
    split_ifs <;> simp
  · intro h
    dsimp only
    rw [convert_from_hhmm_long env mem lon h]
    split_ifs <;> simp

/-- C25, as the code has it: a coordinate field of 16 or more characters is
not treated as "do not update". When both fields have the 6 characters
nmea_reader_update_latlong asks for, a latitude (longitude) field of 16 or more
characters is converted to 0.0, the call returns 0, stores 0.0 as fix.latitude
(fix.longitude) and sets HAS_LAT_LONG. -/
theorem C25_long_coordinate (env : Env) (mem : Nat → Nat) (r : NmeaReader)
    (lat : Token) (lath : Nat) (lon : Token) (lonh : Nat)
    (hlat : lat.p + 6 ≤ lat.end_) (hlon : lon.p + 6 ≤ lon.end_) :
    (nmea_reader_update_latlong env mem r lat lath lon lonh).1 = 0 ∧
    has_flag (nmea_reader_update_latlong env mem r lat lath lon lonh).2.fix.flags
      GPS_LOCATION_HAS_LAT_LONG = true ∧
    (lat.p + 16 ≤ lat.end_ →
      str2float env mem lat.p lat.end_ = 0 ∧
      (nmea_reader_update_latlong env mem r lat lath lon lonh).2.fix.latitude = 0) ∧
    (lon.p + 16 ≤ lon.end_ →
      str2float env mem lon.p lon.end_ = 0 ∧
      (nmea_reader_update_latlong env mem r lat lath lon lonh).2.fix.longitude = 0) := by
  obtain ⟨h1, h2, h3, h4⟩ := update_latlong_long env mem r lat lath lon lonh hlat hlon
  refine ⟨h1, ?_, fun h => ⟨str2float_long env mem _ _ h, h3 h⟩,
    fun h => ⟨str2float_long env mem _ _ h, h4 h⟩⟩
  rw [h2]
  exact has_flag_or_self _ _ (by decide)

/-- C25 on the latitude field `4807.03800000000` (16 characters) with the
longitude field `01131.000`: the call returns 0, sets HAS_LAT_LONG and stores
the latitude 0. -/
theorem C25_long_coordinate_witness :
    (nmea_reader_update_latlong (env_ex true) (list_mem coords_long_lat) (nmea_reader_init 32)
      { p := 0, end_ := 16 } 78 { p := 16, end_ := 25 } 69).1 = 0 ∧
    has_flag (nmea_reader_update_latlong (env_ex true) (list_mem coords_long_lat)
      (nmea_reader_init 32) { p := 0, end_ := 16 } 78 { p := 16, end_ := 25 } 69).2.fix.flags
      GPS_LOCATION_HAS_LAT_LONG = true ∧
    (nmea_reader_update_latlong (env_ex true) (list_mem coords_long_lat) (nmea_reader_init 32)
      { p := 0, end_ := 16 } 78 { p := 16, end_ := 25 } 69).2.fix.latitude = 0 :=
  have h := C25_long_coordinate (env_ex true) (list_mem coords_long_lat) (nmea_reader_init 32)
    { p := 0, end_ := 16 } 78 { p := 16, end_ := 25 } 69 (by decide) (by decide)
  ⟨h.1, h.2.1, (h.2.2.1 (by decide)).2⟩

/-- C25 as stated fails: with a latitude field of 16 characters (which
str2float rejects with 0.0) and HAS_LAT_LONG clear, the call sets HAS_LAT_LONG
and replaces the latitude 48 held by the fix record with 0. -/
theorem C25_counterexample :
    str2float (env_ex true) (list_mem coords_long_lat) 0 16 = 0 ∧
    has_flag (nmea_reader_init 32).fix.flags GPS_LOCATION_HAS_LAT_LONG = false ∧
    has_flag (nmea_reader_update_latlong (env_ex true) (list_mem coords_long_lat)
      { nmea_reader_init 32 with fix := { (nmea_reader_init 32).fix with latitude := 48 } }
      { p := 0, end_ := 16 } 78 { p := 16, end_ := 25 } 69).2.fix.flags
      GPS_LOCATION_HAS_LAT_LONG = true ∧
    (nmea_reader_update_latlong (env_ex true) (list_mem coords_long_lat)
      { nmea_reader_init 32 with fix := { (nmea_reader_init 32).fix with latitude := 48 } }
      { p := 0, end_ := 16 } 78 { p := 16, end_ := 25 } 69).2.fix.latitude = 0 ∧
    ({ nmea_reader_init 32 with fix := { (nmea_reader_init 32).fix with latitude := 48 } } :
      NmeaReader).fix.latitude ≠ 0 := by
  obtain ⟨_, h2, h3, _⟩ := update_latlong_long (env_ex true) (list_mem coords_long_lat)
    { nmea_reader_init 32 with fix := { (nmea_reader_init 32).fix with latitude := 48 } }
    { p := 0, end_ := 16 } 78 { p := 16, end_ := 25 } 69 (by decide) (by decide)
  refine ⟨str2float_long _ _ _ _ (by decide), by decide, ?_, h3 (by decide), ?_⟩
  · rw [h2]
    exact has_flag_or_self _ _ (by decide)
  · show (48 : ℚ) ≠ 0
    norm_num

/-! ## The date of an RMC sentence -/

theorem update_time_date (env : Env) (mem : Nat → Nat) (r : NmeaReader) (tok : Token) (gmt : Int)
    (h : 0 ≤ r.utc_year) :
    (nmea_reader_update_time env mem r tok gmt).2.1.utc_year = r.utc_year ∧
    (nmea_reader_update_time env mem r tok gmt).2.1.utc_mon = r.utc_mon ∧
    (nmea_reader_update_time env mem r tok gmt).2.1.utc_day = r.utc_day := by
  unfold nmea_reader_update_time
  split_ifs
  · exact ⟨rfl, rfl, rfl⟩
  · omega
  · exact ⟨rfl, rfl, rfl⟩

theorem update_date_wrong_length (env : Env) (mem : Nat → Nat) (s : State) (date_tok time_tok : Token)
    (h : date_tok.p + 6 ≠ date_tok.end_) :
    nmea_reader_update_date env mem s date_tok time_tok = (-1, s) := by
  unfold nmea_reader_update_date
  dsimp only
  rw [if_pos h]

theorem update_date_negative (env : Env) (mem : Nat → Nat) (s : State) (date_tok time_tok : Token)
    (h : str2int mem date_tok.p (date_tok.p + 2) < 0 ∨
      str2int mem (date_tok.p + 2) (date_tok.p + 4) < 0) :
    nmea_reader_update_date env mem s date_tok time_tok = (-1, s) := by
  have hor : or3_negative (str2int mem date_tok.p (date_tok.p + 2))
      (str2int mem (date_tok.p + 2) (date_tok.p + 4))
      (wrap32 (str2int mem (date_tok.p + 4) (date_tok.p + 6) + 2000)) = true := by
    unfold or3_negative
    rcases h with h | h
    · exact decide_eq_true (Or.inl h)
    · exact decide_eq_true (Or.inr (Or.inl h))
  unfold nmea_reader_update_date
  dsimp only
  rw [hor]
  by_cases hl : date_tok.p + 6 ≠ date_tok.end_
  · rw [if_pos hl]
  · rw [if_neg hl, if_pos rfl]

theorem update_date_year_sentinel (env : Env) (mem : Nat → Nat) (s : State)
    (date_tok time_tok : Token) (hlen : date_tok.p + 6 = date_tok.end_)
    (hday : 0 ≤ str2int mem date_tok.p (date_tok.p + 2))
    (hmon : 0 ≤ str2int mem (date_tok.p + 2) (date_tok.p + 4))
    (hyear : str2int mem (date_tok.p + 4) (date_tok.p + 6) = -1) :
    (nmea_reader_update_date env mem s date_tok time_tok).2.r.utc_year = 1999 ∧
    (nmea_reader_update_date env mem s date_tok time_tok).2.r.utc_mon =
      str2int mem (date_tok.p + 2) (date_tok.p + 4) ∧
    (nmea_reader_update_date env mem s date_tok time_tok).2.r.utc_day =
      str2int mem date_tok.p (date_tok.p + 2) := by
  unfold nmea_reader_update_date
  dsimp only
  rw [if_neg (by omega), hyear]
  have hw : wrap32 (-1 + 2000) = 1999 := by decide
  rw [hw]
  have hor : or3_negative (str2int mem date_tok.p (date_tok.p + 2))
      (str2int mem (date_tok.p + 2) (date_tok.p + 4)) 1999 = false := by
    unfold or3_negative
    exact decide_eq_false (by omega)
  rw [hor]
  simp only [Bool.false_eq_true, if_false]
  exact update_time_date env mem _ time_tok env.gmt_uninit (by show (0 : Int) ≤ 1999; omega)

/-- C26 fails for a non-digit in the year position. A date field of the wrong
length, or with a non-digit in the day or month position, is rejected with -1
and the state left as it was; but for six bytes whose day and month decode and
whose year position does not (str2int gives -1), the test (day|mon|year) < 0
sees year = -1 + 2000 = 1999: the date is accepted with utc_year 1999. On the
field `2303XX` with time `123519` the call returns 0 and the date context goes
from
year -1, month -1, day -1 to year 1999, month 3, day 23. -/
theorem C26_date_year_sentinel :
    (∀ (env : Env) (mem : Nat → Nat) (s : State) (date_tok time_tok : Token),
      (date_tok.p + 6 ≠ date_tok.end_ ∨
        str2int mem date_tok.p (date_tok.p + 2) < 0 ∨
        str2int mem (date_tok.p + 2) (date_tok.p + 4) < 0) →
      nmea_reader_update_date env mem s date_tok time_tok = (-1, s)) ∧
    (∀ (env : Env) (mem : Nat → Nat) (s : State) (date_tok time_tok : Token),
      date_tok.p + 6 = date_tok.end_ →
      0 ≤ str2int mem date_tok.p (date_tok.p + 2) →
      0 ≤ str2int mem (date_tok.p + 2) (date_tok.p + 4) →
      str2int mem (date_tok.p + 4) (date_tok.p + 6) = -1 →
      (nmea_reader_update_date env mem s date_tok time_tok).2.r.utc_year = 1999) ∧
    str2int (list_mem date_bad_year) 4 6 = -1 ∧
    (state_with [] false 0).r.utc_year = -1 ∧
    (state_with [] false 0).r.utc_mon = -1 ∧
    (state_with [] false 0).r.utc_day = -1 ∧
    (nmea_reader_update_date (env_ex true) (list_mem date_bad_year) (state_with [] false 0)
      { p := 0, end_ := 6 } { p := 6, end_ := 12 }).1 = 0 ∧
    (nmea_reader_update_date (env_ex true) (list_mem date_bad_year) (state_with [] false 0)
      { p := 0, end_ := 6 } { p := 6, end_ := 12 }).2.r.utc_year = 1999 ∧
    (nmea_reader_update_date (env_ex true) (list_mem date_bad_year) (state_with [] false 0)
      { p := 0, end_ := 6 } { p := 6, end_ := 12 }).2.r.utc_mon = 3 ∧
    (nmea_reader_update_date (env_ex true) (list_mem date_bad_year) (state_with [] false 0)
      { p := 0, end_ := 6 } { p := 6, end_ := 12 }).2.r.utc_day = 23 := by
  refine ⟨?_, ?_, by decide, by decide, by decide, by decide, by decide, by decide, by decide,
    by decide⟩
  · intro env mem s date_tok time_tok h
    rcases h with h | h | h
    · exact update_date_wrong_length env mem s date_tok time_tok h
    · exact update_date_negative env mem s date_tok time_tok (Or.inl h)
    · exact update_date_negative env mem s date_tok time_tok (Or.inr h)
  · intro env mem s date_tok time_tok hlen hday hmon hyear
    exact (update_date_year_sentinel env mem s date_tok time_tok hlen hday hmon hyear).1

/-! ## The checksum in closed form -/

theorem csum_succ (msg : List Nat) (n : Nat) :
    gps_dev_calc_ubx_csum msg (n + 1) =
      (((gps_dev_calc_ubx_csum msg n).1 + msg.getD n 0) % 256,
       ((gps_dev_calc_ubx_csum msg n).2 + ((gps_dev_calc_ubx_csum msg n).1 + msg.getD n 0) % 256) % 256) := by
  unfold gps_dev_calc_ubx_csum
  rw [List.range_succ, List.foldl_append]
  rfl

theorem weighted_sum_succ (f : Nat → Nat) (n : Nat) :
    ∑ i ∈ Finset.range (n + 1), (n + 1 - i) * f i =
      ∑ i ∈ Finset.range n, (n - i) * f i + ∑ i ∈ Finset.range (n + 1), f i := by
  rw [Finset.sum_range_succ, Finset.sum_range_succ (fun i => f i)]
  have h : ∑ i ∈ Finset.range n, (n + 1 - i) * f i =
      ∑ i ∈ Finset.range n, (n - i) * f i + ∑ i ∈ Finset.range n, f i := by
    rw [← Finset.sum_add_distrib]
    apply Finset.sum_congr rfl
    intro i hi
    have hi2 : i < n := Finset.mem_range.mp hi
    have : n + 1 - i = (n - i) + 1 := by omega
    rw [this]
    ring
  rw [h]
  have : n + 1 - n = 1 := by omega
  rw [this]
  ring

/-- C27: for every message and every size n, gps_dev_calc_ubx_csum returns
ckA = (sum of the n bytes) mod 256 and ckB = (sum of (n - i) * b_i) mod 256,
the 8-bit Fletcher checksum in closed form; for the whole message ckA is the
sum of the list mod 256. -/
theorem C27_fletcher_closed_form (msg : List Nat) :
    (∀ n : Nat, gps_dev_calc_ubx_csum msg n =
      ((∑ i ∈ Finset.range n, msg.getD i 0) % 256,
       (∑ i ∈ Finset.range n, (n - i) * msg.getD i 0) % 256)) ∧
    (gps_dev_calc_ubx_csum msg msg.length).1 = msg.sum % 256 := by
  have hall : ∀ n : Nat, gps_dev_calc_ubx_csum msg n =
      ((∑ i ∈ Finset.range n, msg.getD i 0) % 256,
       (∑ i ∈ Finset.range n, (n - i) * msg.getD i 0) % 256) := by
    intro n
    induction n with
    | zero => rfl
    | succ n ih =>
      rw [csum_succ, ih]
      dsimp only
      rw [weighted_sum_succ, Finset.sum_range_succ (fun i => msg.getD i 0)]
      refine Prod.ext ?_ ?_
      · dsimp only
        omega
      · dsimp only
        omega
  refine ⟨hall, ?_⟩
  rw [hall]
  dsimp only
  congr 1
  have : ∀ l : List Nat, ∑ i ∈ Finset.range l.length, l.getD i 0 = l.sum := by
    intro l
    induction l with
    | nil => rfl
    | cons a l ih =>
      rw [List.length_cons, Finset.sum_range_succ', List.sum_cons]
      simp only [List.getD_cons_succ, List.getD_cons_zero]
      rw [ih, Nat.add_comm]
  exact this msg

/-! ## The cursor stays inside the sentence buffer -/

theorem update_time_in (env : Env) (mem : Nat → Nat) (r : NmeaReader) (tok : Token) (gmt : Int) :
    (nmea_reader_update_time env mem r tok gmt).2.1.in_ = r.in_ := by
  unfold nmea_reader_update_time
  split_ifs <;> rfl

theorem update_latlong_in (env : Env) (mem : Nat → Nat) (r : NmeaReader)
    (lat : Token) (lath : Nat) (lon : Token) (lonh : Nat) :
    (nmea_reader_update_latlong env mem r lat lath lon lonh).2.in_ = r.in_ := by
  unfold nmea_reader_update_latlong
  split_ifs <;> rfl

theorem update_altitude_in (env : Env) (mem : Nat → Nat) (r : NmeaReader) (a u : Token) :
    (nmea_reader_update_altitude env mem r a u).2.in_ = r.in_ := by
  unfold nmea_reader_update_altitude
  split_ifs <;> rfl

theorem update_accuracy_in (env : Env) (mem : Nat → Nat) (r : NmeaReader) (a : Token) (f : Bool) :
    (nmea_reader_update_accuracy env mem r a f).2.in_ = r.in_ := by
  unfold nmea_reader_update_accuracy
  dsimp only
  split_ifs <;> rfl

theorem update_bearing_in (env : Env) (mem : Nat → Nat) (r : NmeaReader) (b : Token) :
    (nmea_reader_update_bearing env mem r b).2.in_ = r.in_ := by
  unfold nmea_reader_update_bearing
  split_ifs <;> rfl

theorem update_speed_in (env : Env) (mem : Nat → Nat) (r : NmeaReader) (b : Token) :
    (nmea_reader_update_speed env mem r b).2.in_ = r.in_ := by
  unfold nmea_reader_update_speed
  split_ifs <;> rfl

theorem update_date_in (env : Env) (mem : Nat → Nat) (s : State) (d t : Token) :
    (nmea_reader_update_date env mem s d t).2.r.in_ = s.r.in_ := by
  unfold nmea_reader_update_date
  dsimp only
  split_ifs <;> first | rfl | exact update_time_in env mem _ t env.gmt_uninit

theorem update_svs_in (env : Env) (mem : Nat → Nat) (s : State) (inview num i : Int)
    (prn elevation azimuth snr : Token) :
    (nmea_reader_update_svs env mem s inview num i prn elevation azimuth snr).r.in_ = s.r.in_ := by
  unfold nmea_reader_update_svs
  dsimp only
  split_ifs <;> rfl

theorem parse_gga_in (env : Env) (mem : Nat → Nat) (tzer : NmeaTokenizer) (s : State) :
    (parse_gga env mem tzer s).1.r.in_ = s.r.in_ := by
  unfold parse_gga
  dsimp only
  split_ifs
  · show (nmea_reader_update_accuracy env mem _ _ _).2.in_ = _
    rw [update_accuracy_in, update_altitude_in, update_latlong_in, update_time_in]
  · show (nmea_reader_update_altitude env mem _ _ _).2.in_ = _
    rw [update_altitude_in, update_latlong_in, update_time_in]
  · show (nmea_reader_update_accuracy env mem _ _ _).2.in_ = _
    rw [update_accuracy_in]
  · rfl

theorem parse_gsa_in (env : Env) (mem : Nat → Nat) (tzer : NmeaTokenizer) (s : State) :
    (parse_gsa env mem tzer s).1.r.in_ = s.r.in_ := by
  unfold parse_gsa
  dsimp only
  split_ifs
  · show (nmea_reader_update_accuracy env mem _ _ _).2.in_ = _
    rw [update_accuracy_in]
  · show (nmea_reader_update_accuracy env mem _ _ _).2.in_ = _
    rw [update_accuracy_in]
  · rfl

theorem parse_gsv_in (env : Env) (mem : Nat → Nat) (tzer : NmeaTokenizer) (s : State) :
    (parse_gsv env mem tzer s).1.r.in_ = s.r.in_ := by
  unfold parse_gsv
  dsimp only
  have h0 : (if str2int mem (nmea_tokenizer_get tzer 2).p (nmea_tokenizer_get tzer 2).end_ = 1 then
        ({ s with r := { s.r with sv_status := { s.r.sv_status with used_in_fix_mask := 0 } } } : State)
       else s).r.in_ = s.r.in_ := by
    split_ifs <;> rfl
  generalize (if str2int mem (nmea_tokenizer_get tzer 2).p (nmea_tokenizer_get tzer 2).end_ = 1 then
        ({ s with r := { s.r with sv_status := { s.r.sv_status with used_in_fix_mask := 0 } } } : State)
       else s) = s0 at h0 ⊢
  have h1 := update_svs_in env mem s0
    (str2int mem (nmea_tokenizer_get tzer 3).p (nmea_tokenizer_get tzer 3).end_)
    (str2int mem (nmea_tokenizer_get tzer 2).p (nmea_tokenizer_get tzer 2).end_) 0
    (nmea_tokenizer_get tzer 4) (nmea_tokenizer_get tzer 5) (nmea_tokenizer_get tzer 6)
    (nmea_tokenizer_get tzer 7)
  generalize nmea_reader_update_svs env mem s0 _ _ 0 _ _ _ _ = s1 at h1 ⊢
  have h2 := update_svs_in env mem s1
    (str2int mem (nmea_tokenizer_get tzer 3).p (nmea_tokenizer_get tzer 3).end_)
    (str2int mem (nmea_tokenizer_get tzer 2).p (nmea_tokenizer_get tzer 2).end_) 1
    (nmea_tokenizer_get tzer 8) (nmea_tokenizer_get tzer 9) (nmea_tokenizer_get tzer 10)
    (nmea_tokenizer_get tzer 11)
  generalize nmea_reader_update_svs env mem s1 _ _ 1 _ _ _ _ = s2 at h2 ⊢
  have h3 := update_svs_in env mem s2
    (str2int mem (nmea_tokenizer_get tzer 3).p (nmea_tokenizer_get tzer 3).end_)
    (str2int mem (nmea_tokenizer_get tzer 2).p (nmea_tokenizer_get tzer 2).end_) 2
    (nmea_tokenizer_get tzer 12) (nmea_tokenizer_get tzer 13) (nmea_tokenizer_get tzer 14)
    (nmea_tokenizer_get tzer 15)
  generalize nmea_reader_update_svs env mem s2 _ _ 2 _ _ _ _ = s3 at h3 ⊢
  have h4 := update_svs_in env mem s3
    (str2int mem (nmea_tokenizer_get tzer 3).p (nmea_tokenizer_get tzer 3).end_)
    (str2int mem (nmea_tokenizer_get tzer 2).p (nmea_tokenizer_get tzer 2).end_) 3
    (nmea_tokenizer_get tzer 16) (nmea_tokenizer_get tzer 17) (nmea_tokenizer_get tzer 18)
    (nmea_tokenizer_get tzer 19)
  generalize nmea_reader_update_svs env mem s3 _ _ 3 _ _ _ _ = s4 at h4 ⊢
  have h : s4.r.in_ = s.r.in_ := by rw [h4, h3, h2, h1, h0]
  split_ifs <;> exact h

theorem parse_rmc_in (env : Env) (mem : Nat → Nat) (tzer : NmeaTokenizer) (s : State) :
    (parse_rmc env mem tzer s).1.r.in_ = s.r.in_ := by
  unfold parse_rmc
  dsimp only
  split_ifs
  · show (nmea_reader_update_speed env mem _ _).2.in_ = _
    rw [update_speed_in, update_bearing_in, update_latlong_in, update_date_in]
  · rfl

theorem parse_vtg_in (env : Env) (mem : Nat → Nat) (tzer : NmeaTokenizer) (s : State) :
    (parse_vtg env mem tzer s).1.r.in_ = s.r.in_ := by
  unfold parse_vtg
  dsimp only
  split_ifs
  · show (nmea_reader_update_speed env mem _ _).2.in_ = _
    rw [update_speed_in, update_bearing_in]
  · rfl

theorem prepare_in_length (env : Env) (s : State) :
    (nmea_prepare env s).1.r.in_.length = s.r.in_.length := by
  unfold nmea_prepare
  dsimp only
  split_ifs <;> first | rfl | exact List.length_set _ _ _

theorem parse_in_length (env : Env) (s : State) :
    (nmea_reader_parse env s).r.in_.length = s.r.in_.length := by
  have hd : (nmea_decode env s).1.r.in_.length = s.r.in_.length := by
    rw [decode_dispatch]
    split_ifs
    · rw [parse_gga_in, prepare_in_length]
    · rw [parse_gsa_in, prepare_in_length]
    · rw [parse_gsv_in, prepare_in_length]
    · rw [parse_rmc_in, prepare_in_length]
    · rw [parse_vtg_in, prepare_in_length]
    · exact prepare_in_length env s
  rw [parse_reader]
  split_ifs
  · exact hd
  · exact hd

theorem addc_cursor (env : Env) (s : State) (c : Nat)
    (hpos : s.r.pos ≤ 255) (hbuf : s.r.in_.length = 256) :
    (nmea_reader_addc env s c).r.pos ≤ 255 ∧
    (nmea_reader_addc env s c).r.in_.length = 256 ∧
    (∀ u, addc_parse_input s c = some u →
      s.r.pos < 255 ∧ u.r.pos = s.r.pos + 1 ∧ u.r.in_.length = 256) := by
  unfold nmea_reader_addc addc_parse_input
  by_cases hov : s.r.overflow = true
  · rw [if_pos hov, if_pos hov]
    exact ⟨hpos, hbuf, fun u h => by cases h⟩
  · rw [if_neg hov, if_neg hov]
    by_cases hfull : s.r.pos ≥ NMEA_MAX_SIZE + 1 - 1
    · rw [if_pos hfull, if_pos hfull]
      exact ⟨Nat.zero_le _, hbuf, fun u h => by cases h⟩
    · rw [if_neg hfull, if_neg hfull]
      have hlt : s.r.pos < 255 := by
        have : ¬ (255 + 1 - 1 ≤ s.r.pos) := hfull
        omega
      dsimp only
      by_cases hc : c = 10
      · rw [if_pos hc, if_pos hc]
        refine ⟨Nat.zero_le _, ?_, ?_⟩
        · show (nmea_reader_parse env _).r.in_.length = 256
          rw [parse_in_length]
          show (s.r.in_.set s.r.pos c).length = 256
          rw [List.length_set, hbuf]
        · intro u hu
          cases hu
          refine ⟨hlt, rfl, ?_⟩
          show (s.r.in_.set s.r.pos c).length = 256
          rw [List.length_set, hbuf]
      · rw [if_neg hc, if_neg hc]
        refine ⟨?_, ?_, fun u h => by cases h⟩
        · show s.r.pos + 1 ≤ 255
          omega
        · show (s.r.in_.set s.r.pos c).length = 256
          rw [List.length_set, hbuf]

theorem feed_cursor (env : Env) (bytes : List Nat) :
    ∀ s : State, s.r.pos ≤ 255 → s.r.in_.length = 256 →
      (feed env s bytes).r.pos ≤ 255 ∧
      (feed env s bytes).r.in_.length = 256 ∧
      (∀ u ∈ parse_inputs env s bytes,
        1 ≤ u.r.pos ∧ u.r.pos ≤ 255 ∧ u.r.in_.length = 256) := by
  induction bytes with
  | nil =>
    intro s hpos hbuf
    exact ⟨hpos, hbuf, fun u hu => by cases hu⟩
  | cons c cs ih =>
    intro s hpos hbuf
    obtain ⟨a1, a2, a3⟩ := addc_cursor env s c hpos hbuf
    obtain ⟨i1, i2, i3⟩ := ih (nmea_reader_addc env s c) a1 a2
    refine ⟨i1, i2, ?_⟩
    intro u hu
    have hu2 : u ∈ (addc_parse_input s c).toList ++
        parse_inputs env (nmea_reader_addc env s c) cs := hu
    rcases List.mem_append.mp hu2 with h | h
    · have hs : addc_parse_input s c = some u := by
        cases hq : addc_parse_input s c with
        | none => rw [hq] at h; cases h
        | some v =>
          rw [hq] at h
          have : u = v := by simpa using h
          rw [this]
      obtain ⟨b1, b2, b3⟩ := a3 u hs
      exact ⟨by omega, by omega, b3⟩
    · exact i3 u h

/-- C28: for every byte sequence fed to nmea_reader_addc from a reader with
cursor at most 255 and a 256-byte buffer (an initialised reader has cursor 0),
the cursor is at most 255 after every byte and the buffer keeps its 256 bytes;
every state in which nmea_reader_parse is entered has its cursor in 1 .. 255,
so the NUL it stores at in[pos], like the byte nmea_reader_addc appends at a
cursor below 255, lands inside the buffer. -/
theorem C28_cursor_bound (env : Env) (s : State) (bytes : List Nat)
    (hpos : s.r.pos ≤ 255) (hbuf : s.r.in_.length = 256) :
    (∀ k : Nat, (feed env s (bytes.take k)).r.pos ≤ 255 ∧
      (feed env s (bytes.take k)).r.in_.length = 256 ∧
      (∀ c u, addc_parse_input (feed env s (bytes.take k)) c = some u →
        (feed env s (bytes.take k)).r.pos < 255)) ∧
    (feed env s bytes).r.pos ≤ 255 ∧
    (∀ u ∈ parse_inputs env s bytes,
      u.r.pos ≤ 255 ∧ u.r.pos < u.r.in_.length ∧ u.r.in_.length = NMEA_MAX_SIZE + 1) := by
  refine ⟨fun k => ?_, (feed_cursor env bytes s hpos hbuf).1, fun u hu => ?_⟩
  · obtain ⟨a1, a2, _⟩ := feed_cursor env (bytes.take k) s hpos hbuf
    refine ⟨a1, a2, fun c u h => ?_⟩
    exact ((addc_cursor env _ c a1 a2).2.2 u h).1
  · obtain ⟨b1, b2, b3⟩ := (feed_cursor env bytes s hpos hbuf).2.2 u hu
    exact ⟨b2, by omega, b3⟩

/-- C28 on 300 bytes `A` followed by the line `$GPGGA,12` and a line-feed, fed
to a fresh reader: the cursor ends at most 255 and every entry of the decoder
has its cursor inside the buffer. -/
theorem C28_cursor_bound_witness :
    (state_with [] false 0).r.pos = 0 ∧
    (feed (env_ex true) (state_with [] false 0)
      (List.replicate 300 65 ++ (line_nine ++ [10]))).r.pos ≤ 255 ∧
    (∀ u ∈ parse_inputs (env_ex true) (state_with [] false 0)
        (List.replicate 300 65 ++ (line_nine ++ [10])),
      u.r.pos ≤ 255 ∧ u.r.pos < u.r.in_.length ∧ u.r.in_.length = NMEA_MAX_SIZE + 1) :=
  have h := C28_cursor_bound (env_ex true) (state_with [] false 0)
    (List.replicate 300 65 ++ (line_nine ++ [10])) (by decide) (state_with_nil_in_length false 0)
  ⟨rfl, h.2.1, h.2.2⟩

/-! ## The slot index of a GSV sentence -/

theorem update_svs_outside (env : Env) (mem : Nat → Nat) (s : State) (inview num i : Int)
    (prn elevation azimuth snr : Token)
    (hw : sv_index num i < inview)
    (hout : ¬ (0 ≤ sv_index num i ∧ sv_index num i < (s.r.sv_status.sv_list.length : Int))) :
    (nmea_reader_update_svs env mem s inview num i prn elevation azimuth snr).out =
      s.out ++ [Event.sv_out_of_bounds (sv_index num i)] := by
  unfold nmea_reader_update_svs
  dsimp only
  rw [if_pos hw, if_neg hout]

/-- C29 fails on a GSV sentence whose message index is 0 (or empty, which
str2int also reads as 0): the slot index (0 - 1) * 4 + j is negative, hence
below the in-view total, and nmea_reader_update_svs stores to sv_list[-4 + j].
In general the store of a call with index below the in-view total and outside
0 .. capacity - 1 is not guarded; on `$GPGSV,1,0,1,04,77,000,45` the four
calls store at the indices -4, -3, -2 and -1. -/
theorem C29_gsv_index_outside :
    (∀ (env : Env) (mem : Nat → Nat) (s : State) (inview num i : Int)
        (prn elevation azimuth snr : Token),
      sv_index num i < inview →
      ¬ (0 ≤ sv_index num i ∧ sv_index num i < (s.r.sv_status.sv_list.length : Int)) →
      (nmea_reader_update_svs env mem s inview num i prn elevation azimuth snr).out =
        s.out ++ [Event.sv_out_of_bounds (sv_index num i)]) ∧
    sentence_is (env_ex true) (state_with line_gsv_zero false 0) 71 83 86 = true ∧
    field_int (env_ex true) (state_with line_gsv_zero false 0) 2 = 0 ∧
    field_int (env_ex true) (state_with line_gsv_zero false 0) 3 = 1 ∧
    sv_index 0 0 = -4 ∧
    oob_of (new_events (env_ex true) (state_with line_gsv_zero false 0)) = [-4, -3, -2, -1] := by
  refine ⟨?_, by decide, by decide, by decide, by decide, by decide⟩
  intro env mem s inview num i prn elevation azimuth snr hw hout
  exact update_svs_outside env mem s inview num i prn elevation azimuth snr hw hout

/-! ## The GSA-seen flag across a session -/

/-- C9 fails for its last part. A GSA sentence decoded while the GSA-seen flag
is false leaves the whole fix record unchanged, pushes no fix and sets the
flag; and the flag stays true across every later call of nmea_reader_parse and
every later sequence of bytes during which no store falls outside the
satellite array. But a later GSV sentence with message index 0 makes
nmea_reader_update_svs store to sv_list[-4] .. sv_list[-1], in front of the
array, where the reader keeps the fix record and the flag: fed to a fresh
reader, the first GSA line sets the flag and the line
`$GPGSV,1,0,1,04,77,000,45` that follows makes these four stores. -/
theorem C9_first_gsa :
    (∀ (env : Env) (s : State), sentence_is env s 71 83 65 = true → s.r.gsa = false →
      (nmea_reader_parse env s).r.fix = s.r.fix ∧
      pushed_fixes env s = [] ∧
      (nmea_reader_parse env s).r.gsa = true) ∧
    (∀ (env : Env) (s : State), s.r.gsa = true → oob_of (new_events env s) = [] →
      (nmea_reader_parse env s).r.gsa = true) ∧
    (∀ (env : Env) (s : State) (bytes : List Nat), s.r.gsa = true →
      oob_of (fed_events env s bytes) = [] → (feed env s bytes).r.gsa = true) ∧
    (state_with [] false 0).r.gsa = false ∧
    (feed (env_ex true) (state_with [] false 0) line_gsa_2d).r.gsa = true ∧
    oob_of (fed_events (env_ex true) (state_with [] false 0) line_gsa_2d) = [] ∧
    oob_of (fed_events (env_ex true) (state_with [] false 0) (line_gsa_2d ++ line_gsv_zero)) =
      [-4, -3, -2, -1] := by
  refine ⟨?_, fun env s h _ => parse_gsa_mono env s h,
    fun env s bytes h _ => feed_gsa_mono env bytes s h, rfl, ?_, ?_, ?_⟩
  · intro env s hgsa hg
    have hd := decode_of_gsa env s hgsa
    obtain ⟨pg, pf, _⟩ := prepare_frame env s
    rw [parse_gsa_first _ _ _ _ (by rw [pg, hg])] at hd
    have hsend : ¬ ((nmea_decode env s).2 = true ∧ env.location_cb = true) := by
      rw [hd]; simp
    rw [parse_reader, pushed_fixes_eq, if_neg hsend, if_neg hsend, hd]
    exact ⟨pf, rfl, rfl⟩
  · set_option maxRecDepth 100000 in decide
  · set_option maxRecDepth 100000 in decide
  · set_option maxRecDepth 100000 in decide

/-! ## GSV slots and the range of the message index -/

/-- C12, as the code has it: the slot index (k-1)*4+j is computed in int, so
the claim needs a message index for which it does not overflow. For a GSV
sentence with message count N (field 1), message index 1 <= k <= 2^29 (field 2)
and in-view total V <= 12 (field 3), decoded by nmea_reader_parse into a
satellite array of at least 12 slots: for each position j in 0..3 with
(k-1)*4+j < V the slot (k-1)*4+j holds the identifier, elevation, azimuth and
SNR of fields 4+4j .. 7+4j; every slot that is not one of those is unchanged;
num_svs becomes V; and the snapshot is delivered to the satellite-status
callback exactly when k = N and the callback is registered. -/
theorem C12_gsv_slots (env : Env) (s : State)
    (hgsv : sentence_is env s 71 83 86 = true)
    (hk1 : 1 ≤ field_int env s 2) (hk2 : field_int env s 2 ≤ 536870912)
    (hV : field_int env s 3 ≤ 12)
    (hcap : 12 ≤ s.r.sv_status.sv_list.length) :
    (∀ j : Nat, j < 4 → (field_int env s 2 - 1) * 4 + (j : Int) < field_int env s 3 →
      (nmea_reader_parse env s).r.sv_status.sv_list[
        ((field_int env s 2 - 1) * 4 + (j : Int)).toNat]? = some (gsv_info env s j)) ∧
    (∀ n : Nat,
      (∀ j : Nat, j < 4 → (field_int env s 2 - 1) * 4 + (j : Int) < field_int env s 3 →
        (field_int env s 2 - 1) * 4 + (j : Int) ≠ (n : Int)) →
      (nmea_reader_parse env s).r.sv_status.sv_list[n]? = s.r.sv_status.sv_list[n]?) ∧
    (nmea_reader_parse env s).r.sv_status.sv_list.length = s.r.sv_status.sv_list.length ∧
    (nmea_reader_parse env s).r.sv_status.num_svs = field_int env s 3 ∧
    svs_of (new_events env s) =
      (if field_int env s 1 = field_int env s 2 ∧ env.sv_status_cb = true then
        [(nmea_reader_parse env s).r.sv_status]
       else []) := by
  obtain ⟨_, hnum, hlist, _⟩ :=
    parse_gsv_spec env (parse_mem env s) (parse_tzer env s) (nmea_prepare env s).1
  rw [(prepare_frame env s).2.2.2.2.2.1] at hlist
  have hpar := parse_of_gsv env s hgsv
  have hkk : str2int (parse_mem env s) (nmea_tokenizer_get (parse_tzer env s) 2).p
      (nmea_tokenizer_get (parse_tzer env s) 2).end_ = field_int env s 2 := rfl
  have hVV : str2int (parse_mem env s) (nmea_tokenizer_get (parse_tzer env s) 3).p
      (nmea_tokenizer_get (parse_tzer env s) 3).end_ = field_int env s 3 := rfl
  rw [hkk, hVV, sv_index_small _ 0 hk1 hk2 (by omega) (by omega),
    sv_index_small _ 1 hk1 hk2 (by omega) (by omega),
    sv_index_small _ 2 hk1 hk2 (by omega) (by omega),
    sv_index_small _ 3 hk1 hk2 (by omega) (by omega)] at hlist
  rw [hVV] at hnum
  obtain ⟨g0, g1, g2, g3, g4, g5⟩ := gsv_slots s.r.sv_status.sv_list (field_int env s 2)
    (field_int env s 3)
    (sv_info env (parse_mem env s) (nmea_tokenizer_get (parse_tzer env s) 4)
      (nmea_tokenizer_get (parse_tzer env s) 5) (nmea_tokenizer_get (parse_tzer env s) 6)
      (nmea_tokenizer_get (parse_tzer env s) 7))
    (sv_info env (parse_mem env s) (nmea_tokenizer_get (parse_tzer env s) 8)
      (nmea_tokenizer_get (parse_tzer env s) 9) (nmea_tokenizer_get (parse_tzer env s) 10)
      (nmea_tokenizer_get (parse_tzer env s) 11))
    (sv_info env (parse_mem env s) (nmea_tokenizer_get (parse_tzer env s) 12)
      (nmea_tokenizer_get (parse_tzer env s) 13) (nmea_tokenizer_get (parse_tzer env s) 14)
      (nmea_tokenizer_get (parse_tzer env s) 15))
    (sv_info env (parse_mem env s) (nmea_tokenizer_get (parse_tzer env s) 16)
      (nmea_tokenizer_get (parse_tzer env s) 17) (nmea_tokenizer_get (parse_tzer env s) 18)
      (nmea_tokenizer_get (parse_tzer env s) 19))
    hk1 hV hcap
  rw [← hlist, ← hpar] at g0 g1 g2 g3 g4 g5
  rw [← hpar] at hnum
  refine ⟨?_, g5, g0, hnum, gsv_new_events env s hgsv⟩
  intro j hj hw
  have hj4 : j = 0 ∨ j = 1 ∨ j = 2 ∨ j = 3 := by omega
  rcases hj4 with h | h | h | h <;> subst h
  · exact g1 hw
  · exact g2 hw
  · exact g3 hw
  · exact g4 hw

/-- C12 on a cycle of two GSV messages with five satellites: nothing is
delivered after message 1; after message 2 the snapshot is delivered with
num_svs = 5 and slot 4 holding satellite 12. -/
theorem C12_gsv_slots_witness :
    svs_of (new_events (env_ex true) (state_with line_gsv_1 false 0)) = [] ∧
    svs_of (new_events (env_ex true) gsv_cycle_second) =
      [(nmea_reader_parse (env_ex true) gsv_cycle_second).r.sv_status] ∧
    (nmea_reader_parse (env_ex true) gsv_cycle_second).r.sv_status.num_svs = 5 ∧
    (nmea_reader_parse (env_ex true) gsv_cycle_second).r.sv_status.sv_list[4]? =
      some (gsv_info (env_ex true) gsv_cycle_second 0) ∧
    (gsv_info (env_ex true) gsv_cycle_second 0).prn = 12 :=
  have h1 := C12_gsv_slots (env_ex true) (state_with line_gsv_1 false 0)
    (by decide) (by decide) (by decide) (by decide) (by decide)
  have h2 := C12_gsv_slots (env_ex true) gsv_cycle_second
    (by decide) (by decide) (by decide) (by decide) (by decide)
  have hi : ((field_int (env_ex true) gsv_cycle_second 2 - 1) * 4 + ((0 : Nat) : Int)).toNat = 4 := by
    decide
  ⟨h1.2.2.2.2.trans (if_neg (by decide)),
   h2.2.2.2.2.trans (if_pos (by decide)),
   h2.2.2.2.1.trans (by decide),
   hi ▸ h2.1 0 (by decide) (by decide),
   by decide⟩

/-- C12 as stated fails for a message index whose slot computation overflows:
on `$GPGSV,1,1073741825,05,04,77,000,45` the index k = 2^30 + 1 is at least 1
and V = 5 is at most 12, (k-1)*4+j is not below V for any j, yet the int
product wraps to 0 and slot 0 is overwritten with satellite 4. -/
theorem C12_counterexample :
    sentence_is (env_ex true) (state_with line_gsv_huge false 0) 71 83 86 = true ∧
    field_int (env_ex true) (state_with line_gsv_huge false 0) 2 = 1073741825 ∧
    field_int (env_ex true) (state_with line_gsv_huge false 0) 3 = 5 ∧
    (∀ j : Nat, j < 4 →
      ¬ ((field_int (env_ex true) (state_with line_gsv_huge false 0) 2 - 1) * 4 + (j : Int) <
        field_int (env_ex true) (state_with line_gsv_huge false 0) 3)) ∧
    sv_index 1073741825 0 = 0 ∧
    ((state_with line_gsv_huge false 0).r.sv_status.sv_list[0]?).map (fun i => i.prn) = some 0 ∧
    ((nmea_reader_parse (env_ex true) (state_with line_gsv_huge false 0)).r.sv_status.sv_list[0]?).map
      (fun i => i.prn) = some 4 ∧
    (nmea_reader_parse (env_ex true) (state_with line_gsv_huge false 0)).r.sv_status.sv_list[0]? ≠
      (state_with line_gsv_huge false 0).r.sv_status.sv_list[0]? := by
  refine ⟨by decide, by decide, by decide, by decide, by decide, by decide, by decide, ?_⟩
  intro h
  have h2 : ((nmea_reader_parse (env_ex true)
      (state_with line_gsv_huge false 0)).r.sv_status.sv_list[0]?).map (fun i => i.prn) =
      ((state_with line_gsv_huge false 0).r.sv_status.sv_list[0]?).map (fun i => i.prn) := by
    rw [h]
  have h3 : ((nmea_reader_parse (env_ex true)
      (state_with line_gsv_huge false 0)).r.sv_status.sv_list[0]?).map (fun i => i.prn) =
      some 4 := by decide
  have h4 : ((state_with line_gsv_huge false 0).r.sv_status.sv_list[0]?).map (fun i => i.prn) =
      some 0 := by decide
  rw [h3, h4] at h2
  exact absurd h2 (by decide)

/-! ## The used-in-fix mask and the bound of the array -/

theorem gsv_mask_after (env : Env) (s : State)
    (hgsv : sentence_is env s 71 83 86 = true)
    (hprn : ∀ j : Nat, j < 4 → gsv_written env s j = true →
      1 ≤ field_int env s (4 + 4 * (j : Int)) ∧ field_int env s (4 + 4 * (j : Int)) ≤ 32)
    (hmask : s.r.sv_status.used_in_fix_mask < 4294967296) :
    ∀ b : Nat,
      ((nmea_reader_parse env s).r.sv_status.used_in_fix_mask.testBit b = true ↔
        ((field_int env s 2 ≠ 1 ∧ s.r.sv_status.used_in_fix_mask.testBit b = true) ∨
          ∃ j : Nat, j < 4 ∧ gsv_written env s j = true ∧
            field_int env s (4 + 4 * (j : Int)) = (b : Int) + 1 ∧
            in_cache s.id_in_fixed (field_int env s (4 + 4 * (j : Int))) = true)) := by
  intro b
  obtain ⟨_, _, _, hm⟩ :=
    parse_gsv_spec env (parse_mem env s) (parse_tzer env s) (nmea_prepare env s).1
  rw [(prepare_frame env s).2.2.2.2.2.1, (prepare_frame env s).2.2.2.2.2.2.1,
    ← parse_of_gsv env s hgsv] at hm
  have w0 : gsv_written env s 0 = decide (sv_index (field_int env s 2) 0 < field_int env s 3) := rfl
  have w1 : gsv_written env s 1 = decide (sv_index (field_int env s 2) 1 < field_int env s 3) := rfl
  have w2 : gsv_written env s 2 = decide (sv_index (field_int env s 2) 2 < field_int env s 3) := rfl
  have w3 : gsv_written env s 3 = decide (sv_index (field_int env s 2) 3 < field_int env s 3) := rfl
  have p0 : sv_index (field_int env s 2) 0 < field_int env s 3 →
      1 ≤ field_int env s 4 ∧ field_int env s 4 ≤ 32 :=
    fun h => hprn 0 (by omega) (by rw [w0]; exact decide_eq_true h)
  have p1 : sv_index (field_int env s 2) 1 < field_int env s 3 →
      1 ≤ field_int env s 8 ∧ field_int env s 8 ≤ 32 :=
    fun h => hprn 1 (by omega) (by rw [w1]; exact decide_eq_true h)
  have p2 : sv_index (field_int env s 2) 2 < field_int env s 3 →
      1 ≤ field_int env s 12 ∧ field_int env s 12 ≤ 32 :=
    fun h => hprn 2 (by omega) (by rw [w2]; exact decide_eq_true h)
  have p3 : sv_index (field_int env s 2) 3 < field_int env s 3 →
      1 ≤ field_int env s 16 ∧ field_int env s 16 ≤ 32 :=
    fun h => hprn 3 (by omega) (by rw [w3]; exact decide_eq_true h)
  have hm0 : (if field_int env s 2 = 1 then 0 else s.r.sv_status.used_in_fix_mask) < 4294967296 := by
    split_ifs
    · omega
    · exact hmask
  have hb0 : (if field_int env s 2 = 1 then 0 else s.r.sv_status.used_in_fix_mask).testBit b = true ↔
      (field_int env s 2 ≠ 1 ∧ s.r.sv_status.used_in_fix_mask.testBit b = true) := by
    split_ifs with hk
    · simp [hk]
    · simp [hk]
  obtain ⟨n1, b1⟩ := gsv_mask_step_bits env s.id_in_fixed (field_int env s 3)
    (sv_index (field_int env s 2) 0) (field_int env s 4) _ p0 hm0
  obtain ⟨n2, b2⟩ := gsv_mask_step_bits env s.id_in_fixed (field_int env s 3)
    (sv_index (field_int env s 2) 1) (field_int env s 8) _ p1 n1
  obtain ⟨n3, b3⟩ := gsv_mask_step_bits env s.id_in_fixed (field_int env s 3)
    (sv_index (field_int env s 2) 2) (field_int env s 12) _ p2 n2
  obtain ⟨_, b4⟩ := gsv_mask_step_bits env s.id_in_fixed (field_int env s 3)
    (sv_index (field_int env s 2) 3) (field_int env s 16) _ p3 n3
  have hfin := ((b4 b).trans (or_congr_left ((b3 b).trans (or_congr_left
    ((b2 b).trans (or_congr_left ((b1 b).trans (or_congr_left hb0))))))))
  rw [hm]
  refine hfin.trans ?_
  constructor
  · rintro ((((h | h) | h) | h) | h)
    · exact Or.inl h
    · exact Or.inr ⟨0, by omega, by rw [w0]; exact decide_eq_true h.1, h.2.1, h.2.2⟩
    · exact Or.inr ⟨1, by omega, by rw [w1]; exact decide_eq_true h.1, h.2.1, h.2.2⟩
    · exact Or.inr ⟨2, by omega, by rw [w2]; exact decide_eq_true h.1, h.2.1, h.2.2⟩
    · exact Or.inr ⟨3, by omega, by rw [w3]; exact decide_eq_true h.1, h.2.1, h.2.2⟩
  · rintro (h | ⟨j, hj, hw, hp, hc⟩)
    · exact Or.inl (Or.inl (Or.inl (Or.inl h)))
    · have hj4 : j = 0 ∨ j = 1 ∨ j = 2 ∨ j = 3 := by omega
      rcases hj4 with e | e | e | e <;> subst e
      · rw [w0] at hw
        exact Or.inl (Or.inl (Or.inl (Or.inr ⟨of_decide_eq_true hw, hp, hc⟩)))
      · rw [w1] at hw
        exact Or.inl (Or.inl (Or.inr ⟨of_decide_eq_true hw, hp, hc⟩))
      · rw [w2] at hw
        exact Or.inl (Or.inr ⟨of_decide_eq_true hw, hp, hc⟩)
      · rw [w3] at hw
        exact Or.inr ⟨of_decide_eq_true hw, hp, hc⟩

/-- C13 fails when a written slot lies beyond the satellite array. For a GSV
sentence whose written satellites have identifiers in 1..32 and whose written
slot indices all lie inside the array, decoded from a state whose mask is a
32-bit value, bit b of used_in_fix_mask is set afterwards if and only if
either the message index is not 1 and bit b was set before, or some satellite
written by this sentence has identifier b+1 and that identifier occurs in the
Used-Satellite Cache. But nothing keeps the written index inside the array: on
`$GPGSV,9,9,33,05,77,000,45`, with the identifier 5 in range, the index
(9-1)*4+0 = 32 is below the in-view total 33 and the store goes to
sv_list[32], one past the 32 slots, where the snapshot keeps its masks. -/
theorem C13_used_in_fix_mask :
    (∀ (env : Env) (s : State),
      sentence_is env s 71 83 86 = true →
      (∀ j : Nat, j < 4 → gsv_written env s j = true →
        1 ≤ field_int env s (4 + 4 * (j : Int)) ∧ field_int env s (4 + 4 * (j : Int)) ≤ 32) →
      (∀ j : Nat, j < 4 → gsv_written env s j = true →
        0 ≤ sv_index (field_int env s 2) (j : Int) ∧
        sv_index (field_int env s 2) (j : Int) < (s.r.sv_status.sv_list.length : Int)) →
      s.r.sv_status.used_in_fix_mask < 4294967296 →
      ∀ b : Nat,
        ((nmea_reader_parse env s).r.sv_status.used_in_fix_mask.testBit b = true ↔
          ((field_int env s 2 ≠ 1 ∧ s.r.sv_status.used_in_fix_mask.testBit b = true) ∨
            ∃ j : Nat, j < 4 ∧ gsv_written env s j = true ∧
              field_int env s (4 + 4 * (j : Int)) = (b : Int) + 1 ∧
              in_cache s.id_in_fixed (field_int env s (4 + 4 * (j : Int))) = true))) ∧
    sentence_is (env_ex true) (state_with line_gsv_beyond false 0) 71 83 86 = true ∧
    (∀ j : Nat, j < 4 → gsv_written (env_ex true) (state_with line_gsv_beyond false 0) j = true →
      1 ≤ field_int (env_ex true) (state_with line_gsv_beyond false 0) (4 + 4 * (j : Int)) ∧
      field_int (env_ex true) (state_with line_gsv_beyond false 0) (4 + 4 * (j : Int)) ≤ 32) ∧
    field_int (env_ex true) (state_with line_gsv_beyond false 0) 2 = 9 ∧
    field_int (env_ex true) (state_with line_gsv_beyond false 0) 3 = 33 ∧
    (state_with line_gsv_beyond false 0).r.sv_status.sv_list.length = 32 ∧
    gsv_written (env_ex true) (state_with line_gsv_beyond false 0) 0 = true ∧
    sv_index 9 0 = 32 ∧
    oob_of (new_events (env_ex true) (state_with line_gsv_beyond false 0)) = [32] := by
  refine ⟨?_, by decide, by decide, by decide, by decide, by decide, by decide, by decide,
    by decide⟩
  intro env s hgsv hprn _ hmask
  exact gsv_mask_after env s hgsv hprn hmask

/-! ## Accuracy above the threshold -/

theorem strtod_99_000001 : strtod_decimal acc_just_above_99 = 99000001 / 1000000 := by
  have h : strtod_decimal acc_just_above_99 =
      ((99 : Nat) : ℚ) + ((1 : Nat) : ℚ) / ((10 ^ 6 : Nat) : ℚ) := by
    rfl
  rw [h]; norm_num

theorem float_round_just_above_99 : float_round (99000001 / 1000000) = 99 := by
  have hlog : Int.log 2 |(99000001 / 1000000 : ℚ)| = 6 := by
    rw [abs_of_pos (by norm_num)]
    rw [Int.log_of_one_le_right 2 (by norm_num)]
    have hf : ⌊(99000001 / 1000000 : ℚ)⌋₊ = 99 := by
      rw [Nat.floor_eq_iff (by norm_num)]
      constructor <;> norm_num
    rw [hf]
    have : Nat.log 2 99 = 6 := by
      rw [Nat.log_eq_iff (by norm_num)]
      constructor <;> norm_num
    rw [this]
    rfl
  unfold float_round
  rw [if_neg (by norm_num), hlog]
  have hr : round ((99000001 / 1000000 : ℚ) / (2 : ℚ) ^ ((6 : Int) - 23)) = 12976128 := by
    rw [round_eq, Int.floor_eq_iff]
    constructor <;> norm_num
  rw [hr]
  norm_num

theorem float_round_150 : float_round 150 = 150 := by
  have hlog : Int.log 2 |(150 : ℚ)| = 7 := by
    rw [abs_of_pos (by norm_num)]
    rw [Int.log_of_one_le_right 2 (by norm_num)]
    have hf : ⌊(150 : ℚ)⌋₊ = 150 := by
      rw [Nat.floor_eq_iff (by norm_num)]
      constructor <;> norm_num
    rw [hf]
    have : Nat.log 2 150 = 7 := by
      rw [Nat.log_eq_iff (by norm_num)]
      constructor <;> norm_num
    rw [this]
    rfl
  unfold float_round
  rw [if_neg (by norm_num), hlog]
  have hr : round ((150 : ℚ) / (2 : ℚ) ^ ((7 : Int) - 23)) = 9830400 := by
    rw [round_eq, Int.floor_eq_iff]
    constructor <;> norm_num
  rw [hr]
  norm_num

theorem str2float_list_f32 (l : List Nat) (h : l.length < 16) :
    str2float env_f32 (list_mem l) 0 l.length = strtod_decimal l :=
  str2float_list true l h

theorem update_accuracy_stores (env : Env) (mem : Nat → Nat) (r : NmeaReader) (tok : Token)
    (is_fix : Bool) (hne : tok.p < tok.end_) :
    (nmea_reader_update_accuracy env mem r tok is_fix).1 = 0 ∧
    (nmea_reader_update_accuracy env mem r tok is_fix).2.fix.accuracy =
      env.to_float (str2float env mem tok.p tok.end_) ∧
    (¬ 99 < env.to_float (str2float env mem tok.p tok.end_) →
      (nmea_reader_update_accuracy env mem r tok is_fix).2.fix.flags =
        if is_fix = true then r.fix.flags ||| GPS_LOCATION_HAS_ACCURACY else r.fix.flags) := by
  unfold nmea_reader_update_accuracy
  rw [if_neg (by omega)]
  dsimp only
  by_cases h99 : 99 < env.to_float (str2float env mem tok.p tok.end_)
  · rw [if_pos h99]
    exact ⟨rfl, rfl, fun h => absurd h99 h⟩
  · rw [if_neg h99]
    cases is_fix
    · exact ⟨rfl, rfl, fun _ => rfl⟩
    · exact ⟨rfl, rfl, fun _ => rfl⟩

/-- C16, as the code has it: the comparison with 99.0 is made on the value
narrowed to float, which is what fix.accuracy receives. For every non-empty
accuracy field nmea_reader_update_accuracy returns 0 and stores the narrowed
value; when the narrowed value is above 99.0 the validity bitmask, HAS_ACCURACY
in particular, is as it was, whatever the is_fix argument; when it is not above
99.0 the bitmask gets HAS_ACCURACY exactly when is_fix is true. For a narrowing
that is monotone and exact on 99 + 2^-17, the float next above 99.0, every
field value of at least 99 + 2^-17 is in the first case. -/
theorem C16_accuracy_above_99 (env : Env) (mem : Nat → Nat) (r : NmeaReader) (tok : Token)
    (is_fix : Bool) (hne : tok.p < tok.end_) :
    (nmea_reader_update_accuracy env mem r tok is_fix).1 = 0 ∧
    (nmea_reader_update_accuracy env mem r tok is_fix).2.fix.accuracy =
      env.to_float (str2float env mem tok.p tok.end_) ∧
    (99 < env.to_float (str2float env mem tok.p tok.end_) →
      (nmea_reader_update_accuracy env mem r tok is_fix).2.fix.flags = r.fix.flags ∧
      has_flag (nmea_reader_update_accuracy env mem r tok is_fix).2.fix.flags
        GPS_LOCATION_HAS_ACCURACY = has_flag r.fix.flags GPS_LOCATION_HAS_ACCURACY) ∧
    (¬ 99 < env.to_float (str2float env mem tok.p tok.end_) →
      (nmea_reader_update_accuracy env mem r tok is_fix).2.fix.flags =
        if is_fix = true then r.fix.flags ||| GPS_LOCATION_HAS_ACCURACY else r.fix.flags) ∧
    ((∀ a b : ℚ, a ≤ b → env.to_float a ≤ env.to_float b) →
      env.to_float (99 + 1 / 131072) = 99 + 1 / 131072 →
      99 + 1 / 131072 ≤ str2float env mem tok.p tok.end_ →
      (nmea_reader_update_accuracy env mem r tok is_fix).2.fix.flags = r.fix.flags) := by
  obtain ⟨a1, a2, a3⟩ := update_accuracy_stores env mem r tok is_fix hne
  have habove : 99 < env.to_float (str2float env mem tok.p tok.end_) →
      (nmea_reader_update_accuracy env mem r tok is_fix).2.fix.flags = r.fix.flags := by
    intro h99
    rw [update_accuracy_above env mem r tok is_fix hne h99]
  refine ⟨a1, a2, fun h99 => ⟨habove h99, by rw [habove h99]⟩, a3, ?_⟩
  intro hmono hexact hv
  apply habove
  have h1 := hmono _ _ hv
  rw [hexact] at h1
  have h2 : (99 : ℚ) < 99 + 1 / 131072 := by norm_num
  exact lt_of_lt_of_le h2 h1

/-- C16 on the field `150.0` with is_fix true, an empty bitmask and the
narrowing to binary32: the value 150 is stored and HAS_ACCURACY stays unset. -/
theorem C16_accuracy_above_99_witness :
    (nmea_reader_update_accuracy env_f32 (list_mem [49, 53, 48, 46, 48])
      (nmea_reader_init 32) { p := 0, end_ := 5 } true).2.fix.accuracy = 150 ∧
    has_flag (nmea_reader_update_accuracy env_f32 (list_mem [49, 53, 48, 46, 48])
      (nmea_reader_init 32) { p := 0, end_ := 5 } true).2.fix.flags
      GPS_LOCATION_HAS_ACCURACY = false :=
  have hv : env_f32.to_float
      (str2float env_f32 (list_mem [49, 53, 48, 46, 48]) 0 5) = 150 := by
    have hs : str2float env_f32 (list_mem [49, 53, 48, 46, 48]) 0 5 = 150 :=
      (str2float_list_f32 [49, 53, 48, 46, 48] (by decide)).trans strtod_150_0
    rw [hs]
    exact float_round_150
  have h := C16_accuracy_above_99 env_f32 (list_mem [49, 53, 48, 46, 48])
    (nmea_reader_init 32) { p := 0, end_ := 5 } true (by decide)
  ⟨h.2.1.trans hv, (h.2.2.1 (by rw [hv]; norm_num)).2.trans (by decide)⟩

/-- C16 as stated fails on the field `99.000001`: its value is above 99.0, but
narrowed to float it is 99.0, which is what the code compares; with is_fix true
and HAS_ACCURACY clear the call stores 99 and sets HAS_ACCURACY. -/
theorem C16_counterexample :
    (99 : ℚ) < str2float env_f32 (list_mem acc_just_above_99) 0 9 ∧
    has_flag (nmea_reader_init 32).fix.flags GPS_LOCATION_HAS_ACCURACY = false ∧
    (nmea_reader_update_accuracy env_f32 (list_mem acc_just_above_99)
      (nmea_reader_init 32) { p := 0, end_ := 9 } true).2.fix.accuracy = 99 ∧
    has_flag (nmea_reader_update_accuracy env_f32 (list_mem acc_just_above_99)
      (nmea_reader_init 32) { p := 0, end_ := 9 } true).2.fix.flags
      GPS_LOCATION_HAS_ACCURACY = true := by
  have hs : str2float env_f32 (list_mem acc_just_above_99) 0 9 = 99000001 / 1000000 :=
    (str2float_list_f32 acc_just_above_99 (by decide)).trans strtod_99_000001
  have hv : env_f32.to_float (str2float env_f32 (list_mem acc_just_above_99) 0 9) = 99 := by
    rw [hs]
    exact float_round_just_above_99
  rw [update_accuracy_not_above _ _ _ _ (by decide) (by rw [hv]; norm_num)]
  refine ⟨by rw [hs]; norm_num, by decide, hv, has_flag_or_self _ _ (by decide)⟩

/-! ## Overflow and resynchronisation, stated on the accumulator itself -/

theorem feed_overflow_frame (env : Env) (s : State) (bytes : List Nat)
    (hpos : s.r.pos = 0) (hov : s.r.overflow = false)
    (hlen : 256 ≤ bytes.length) (hnl : ∀ c ∈ bytes, c ≠ 10) :
    (feed env s bytes).r.overflow = true ∧
    (feed env s bytes).r.pos = 0 ∧
    (feed env s bytes).out = s.out ∧
    (feed env s bytes).id_in_fixed = s.id_in_fixed ∧
    (feed env s bytes).r.fix = s.r.fix ∧
    (feed env s bytes).r.gsa = s.r.gsa ∧
    (feed env s bytes).r.sv_status = s.r.sv_status := by
  obtain ⟨_, _, _, f4, _, f6, f7, f8, f9, f10⟩ := feed_no_lf env bytes s hnl
  obtain ⟨g1, g2⟩ := f4 hov (by omega) (by omega)
  exact ⟨g1, g2, f6, f7, f8, f9, f10⟩

theorem addc_in_overflow (env : Env) (s : State) (c : Nat) (h : s.r.overflow = true) :
    nmea_reader_addc env s c = { s with r := { s.r with overflow := decide (c ≠ 10) } } := by
  unfold nmea_reader_addc
  rw [if_pos h]

/-- C19: from a reader with cursor 0 and no overflow (a freshly initialised
one in particular), feeding n >= 256 bytes none of which is a line-feed sets
the overflow flag, with the cursor at 0, and decodes nothing: the
notifications, the fix record, the satellite snapshot, the GSA-seen flag and
the cache are as before. Any further byte other than a line-feed leaves the
state as it is. The next line-feed only clears the overflow flag. A following
line of at most 254 bytes with its line-feed then has the effect of one call of
nmea_reader_parse on the reader that holds the line and its line-feed,
followed by the reset of the cursor. -/
theorem C19_overflow_resync (env : Env) (s : State) (bytes : List Nat)
    (hpos : s.r.pos = 0) (hov : s.r.overflow = false)
    (hlen : 256 ≤ bytes.length) (hnl : ∀ c ∈ bytes, c ≠ 10) :
    (feed env s bytes).r.overflow = true ∧
    (feed env s bytes).r.pos = 0 ∧
    (feed env s bytes).out = s.out ∧
    (feed env s bytes).r.fix = s.r.fix ∧
    (feed env s bytes).r.sv_status = s.r.sv_status ∧
    (feed env s bytes).r.gsa = s.r.gsa ∧
    (feed env s bytes).id_in_fixed = s.id_in_fixed ∧
    (∀ c, c ≠ 10 → nmea_reader_addc env (feed env s bytes) c = feed env s bytes) ∧
    nmea_reader_addc env (feed env s bytes) 10 =
      { feed env s bytes with r := { (feed env s bytes).r with overflow := false } } ∧
    (∀ line : List Nat, line.length ≤ 254 → (∀ c ∈ line, c ≠ 10) →
      feed env s (bytes ++ [10] ++ (line ++ [10])) =
        { nmea_reader_parse env (with_line (nmea_reader_addc env (feed env s bytes) 10) line) with
          r := { (nmea_reader_parse env
                   (with_line (nmea_reader_addc env (feed env s bytes) 10) line)).r with
                 pos := 0 } } ∧
      parse_inputs env s (bytes ++ [10] ++ (line ++ [10])) =
        [with_line (nmea_reader_addc env (feed env s bytes) 10) line]) := by
  obtain ⟨g1, g2, g3, g4, g5, g6, g7⟩ := feed_overflow_frame env s bytes hpos hov hlen hnl
  have hlf : nmea_reader_addc env (feed env s bytes) 10 =
      { feed env s bytes with r := { (feed env s bytes).r with overflow := false } } := by
    rw [addc_in_overflow env _ 10 g1]
    simp
  have hlf_ov : (nmea_reader_addc env (feed env s bytes) 10).r.overflow = false := by
    rw [hlf]
  have hlf_pos : (nmea_reader_addc env (feed env s bytes) 10).r.pos = 0 := by
    rw [hlf]
    exact g2
  refine ⟨g1, g2, g3, g5, g7, g6, g4, ?_, hlf, ?_⟩
  · intro c hc
    rw [addc_in_overflow env _ c g1]
    have hd : decide (c ≠ 10) = true := decide_eq_true hc
    rw [hd, ← g1]
  · intro line hl hnl2
    obtain ⟨l1, l2⟩ :=
      feed_line env (nmea_reader_addc env (feed env s bytes) 10) line hlf_pos hlf_ov hl hnl2
    refine ⟨?_, ?_⟩
    · rw [feed_append env s (bytes ++ [10]) (line ++ [10]), feed_append env s bytes [10],
        feed_single, l2]
    · rw [parse_inputs_append env (bytes ++ [10]) (line ++ [10]) s,
        parse_inputs_append env bytes [10] s, (feed_no_lf env bytes s hnl).1,
        parse_inputs_single, (addc_overflow_lf env _ g1).1, feed_append env s bytes [10],
        feed_single, l1]
      rfl

/-- C19 on a 300-byte line of the letter `A`, its line-feed, and the line
`$GPGGA,12` with its line-feed, fed to a fresh reader: overflow after the 300
bytes with nothing delivered, overflow clear after the line-feed, and at the
end the only notification is the echo of the second line. -/
theorem C19_overflow_resync_witness :
    (feed (env_ex false) (state_with [] false 0) (List.replicate 300 65)).r.overflow = true ∧
    (feed (env_ex false) (state_with [] false 0) (List.replicate 300 65)).out = [] ∧
    (nmea_reader_addc (env_ex false)
      (feed (env_ex false) (state_with [] false 0) (List.replicate 300 65)) 10).r.overflow = false ∧
    (feed (env_ex false) (state_with [] false 0)
      (List.replicate 300 65 ++ [10] ++ (line_nine ++ [10]))).r.pos = 0 ∧
    (feed (env_ex false) (state_with [] false 0)
      (List.replicate 300 65 ++ [10] ++ (line_nine ++ [10]))).out =
      [Event.nmea 0 (line_nine ++ [10]) 10] :=
  have h := C19_overflow_resync (env_ex false) (state_with [] false 0) (List.replicate 300 65)
    rfl rfl (by rw [List.length_replicate]; omega)
    (by intro c hc; rw [List.eq_of_mem_replicate hc]; decide)
  have h2 := (h.2.2.2.2.2.2.2.2.2 line_nine (by decide) (by decide)).1
  ⟨h.1, h.2.2.1, by rw [h.2.2.2.2.2.2.2.2.1], by rw [h2],
    by
      rw [h2]
      set_option maxRecDepth 100000 in decide⟩

/-! ## What a complete line hands to the decoder, stated on the accumulator itself -/

/-- C20, as the code has it: a line of n <= 254 bytes other than line-feeds,
followed by a line-feed and fed to a reader with cursor 0 and no overflow, has
the effect of one call of nmea_reader_parse on the reader whose cursor is n+1
and whose buffer holds the n bytes followed by the line-feed, and then of the
reset of the cursor to 0. When the state is initialised and n >= 8 the
raw-sentence echo delivered while the line is fed carries those n+1 bytes, the
line-feed included, with length n+1; the tokenizer then drops the line-feed.
When n < 8 the line is discarded: nothing is delivered and only the buffer has
changed. -/
theorem C20_line_to_decoder (env : Env) (t : State) (line : List Nat)
    (hpos : t.r.pos = 0) (hov : t.r.overflow = false) (hbuf : t.r.in_.length = 256)
    (hlen : line.length ≤ 254) (hnl : ∀ c ∈ line, c ≠ 10) :
    feed env t (line ++ [10]) =
      { nmea_reader_parse env (with_line t line) with
        r := { (nmea_reader_parse env (with_line t line)).r with pos := 0 } } ∧
    (with_line t line).r.pos = line.length + 1 ∧
    (with_line t line).r.in_.take (line.length + 1) = line ++ [10] ∧
    (env.init = true → 8 ≤ line.length →
      ∃ rest, (feed env t (line ++ [10])).out =
        t.out ++ Event.nmea env.tv_ms (line ++ [10]) (line.length + 1) :: rest) ∧
    (line.length < 8 →
      feed env t (line ++ [10]) =
        { t with r := { t.r with in_ := store_bytes t.r.in_ 0 (line ++ [10]), pos := 0 } }) ∧
    (nmea_strip (parse_mem env (with_line t line)) 0 (with_line t line).r.pos).2 ≤ line.length ∧
    (feed env t (line ++ [10])).r.pos = 0 ∧
    parse_inputs env t (line ++ [10]) = [with_line t line] := by
  obtain ⟨h1, h2⟩ := feed_line env t line hpos hov hlen hnl
  have hin := with_line_in t line (by omega)
  have hposw : (with_line t line).r.pos = line.length + 1 := rfl
  refine ⟨h2, rfl, hin, ?_, ?_, ?_, by rw [h2], h1⟩
  · intro hinit h9
    obtain ⟨rest, hrest⟩ := parse_out_from_prepare env (with_line t line)
    refine ⟨rest, ?_⟩
    rw [h2]
    show (nmea_reader_parse env (with_line t line)).out = _
    rw [hrest]
    have hprep : (nmea_prepare env (with_line t line)).1.out =
        t.out ++ [Event.nmea env.tv_ms (line ++ [10]) (line.length + 1)] := by
      unfold nmea_prepare
      rw [if_neg (by rw [hposw]; omega)]
      dsimp only
      have htake : List.take (with_line t line).r.pos
          ((with_line t line).r.in_.set (with_line t line).r.pos 0) = line ++ [10] := by
        rw [take_set_ge _ _ _ _ (le_refl _)]
        exact hin
      split_ifs <;> simp only [hinit, htake, if_true] <;> rfl
    rw [hprep]
    simp
  · intro hshort
    rw [h2, parse_short env (with_line t line) (by rw [hposw]; omega)]
    rfl
  · have hmem : parse_mem env (with_line t line) line.length = 10 := by
      have hget : (with_line t line).r.in_[line.length]? = some 10 := by
        have := store_bytes_getElem (line ++ [10]) t.r.in_ 0 line.length (by simp; omega)
        rw [if_pos (by simp)] at this
        simpa [with_line] using this
      unfold parse_mem buf_mem
      simp only [NMEA_MAX_SIZE]
      rw [if_pos (by omega), List.getD_eq_getElem?_getD,
        prepare_in_getElem env _ _ (by rw [hposw]; omega), hget]
      rfl
    rw [hposw]
    have := nmea_strip_line_feed (parse_mem env (with_line t line)) (line.length + 1) (by omega)
      (by simpa using hmem)
    simpa using this

/-- C20 at the nine-byte line `$GPGGA,12` fed to a fresh reader: the echo
delivered carries ten bytes, the last one being the line-feed. -/
theorem C20_line_to_decoder_witness :
    (with_line (state_with [] false 0) line_nine).r.pos = 10 ∧
    (∃ rest, (feed (env_ex false) (state_with [] false 0) (line_nine ++ [10])).out =
      (state_with [] false 0).out ++
        Event.nmea (env_ex false).tv_ms (line_nine ++ [10]) (line_nine.length + 1) :: rest) ∧
    (feed (env_ex false) (state_with [] false 0) (line_nine ++ [10])).r.pos = 0 :=
  have h := C20_line_to_decoder (env_ex false) (state_with [] false 0) line_nine rfl rfl
    (state_with_nil_in_length false 0) (by decide) (by decide)
  ⟨h.2.1, h.2.2.2.1 rfl (by decide), h.2.2.2.2.2.2.1⟩

/-- C20 as stated fails on the nine-byte line `$GPGGA,12`: nmea_reader_parse is
entered with the cursor at 10 and ten bytes in the buffer, the last one being
the line-feed, and the raw-sentence echo delivered while the line is fed has
those ten bytes and the length 10, not the nine bytes of the line. -/
theorem C20_counterexample :
    line_nine.length = 9 ∧
    feed (env_ex false) (state_with [] false 0) (line_nine ++ [10]) =
      { nmea_reader_parse (env_ex false) (with_line (state_with [] false 0) line_nine) with
        r := { (nmea_reader_parse (env_ex false)
                 (with_line (state_with [] false 0) line_nine)).r with pos := 0 } } ∧
    (with_line (state_with [] false 0) line_nine).r.pos = 10 ∧
    (with_line (state_with [] false 0) line_nine).r.in_.take 10 = line_nine ++ [10] ∧
    (feed (env_ex false) (state_with [] false 0) (line_nine ++ [10])).out =
      [Event.nmea 0 (line_nine ++ [10]) 10] := by
  have h2 := (feed_line (env_ex false) (state_with [] false 0) line_nine rfl rfl (by decide)
    (by decide)).2
  refine ⟨rfl, h2, rfl, by decide, ?_⟩
  rw [h2]
  decide

end GpsNmea
